import Mathlib

/-!
# xprin test-suite specification: merge and validation

A shallow embedding of `internal/api/api.go` (package `api`) and proofs about it.

Modelling conventions:

* a Go `string` is a Lean `String`; ranging over a Go string yields its runes, here the
  characters of `String.data`; `len(s)` is the byte length `String.utf8ByteSize`. A Go string
  that is not valid UTF-8 has no counterpart here (ranging over it yields U+FFFD for each bad
  byte, which `hasValidID` rejects like any other character outside its set);
* a Go slice `[]T` is the `List T` of its elements (a nil slice and an empty slice both have
  length 0 and the code only ever asks for the length). These are values: which slices share a
  backing array, and which pointers point to the same variable, is not part of the model;
* a Go `map[string]string` is a finite map `Finmap` (key/value pairs without order);
* the pointer `*bool` is an `Option Bool`: `none` is the nil pointer, `some b` points to `b`;
* a Go `error` is an `Option String`: `none` is the nil error, `some msg` an error whose
  message is `msg`;
* the `any`-typed field `AssertionXprin.Value` has values in a type `V` that the development is
  parametric in; `default : V` is the zero value (the nil interface).
-/

namespace Api

/-! ## Data model -/

/-- The Go type `map[string]string`. -/
abbrev StringMap : Type := Finmap (fun _ : String => String)

/-- The Go type `error`: `none` is `nil`, `some msg` is an error with message `msg`. -/
abbrev GoError : Type := Option String

/-- Patches represents XR patching configuration. -/
structure Patches where
  XRD : String
  ConnectionSecret : Option Bool
  ConnectionSecretName : String
  ConnectionSecretNamespace : String

/-- Hook represents a single executable step with optional metadata. -/
structure Hook where
  Name : String
  Run : String

/-- Hooks represents the execution hooks configuration. -/
structure Hooks where
  PreTest : List Hook
  PostTest : List Hook

/-- AssertionXprin represents a single xprin assertion; the Go field `Type` is `Type_` here. -/
structure AssertionXprin (V : Type) where
  Name : String
  Type_ : String
  Resource : String
  Field : String
  Operator : String
  Value : V

/-- AssertionGoldenFile represents a single golden-file assertion. -/
structure AssertionGoldenFile where
  Name : String
  Expected : String
  Resource : String

/-- Assertions represents assertions grouped by execution engine. -/
structure Assertions (V : Type) where
  Xprin : List (AssertionXprin V)
  Diff : List AssertionGoldenFile
  Dyff : List AssertionGoldenFile

/-- Inputs represents the inputs for a test case or common configuration. -/
structure Inputs where
  Claim : String
  XR : String
  Composition : String
  Functions : String
  CRDs : List String
  ContextFiles : StringMap
  ContextValues : StringMap
  ObservedResources : String
  ExtraResources : String
  FunctionCredentials : String

/-- Common represents the common configuration for a testsuite file. -/
structure Common (V : Type) where
  Inputs : Inputs
  Patches : Patches
  Hooks : Hooks
  Assertions : Assertions V

/-- TestCase represents a single test case. -/
structure TestCase (V : Type) where
  Name : String
  ID : String
  Inputs : Inputs
  Patches : Patches
  Hooks : Hooks
  Assertions : Assertions V

/-- TestSuiteSpec represents the structure of a testsuite file. -/
structure TestSuiteSpec (V : Type) where
  Common : Common V
  Tests : List (TestCase V)

/-! ## Go built-ins used by the code -/

/-- The built-in `len` on a `map[string]string`: the number of keys. -/
def mapLen (m : StringMap) : Nat := m.keys.card

/-- The call `maps.Copy(dst, src)`: every key/value pair of `src` is written into `dst`,
overwriting the value of a key that `dst` already has. -/
def mapsCopy (dst src : StringMap) : StringMap := src ∪ dst

/-- The call `make([]T, n)`: a slice of `n` zero values. -/
def makeSlice {α : Type} [Inhabited α] (n : Nat) : List α := List.replicate n default

/-- The built-in `copy(dst, src)`: the first `min(len(dst), len(src))` elements of `dst` are
overwritten with those of `src`; the value is `dst` afterwards. -/
def copySlice {α : Type} (dst src : List α) : List α :=
  src.take dst.length ++ dst.drop src.length

/-- The call `strings.Join(elems, sep)`. -/
def stringsJoin (elems : List String) (sep : String) : String := sep.intercalate elems

instance : Inhabited Hook := ⟨⟨"", ""⟩⟩

instance : Inhabited AssertionGoldenFile := ⟨⟨"", "", ""⟩⟩

instance {V : Type} [Inhabited V] : Inhabited (AssertionXprin V) :=
  ⟨⟨"", "", "", "", "", default⟩⟩

/-! ## Suite-level validation -/

/-- The loop body of `hasValidID`: false at the first rune outside `[A-Za-z0-9_-]`. -/
def hasValidIDLoop : List Char → Bool
  | [] => true
  | char :: rest =>
    if (char < 'a' || char > 'z') && (char < 'A' || char > 'Z') &&
        (char < '0' || char > '9') && char != '_' && char != '-' then
      false
    else
      hasValidIDLoop rest

/-- The closure `hasValidID` of `CheckValidTestSuiteFile`. -/
def hasValidID (id : String) : Bool :=
  if id.utf8ByteSize == 0 then
    false
  else
    hasValidIDLoop id.data

/-- The local variables of `CheckValidTestSuiteFile` that the loop updates: the collected
messages and the map `usedIDs` (a missing key reads as `false`). -/
structure CheckState where
  allErrors : List String
  usedIDs : String → Bool

/-- One iteration of the loop over `ts.Tests`. -/
def checkTest {V : Type} (st : CheckState) (test : TestCase V) : CheckState :=
  let st1 : CheckState :=
    if test.Name = "" then
      { st with allErrors := st.allErrors ++ ["test case has empty name"] }
    else st
  if test.ID ≠ "" then
    let st2 : CheckState :=
      if !hasValidID test.ID then
        { st1 with allErrors := st1.allErrors ++
            ["test case ID '" ++ test.ID ++
              "' contains invalid characters (allowed: alphanumeric, underscore, hyphen)"] }
      else st1
    if st2.usedIDs test.ID then
      { st2 with allErrors := st2.allErrors ++
          ["duplicate test case ID '" ++ test.ID ++ "' found"] }
    else
      { st2 with usedIDs := fun k => if k = test.ID then true else st2.usedIDs k }
  else st1

/-- The messages collected by `CheckValidTestSuiteFile` when its loop is over. -/
def TestSuiteSpec.suiteErrors {V : Type} (ts : TestSuiteSpec V) : List String :=
  (ts.Tests.foldl checkTest ⟨[], fun _ => false⟩).allErrors

/-- CheckValidTestSuiteFile checks that test case names are non-empty and that test case IDs
are well formed and unique (only for tests that have IDs). -/
def TestSuiteSpec.CheckValidTestSuiteFile {V : Type} (ts : TestSuiteSpec V) : GoError :=
  let allErrors := ts.suiteErrors
  if allErrors.length > 0 then
    some ("invalid testsuite file:\n- " ++ stringsJoin allErrors "\n- ")
  else
    none

/-! ## Predicate layer -/

/-- HasConnectionSecret returns true if ConnectionSecret is explicitly set to true. -/
def Patches.HasConnectionSecret (p : Patches) : Bool :=
  match p.ConnectionSecret with
  | none => false
  | some b => b

/-- HasPatches returns true if any patches are set. -/
def Patches.HasPatches (p : Patches) : Bool :=
  p.XRD != "" ||
    p.HasConnectionSecret ||
    p.ConnectionSecretName != "" ||
    p.ConnectionSecretNamespace != ""

/-- HasPreTestHooks returns true if any pre-test hooks are set. -/
def Hooks.HasPreTestHooks (h : Hooks) : Bool := h.PreTest.length > 0

/-- HasPostTestHooks returns true if any post-test hooks are set. -/
def Hooks.HasPostTestHooks (h : Hooks) : Bool := h.PostTest.length > 0

/-- HasHooks returns true if any hooks are set. -/
def Hooks.HasHooks (h : Hooks) : Bool := h.HasPreTestHooks || h.HasPostTestHooks

/-- HasAssertionsXprin returns true if any xprin assertions are set. -/
def Assertions.HasAssertionsXprin {V : Type} (a : Assertions V) : Bool := a.Xprin.length > 0

/-- HasAssertionsDiff returns true if any diff assertions are set. -/
def Assertions.HasAssertionsDiff {V : Type} (a : Assertions V) : Bool := a.Diff.length > 0

/-- HasAssertionsDyff returns true if any dyff assertions are set. -/
def Assertions.HasAssertionsDyff {V : Type} (a : Assertions V) : Bool := a.Dyff.length > 0

/-- HasAssertions returns true if any assertions are set. -/
def Assertions.HasAssertions {V : Type} (a : Assertions V) : Bool :=
  a.HasAssertionsXprin || a.HasAssertionsDiff || a.HasAssertionsDyff

/-- HasXR returns true if the TestCase has an XR field specified. -/
def TestCase.HasXR {V : Type} (tc : TestCase V) : Bool := tc.Inputs.XR != ""

/-- HasClaim returns true if the TestCase has a Claim field specified. -/
def TestCase.HasClaim {V : Type} (tc : TestCase V) : Bool := tc.Inputs.Claim != ""

/-- HasPatches checks if any patches are set in the test case. -/
def TestCase.HasPatches {V : Type} (tc : TestCase V) : Bool := tc.Patches.HasPatches

/-- HasPreTestHooks checks if any pre-test hooks are set in the test case. -/
def TestCase.HasPreTestHooks {V : Type} (tc : TestCase V) : Bool := tc.Hooks.HasPreTestHooks

/-- HasPostTestHooks checks if any post-test hooks are set in the test case. -/
def TestCase.HasPostTestHooks {V : Type} (tc : TestCase V) : Bool := tc.Hooks.HasPostTestHooks

/-- HasHooks checks if any hooks are set in the test case. -/
def TestCase.HasHooks {V : Type} (tc : TestCase V) : Bool := tc.Hooks.HasHooks

/-- HasAssertionsXprin checks if any xprin assertions are set in the test case. -/
def TestCase.HasAssertionsXprin {V : Type} (tc : TestCase V) : Bool :=
  tc.Assertions.HasAssertionsXprin

/-- HasAssertionsDiff checks if any diff assertions are set in the test case. -/
def TestCase.HasAssertionsDiff {V : Type} (tc : TestCase V) : Bool :=
  tc.Assertions.HasAssertionsDiff

/-- HasAssertionsDyff checks if any dyff assertions are set in the test case. -/
def TestCase.HasAssertionsDyff {V : Type} (tc : TestCase V) : Bool :=
  tc.Assertions.HasAssertionsDyff

/-- HasAssertions returns true if any assertions are defined. -/
def TestCase.HasAssertions {V : Type} (tc : TestCase V) : Bool := tc.Assertions.HasAssertions

/-- HasCommonPatches returns true if any common patches are set in the test suite. -/
def TestSuiteSpec.HasCommonPatches {V : Type} (ts : TestSuiteSpec V) : Bool :=
  ts.Common.Patches.HasPatches

/-- HasCommonHooks returns true if any common hooks are set in the test suite. -/
def TestSuiteSpec.HasCommonHooks {V : Type} (ts : TestSuiteSpec V) : Bool :=
  ts.Common.Hooks.HasHooks

/-- HasCommonAssertions returns true if any common assertions are set in the test suite. -/
def TestSuiteSpec.HasCommonAssertions {V : Type} (ts : TestSuiteSpec V) : Bool :=
  ts.Common.Assertions.HasAssertions

/-- HasCommon returns true if any common inputs are set in the test suite spec. -/
def TestSuiteSpec.HasCommon {V : Type} (ts : TestSuiteSpec V) : Bool :=
  ts.Common.Inputs.XR != "" ||
    ts.Common.Inputs.Claim != "" ||
    ts.Common.Inputs.Composition != "" ||
    ts.Common.Inputs.Functions != "" ||
    ts.Common.Inputs.CRDs.length > 0 ||
    mapLen ts.Common.Inputs.ContextFiles > 0 ||
    mapLen ts.Common.Inputs.ContextValues > 0 ||
    ts.Common.Inputs.ObservedResources != "" ||
    ts.Common.Inputs.ExtraResources != "" ||
    ts.Common.Inputs.FunctionCredentials != "" ||
    ts.HasCommonPatches ||
    ts.HasCommonHooks ||
    ts.HasCommonAssertions

/-! ## Connection-secret check -/

/-- CheckConnectionSecret validates connection secret configuration: ConnectionSecret unset
with ConnectionSecretName/Namespace set is an error; set to true or false it is none. -/
def Patches.CheckConnectionSecret (p : Patches) : GoError :=
  if p.ConnectionSecretName != "" || p.ConnectionSecretNamespace != "" then
    if p.ConnectionSecret = none then
      some ("connection-secret must be set to true when using connection-secret-name or " ++
        "connection-secret-namespace")
    else
      none
  else
    none

/-! ## Merge engine -/

/-- MergeCommon merges common inputs, patches, hooks and assertions into the test case. The Go
method updates the receiver in place; here the updated test case is the result. -/
def TestCase.MergeCommon {V : Type} [Inhabited V] (tc : TestCase V) (common : Common V) :
    TestCase V :=
  let tc := if tc.Inputs.XR = "" then
      { tc with Inputs := { tc.Inputs with XR := common.Inputs.XR } } else tc
  let tc := if tc.Inputs.Claim = "" then
      { tc with Inputs := { tc.Inputs with Claim := common.Inputs.Claim } } else tc
  let tc := if tc.Inputs.Composition = "" then
      { tc with Inputs := { tc.Inputs with Composition := common.Inputs.Composition } } else tc
  let tc := if tc.Inputs.Functions = "" then
      { tc with Inputs := { tc.Inputs with Functions := common.Inputs.Functions } } else tc
  let tc := if tc.Inputs.CRDs.length = 0 ∧ common.Inputs.CRDs.length > 0 then
      { tc with Inputs := { tc.Inputs with
          CRDs := copySlice (makeSlice common.Inputs.CRDs.length) common.Inputs.CRDs } }
    else tc
  let tc := if mapLen tc.Inputs.ContextFiles = 0 ∧ mapLen common.Inputs.ContextFiles > 0 then
      { tc with Inputs := { tc.Inputs with
          ContextFiles := mapsCopy ∅ common.Inputs.ContextFiles } }
    else tc
  let tc := if mapLen tc.Inputs.ContextValues = 0 ∧ mapLen common.Inputs.ContextValues > 0 then
      { tc with Inputs := { tc.Inputs with
          ContextValues := mapsCopy ∅ common.Inputs.ContextValues } }
    else tc
  let tc := if tc.Inputs.ObservedResources = "" then
      { tc with Inputs := { tc.Inputs with
          ObservedResources := common.Inputs.ObservedResources } }
    else tc
  let tc := if tc.Inputs.ExtraResources = "" then
      { tc with Inputs := { tc.Inputs with ExtraResources := common.Inputs.ExtraResources } }
    else tc
  let tc := if tc.Inputs.FunctionCredentials = "" then
      { tc with Inputs := { tc.Inputs with
          FunctionCredentials := common.Inputs.FunctionCredentials } }
    else tc
  -- Always merge patches if common has patches
  let tc := if common.Patches.HasPatches then
      let tc := if tc.Patches.XRD = "" then
          { tc with Patches := { tc.Patches with XRD := common.Patches.XRD } } else tc
      let tc := if tc.Patches.ConnectionSecret = none then
          { tc with Patches := { tc.Patches with
              ConnectionSecret := common.Patches.ConnectionSecret } }
        else tc
      let tc := if tc.Patches.ConnectionSecretName = "" then
          { tc with Patches := { tc.Patches with
              ConnectionSecretName := common.Patches.ConnectionSecretName } }
        else tc
      let tc := if tc.Patches.ConnectionSecretNamespace = "" then
          { tc with Patches := { tc.Patches with
              ConnectionSecretNamespace := common.Patches.ConnectionSecretNamespace } }
        else tc
      tc
    else tc
  -- Always merge hooks if common has hooks
  let tc := if common.Hooks.HasHooks then
      let tc := if !tc.HasPreTestHooks then
          { tc with Hooks := { tc.Hooks with PreTest := common.Hooks.PreTest } } else tc
      let tc := if !tc.HasPostTestHooks then
          { tc with Hooks := { tc.Hooks with PostTest := common.Hooks.PostTest } } else tc
      tc
    else tc
  -- Merge assertions per engine
  let tc := if common.Assertions.HasAssertionsXprin && !tc.HasAssertionsXprin then
      { tc with Assertions := { tc.Assertions with
          Xprin := copySlice (makeSlice common.Assertions.Xprin.length)
            common.Assertions.Xprin } }
    else tc
  let tc := if common.Assertions.HasAssertionsDiff && !tc.HasAssertionsDiff then
      { tc with Assertions := { tc.Assertions with
          Diff := copySlice (makeSlice common.Assertions.Diff.length) common.Assertions.Diff } }
    else tc
  let tc := if common.Assertions.HasAssertionsDyff && !tc.HasAssertionsDyff then
      { tc with Assertions := { tc.Assertions with
          Dyff := copySlice (makeSlice common.Assertions.Dyff.length) common.Assertions.Dyff } }
    else tc
  tc

/-! ## Case-level mandatory-field validation -/

/-- The messages collected by `CheckMandatoryFields`. -/
def TestCase.mandatoryErrors {V : Type} (tc : TestCase V) : List String :=
  let allErrors : List String := []
  let allErrors := if tc.HasClaim && tc.HasXR then
      allErrors ++ ["conflicting fields: both 'claim' and 'xr' are specified, " ++
        "but only one is allowed"]
    else allErrors
  let allErrors := if !tc.HasClaim && !tc.HasXR then
      allErrors ++ ["missing mandatory field: either 'claim' or 'xr' must be specified " ++
        "(it can be specified either in the test case or in the common inputs)"]
    else allErrors
  let allErrors := if tc.Inputs.Composition = "" then
      allErrors ++ ["missing mandatory field: composition " ++
        "(it can be specified either in the test case or in the common inputs)"]
    else allErrors
  let allErrors := if tc.Inputs.Functions = "" then
      allErrors ++ ["missing mandatory field: functions " ++
        "(it can be specified either in the test case or in the common inputs)"]
    else allErrors
  allErrors

/-- CheckMandatoryFields checks if all mandatory fields are present in the test case. -/
def TestCase.CheckMandatoryFields {V : Type} (tc : TestCase V) : GoError :=
  let allErrors := tc.mandatoryErrors
  if allErrors.length > 0 then
    some (stringsJoin allErrors "\n    ")
  else
    none

/-! ## Sample data -/

/-- A test case that sets no mergeable field. -/
def bareCase : TestCase Unit :=
  { Name := "t1"
    ID := ""
    Inputs := ⟨"", "", "", "", [], ∅, ∅, "", "", ""⟩
    Patches := ⟨"", none, "", ""⟩
    Hooks := ⟨[], []⟩
    Assertions := ⟨[], [], []⟩ }

/-- A test case that sets every mergeable field. -/
def fullCase : TestCase Unit :=
  { Name := "t2"
    ID := "case-2"
    Inputs := ⟨"claim.yaml", "xr.yaml", "comp.yaml", "fn.yaml", ["crd.yaml"],
      Finmap.singleton "k" "file.yaml", Finmap.singleton "k" "v", "obs.yaml", "extra.yaml",
      "creds.yaml"⟩
    Patches := ⟨"xrd.yaml", some false, "secret", "ns"⟩
    Hooks := ⟨[⟨"pre", "echo pre"⟩], [⟨"post", "echo post"⟩]⟩
    Assertions := ⟨[⟨"a", "Exists", "Kind/name", "", "", ()⟩], [⟨"d", "golden.yaml", ""⟩],
      [⟨"y", "golden.yaml", ""⟩]⟩ }

/-- A common block that sets every field, with values other than those of `fullCase`. -/
def fullCommon : Common Unit :=
  { Inputs := ⟨"c-claim.yaml", "c-xr.yaml", "c-comp.yaml", "c-fn.yaml",
      ["c-crd1.yaml", "c-crd2.yaml"], Finmap.singleton "ck" "c-file.yaml",
      Finmap.singleton "ck" "cv", "c-obs.yaml", "c-extra.yaml", "c-creds.yaml"⟩
    Patches := ⟨"c-xrd.yaml", some true, "c-secret", "c-ns"⟩
    Hooks := ⟨[⟨"c-pre", "echo 1"⟩, ⟨"c-pre2", "echo 2"⟩], [⟨"c-post", "echo 3"⟩]⟩
    Assertions := ⟨[⟨"ca", "Count", "", "", "", ()⟩], [⟨"cd", "c-golden.yaml", ""⟩],
      [⟨"cy", "c-golden.yaml", ""⟩]⟩ }

/-- A common block whose only setting is the connection-secret toggle, explicitly false. -/
def toggleOffCommon : Common Unit :=
  { Inputs := ⟨"", "", "", "", [], ∅, ∅, "", "", ""⟩
    Patches := ⟨"", some false, "", ""⟩
    Hooks := ⟨[], []⟩
    Assertions := ⟨[], [], []⟩ }

/-! ## The caller: merge, then validate -/

/-- Modelled from the spec: the caller of this package, which is not part of these sources,
calls `MergeCommon` with the common block of the suite on each test case in place before it
validates (spec, section 2). This is the suite after those calls. -/
def TestSuiteSpec.mergeTests {V : Type} [Inhabited V] (ts : TestSuiteSpec V) : TestSuiteSpec V :=
  { ts with Tests := ts.Tests.map (fun tc => tc.MergeCommon ts.Common) }

/-- Modelled from the spec: the violations of a suite taken over both validation passes of the
caller, the suite-level pass first and then the case-level pass of each test case in order
(spec, section 4.3). -/
def TestSuiteSpec.allViolations {V : Type} (ts : TestSuiteSpec V) : List String :=
  ts.suiteErrors ++ (ts.Tests.map (fun tc => tc.mandatoryErrors)).flatten

/-- The suite of the end-to-end example: common sets `composition` and `functions`, case `t1`
sets `xr` and case `t2` sets `claim`. -/
def exampleSuite : TestSuiteSpec Unit :=
  { Common :=
      { Inputs := ⟨"", "", "comp.yaml", "fn.yaml", [], ∅, ∅, "", "", ""⟩
        Patches := ⟨"", none, "", ""⟩
        Hooks := ⟨[], []⟩
        Assertions := ⟨[], [], []⟩ }
    Tests :=
      [{ Name := "t1", ID := ""
         Inputs := ⟨"", "xr1.yaml", "", "", [], ∅, ∅, "", "", ""⟩
         Patches := ⟨"", none, "", ""⟩, Hooks := ⟨[], []⟩, Assertions := ⟨[], [], []⟩ },
       { Name := "t2", ID := ""
         Inputs := ⟨"c2.yaml", "", "", "", [], ∅, ∅, "", "", ""⟩
         Patches := ⟨"", none, "", ""⟩, Hooks := ⟨[], []⟩, Assertions := ⟨[], [], []⟩ }] }

/-- The suite of the failing end-to-end example: no common inputs and one test case with an
empty name that sets both `xr` and `claim`. -/
def failingSuite : TestSuiteSpec Unit :=
  { Common :=
      { Inputs := ⟨"", "", "", "", [], ∅, ∅, "", "", ""⟩
        Patches := ⟨"", none, "", ""⟩
        Hooks := ⟨[], []⟩
        Assertions := ⟨[], [], []⟩ }
    Tests :=
      [{ Name := "", ID := ""
         Inputs := ⟨"c", "x", "", "", [], ∅, ∅, "", "", ""⟩
         Patches := ⟨"", none, "", ""⟩, Hooks := ⟨[], []⟩, Assertions := ⟨[], [], []⟩ }] }

/-- The failing example with `composition` and `functions` added to its test case. -/
def failingSuiteWithPipeline : TestSuiteSpec Unit :=
  { Common := failingSuite.Common
    Tests :=
      [{ Name := "", ID := ""
         Inputs := ⟨"c", "x", "comp.yaml", "fn.yaml", [], ∅, ∅, "", "", ""⟩
         Patches := ⟨"", none, "", ""⟩, Hooks := ⟨[], []⟩, Assertions := ⟨[], [], []⟩ }] }

/-- The test case whose fields all have their zero value. -/
def emptyTestCase (V : Type) : TestCase V :=
  { Name := ""
    ID := ""
    Inputs := ⟨"", "", "", "", [], ∅, ∅, "", "", ""⟩
    Patches := ⟨"", none, "", ""⟩
    Hooks := ⟨[], []⟩
    Assertions := ⟨[], [], []⟩ }

/-! ## Suite-level violations, as the claims word them -/

/-- Whether a character is in `[A-Za-z0-9_-]`. -/
def inIDCharset (c : Char) : Bool :=
  decide (('a' ≤ c ∧ c ≤ 'z') ∨ ('A' ≤ c ∧ c ≤ 'Z') ∨ ('0' ≤ c ∧ c ≤ '9') ∨ c = '_' ∨ c = '-')

/-- The violations the claim expects for one test case, given the test cases before it: the
empty-name violation iff `Name` is empty, then the invalid-characters violation iff `ID` is
non-empty and has a character outside `[A-Za-z0-9_-]`, then the duplicate violation iff `ID`
is non-empty and is the `ID` of an earlier test case. -/
def specCaseViolations {V : Type} (earlier : List (TestCase V)) (tc : TestCase V) :
    List String :=
  (if tc.Name = "" then ["test case has empty name"] else []) ++
    (if tc.ID ≠ "" ∧ ∃ c ∈ tc.ID.data, inIDCharset c = false then
      ["test case ID '" ++ tc.ID ++
        "' contains invalid characters (allowed: alphanumeric, underscore, hyphen)"]
    else []) ++
    (if tc.ID ≠ "" ∧ ∃ e ∈ earlier, e.ID = tc.ID then
      ["duplicate test case ID '" ++ tc.ID ++ "' found"]
    else [])

/-- The violations the claim expects for the test cases `tests` that come after the test cases
`earlier`, in test-case order. -/
def specSuiteViolationsFrom {V : Type} :
    List (TestCase V) → List (TestCase V) → List String
  | _, [] => []
  | earlier, tc :: rest =>
    specCaseViolations earlier tc ++ specSuiteViolationsFrom (earlier ++ [tc]) rest

/-- The violations the claim expects for a suite with the test cases `tests`. -/
def specSuiteViolations {V : Type} (tests : List (TestCase V)) : List String :=
  specSuiteViolationsFrom [] tests

/-- Whether a message is a duplicate-ID violation: it starts with `duplicate test case ID '`. -/
def isDuplicateViolation (msg : String) : Bool :=
  "duplicate test case ID '".data.isPrefixOf msg.data

/-- The non-empty IDs of a list of test cases, in order. -/
def nonEmptyIDs {V : Type} (tests : List (TestCase V)) : List String :=
  (tests.map (fun tc => tc.ID)).filter (fun id => id ≠ "")

/-- The number of lines of a text: one more than its number of newline characters. -/
def lineCount (s : String) : Nat := s.data.count '\n' + 1

/-- A suite with one test case whose ID has a newline character in it. -/
def newlineIDSuite : TestSuiteSpec Unit :=
  { Common := failingSuite.Common
    Tests :=
      [{ Name := "t1", ID := "a\nb"
         Inputs := ⟨"", "xr.yaml", "comp.yaml", "fn.yaml", [], ∅, ∅, "", "", ""⟩
         Patches := ⟨"", none, "", ""⟩, Hooks := ⟨[], []⟩, Assertions := ⟨[], [], []⟩ }] }

/-- A test case with the name `n` and the ID `id` and nothing else. -/
def caseWithID (n id : String) : TestCase Unit :=
  { Name := n, ID := id
    Inputs := ⟨"", "", "", "", [], ∅, ∅, "", "", ""⟩
    Patches := ⟨"", none, "", ""⟩, Hooks := ⟨[], []⟩, Assertions := ⟨[], [], []⟩ }

/-! ## Reference-level model of the merge

The value-level model above says what a test case holds after `MergeCommon`; it cannot say
whether a slice, a map or the toggle of the merged test case is the one of the common block or
a copy of it. The model below keeps that: slices, maps and `*bool` are references into a heap.
Strings and the `any` values of type `V` stay values. -/

/-- A slice value: the address of its backing array and its length. The code never reslices,
so a slice starts at the first element of its array; a slice of length 0 covers the nil
slice. -/
structure SliceRef where
  array : Nat
  len : Nat
  deriving DecidableEq

/-- The heap: the backing arrays of the four element types, the map objects and the `bool`
variables, each by address, and for each kind that `MergeCommon` allocates the first address
not in use. -/
structure Heap (V : Type) where
  strings : Nat → List String
  hooks : Nat → List Hook
  xprin : Nat → List (AssertionXprin V)
  golden : Nat → List AssertionGoldenFile
  maps : Nat → StringMap
  bools : Nat → Bool
  nextStrings : Nat
  nextXprin : Nat
  nextGolden : Nat
  nextMap : Nat

/-- `Inputs` with its slice and its maps as references (`none` is the nil map). -/
structure InputsRef where
  Claim : String
  XR : String
  Composition : String
  Functions : String
  CRDs : SliceRef
  ContextFiles : Option Nat
  ContextValues : Option Nat
  ObservedResources : String
  ExtraResources : String
  FunctionCredentials : String

/-- `Patches` with its `*bool` as a reference (`none` is the nil pointer). -/
structure PatchesRef where
  XRD : String
  ConnectionSecret : Option Nat
  ConnectionSecretName : String
  ConnectionSecretNamespace : String

/-- `Hooks` with its slices as references. -/
structure HooksRef where
  PreTest : SliceRef
  PostTest : SliceRef

/-- `Assertions` with its slices as references. -/
structure AssertionsRef where
  Xprin : SliceRef
  Diff : SliceRef
  Dyff : SliceRef

/-- `Common` with references. -/
structure CommonRef where
  Inputs : InputsRef
  Patches : PatchesRef
  Hooks : HooksRef
  Assertions : AssertionsRef

/-- `TestCase` with references. -/
structure TestCaseRef where
  Name : String
  ID : String
  Inputs : InputsRef
  Patches : PatchesRef
  Hooks : HooksRef
  Assertions : AssertionsRef

/-- The elements of a `[]string` slice. -/
def Heap.stringsOf {V : Type} (h : Heap V) (s : SliceRef) : List String :=
  (h.strings s.array).take s.len

/-- The elements of a `[]Hook` slice. -/
def Heap.hooksOf {V : Type} (h : Heap V) (s : SliceRef) : List Hook :=
  (h.hooks s.array).take s.len

/-- The elements of a `[]AssertionXprin` slice. -/
def Heap.xprinOf {V : Type} (h : Heap V) (s : SliceRef) : List (AssertionXprin V) :=
  (h.xprin s.array).take s.len

/-- The elements of a `[]AssertionGoldenFile` slice. -/
def Heap.goldenOf {V : Type} (h : Heap V) (s : SliceRef) : List AssertionGoldenFile :=
  (h.golden s.array).take s.len

/-- The key/value pairs of a map reference; the nil map has none. -/
def Heap.mapOf {V : Type} (h : Heap V) (m : Option Nat) : StringMap :=
  match m with
  | none => ∅
  | some a => h.maps a

/-- The state of the toggle: unset for the nil pointer, else the `bool` pointed to. -/
def Heap.toggleOf {V : Type} (h : Heap V) (p : Option Nat) : Option Bool :=
  match p with
  | none => none
  | some a => some (h.bools a)

/-- The call `make([]string, n)`: a new array of `n` empty strings and the slice of it. -/
def Heap.makeStrings {V : Type} (h : Heap V) (n : Nat) : Heap V × SliceRef :=
  ({ h with
      strings := fun a => if a = h.nextStrings then makeSlice n else h.strings a
      nextStrings := h.nextStrings + 1 }, ⟨h.nextStrings, n⟩)

/-- The call `copy(dst, src)` on `[]string` slices. -/
def Heap.copyStrings {V : Type} (h : Heap V) (dst src : SliceRef) : Heap V :=
  { h with
      strings := fun a =>
        if a = dst.array then
          copySlice (h.stringsOf dst) (h.stringsOf src) ++ (h.strings dst.array).drop dst.len
        else h.strings a }

/-- The call `make([]AssertionXprin, n)`. -/
def Heap.makeXprin {V : Type} [Inhabited V] (h : Heap V) (n : Nat) : Heap V × SliceRef :=
  ({ h with
      xprin := fun a => if a = h.nextXprin then makeSlice n else h.xprin a
      nextXprin := h.nextXprin + 1 }, ⟨h.nextXprin, n⟩)

/-- The call `copy(dst, src)` on `[]AssertionXprin` slices. -/
def Heap.copyXprin {V : Type} (h : Heap V) (dst src : SliceRef) : Heap V :=
  { h with
      xprin := fun a =>
        if a = dst.array then
          copySlice (h.xprinOf dst) (h.xprinOf src) ++ (h.xprin dst.array).drop dst.len
        else h.xprin a }

/-- The call `make([]AssertionGoldenFile, n)`. -/
def Heap.makeGolden {V : Type} (h : Heap V) (n : Nat) : Heap V × SliceRef :=
  ({ h with
      golden := fun a => if a = h.nextGolden then makeSlice n else h.golden a
      nextGolden := h.nextGolden + 1 }, ⟨h.nextGolden, n⟩)

/-- The call `copy(dst, src)` on `[]AssertionGoldenFile` slices. -/
def Heap.copyGolden {V : Type} (h : Heap V) (dst src : SliceRef) : Heap V :=
  { h with
      golden := fun a =>
        if a = dst.array then
          copySlice (h.goldenOf dst) (h.goldenOf src) ++ (h.golden dst.array).drop dst.len
        else h.golden a }

/-- The call `make(map[string]string)`: a new empty map and its address. -/
def Heap.makeMap {V : Type} (h : Heap V) : Heap V × Nat :=
  ({ h with
      maps := fun a => if a = h.nextMap then ∅ else h.maps a
      nextMap := h.nextMap + 1 }, h.nextMap)

/-- The call `maps.Copy(dst, src)` into the map at the address `dst`. -/
def Heap.mapsCopy {V : Type} (h : Heap V) (dst : Nat) (src : Option Nat) : Heap V :=
  { h with
      maps := fun a => if a = dst then Api.mapsCopy (h.maps dst) (h.mapOf src) else h.maps a }

/-- HasConnectionSecret on references: the pointer is not nil and points to `true`. -/
def PatchesRef.HasConnectionSecret {V : Type} (h : Heap V) (p : PatchesRef) : Bool :=
  match p.ConnectionSecret with
  | none => false
  | some a => h.bools a

/-- HasPatches on references. -/
def PatchesRef.HasPatches {V : Type} (h : Heap V) (p : PatchesRef) : Bool :=
  p.XRD != "" ||
    p.HasConnectionSecret h ||
    p.ConnectionSecretName != "" ||
    p.ConnectionSecretNamespace != ""

/-- HasHooks on references. -/
def HooksRef.HasHooks (k : HooksRef) : Bool :=
  decide (k.PreTest.len > 0) || decide (k.PostTest.len > 0)

/-- The statements of `MergeCommon` for `XR`, `Claim`, `Composition` and `Functions`. -/
def TestCaseRef.mergeInputPaths (tc : TestCaseRef) (common : CommonRef) : TestCaseRef :=
  let tc := if tc.Inputs.XR = "" then
      { tc with Inputs := { tc.Inputs with XR := common.Inputs.XR } } else tc
  let tc := if tc.Inputs.Claim = "" then
      { tc with Inputs := { tc.Inputs with Claim := common.Inputs.Claim } } else tc
  let tc := if tc.Inputs.Composition = "" then
      { tc with Inputs := { tc.Inputs with Composition := common.Inputs.Composition } } else tc
  let tc := if tc.Inputs.Functions = "" then
      { tc with Inputs := { tc.Inputs with Functions := common.Inputs.Functions } } else tc
  tc

/-- The statement of `MergeCommon` for `CRDs`: `make`, then `copy`. -/
def TestCaseRef.mergeCRDs {V : Type} (h : Heap V) (tc : TestCaseRef) (common : CommonRef) :
    Heap V × TestCaseRef :=
  if tc.Inputs.CRDs.len = 0 ∧ common.Inputs.CRDs.len > 0 then
    let a := h.makeStrings common.Inputs.CRDs.len
    (a.1.copyStrings a.2 common.Inputs.CRDs,
      { tc with Inputs := { tc.Inputs with CRDs := a.2 } })
  else (h, tc)

/-- The statement of `MergeCommon` for `ContextFiles`: `make`, then `maps.Copy`. -/
def TestCaseRef.mergeContextFiles {V : Type} (h : Heap V) (tc : TestCaseRef)
    (common : CommonRef) : Heap V × TestCaseRef :=
  if mapLen (h.mapOf tc.Inputs.ContextFiles) = 0 ∧
      mapLen (h.mapOf common.Inputs.ContextFiles) > 0 then
    let a := h.makeMap
    (a.1.mapsCopy a.2 common.Inputs.ContextFiles,
      { tc with Inputs := { tc.Inputs with ContextFiles := some a.2 } })
  else (h, tc)

/-- The statement of `MergeCommon` for `ContextValues`: `make`, then `maps.Copy`. -/
def TestCaseRef.mergeContextValues {V : Type} (h : Heap V) (tc : TestCaseRef)
    (common : CommonRef) : Heap V × TestCaseRef :=
  if mapLen (h.mapOf tc.Inputs.ContextValues) = 0 ∧
      mapLen (h.mapOf common.Inputs.ContextValues) > 0 then
    let a := h.makeMap
    (a.1.mapsCopy a.2 common.Inputs.ContextValues,
      { tc with Inputs := { tc.Inputs with ContextValues := some a.2 } })
  else (h, tc)

/-- The statements of `MergeCommon` for `ObservedResources`, `ExtraResources` and
`FunctionCredentials`. -/
def TestCaseRef.mergeResourcePaths (tc : TestCaseRef) (common : CommonRef) : TestCaseRef :=
  let tc := if tc.Inputs.ObservedResources = "" then
      { tc with Inputs := { tc.Inputs with
          ObservedResources := common.Inputs.ObservedResources } }
    else tc
  let tc := if tc.Inputs.ExtraResources = "" then
      { tc with Inputs := { tc.Inputs with ExtraResources := common.Inputs.ExtraResources } }
    else tc
  let tc := if tc.Inputs.FunctionCredentials = "" then
      { tc with Inputs := { tc.Inputs with
          FunctionCredentials := common.Inputs.FunctionCredentials } }
    else tc
  tc

/-- The statements of `MergeCommon` for the patches; the pointer of the toggle is assigned. -/
def TestCaseRef.mergePatches {V : Type} (h : Heap V) (tc : TestCaseRef) (common : CommonRef) :
    TestCaseRef :=
  -- Always merge patches if common has patches
  if common.Patches.HasPatches h then
    let tc := if tc.Patches.XRD = "" then
        { tc with Patches := { tc.Patches with XRD := common.Patches.XRD } } else tc
    let tc := if tc.Patches.ConnectionSecret = none then
        { tc with Patches := { tc.Patches with
            ConnectionSecret := common.Patches.ConnectionSecret } }
      else tc
    let tc := if tc.Patches.ConnectionSecretName = "" then
        { tc with Patches := { tc.Patches with
            ConnectionSecretName := common.Patches.ConnectionSecretName } }
      else tc
    let tc := if tc.Patches.ConnectionSecretNamespace = "" then
        { tc with Patches := { tc.Patches with
            ConnectionSecretNamespace := common.Patches.ConnectionSecretNamespace } }
      else tc
    tc
  else tc

/-- The statements of `MergeCommon` for the hooks; the slices are assigned. -/
def TestCaseRef.mergeHooks (tc : TestCaseRef) (common : CommonRef) : TestCaseRef :=
  -- Always merge hooks if common has hooks
  if common.Hooks.HasHooks then
    let tc := if ¬ tc.Hooks.PreTest.len > 0 then
        { tc with Hooks := { tc.Hooks with PreTest := common.Hooks.PreTest } } else tc
    let tc := if ¬ tc.Hooks.PostTest.len > 0 then
        { tc with Hooks := { tc.Hooks with PostTest := common.Hooks.PostTest } } else tc
    tc
  else tc

/-- The statement of `MergeCommon` for the xprin assertions: `make`, then `copy`. -/
def TestCaseRef.mergeXprin {V : Type} [Inhabited V] (h : Heap V) (tc : TestCaseRef)
    (common : CommonRef) : Heap V × TestCaseRef :=
  if common.Assertions.Xprin.len > 0 ∧ ¬ tc.Assertions.Xprin.len > 0 then
    let a := h.makeXprin common.Assertions.Xprin.len
    (a.1.copyXprin a.2 common.Assertions.Xprin,
      { tc with Assertions := { tc.Assertions with Xprin := a.2 } })
  else (h, tc)

/-- The statement of `MergeCommon` for the diff assertions: `make`, then `copy`. -/
def TestCaseRef.mergeDiff {V : Type} (h : Heap V) (tc : TestCaseRef) (common : CommonRef) :
    Heap V × TestCaseRef :=
  if common.Assertions.Diff.len > 0 ∧ ¬ tc.Assertions.Diff.len > 0 then
    let a := h.makeGolden common.Assertions.Diff.len
    (a.1.copyGolden a.2 common.Assertions.Diff,
      { tc with Assertions := { tc.Assertions with Diff := a.2 } })
  else (h, tc)

/-- The statement of `MergeCommon` for the dyff assertions: `make`, then `copy`. -/
def TestCaseRef.mergeDyff {V : Type} (h : Heap V) (tc : TestCaseRef) (common : CommonRef) :
    Heap V × TestCaseRef :=
  if common.Assertions.Dyff.len > 0 ∧ ¬ tc.Assertions.Dyff.len > 0 then
    let a := h.makeGolden common.Assertions.Dyff.len
    (a.1.copyGolden a.2 common.Assertions.Dyff,
      { tc with Assertions := { tc.Assertions with Dyff := a.2 } })
  else (h, tc)

/-- MergeCommon on references: the statements of the Go method in their order, on the heap
and the receiver. The result is the heap and the test case after the call. -/
def TestCaseRef.MergeCommon {V : Type} [Inhabited V] (h : Heap V) (tc : TestCaseRef)
    (common : CommonRef) : Heap V × TestCaseRef :=
  let tc := tc.mergeInputPaths common
  let st := tc.mergeCRDs h common
  let st := st.2.mergeContextFiles st.1 common
  let st := st.2.mergeContextValues st.1 common
  let tc := st.2.mergeResourcePaths common
  let tc := tc.mergePatches st.1 common
  let tc := tc.mergeHooks common
  let st := tc.mergeXprin st.1 common
  let st := st.2.mergeDiff st.1 common
  let st := st.2.mergeDyff st.1 common
  st

/-- What a merge may do to the references of a test case and to the heap: `r` is a heap and a
test case that come from the heap `h` and the test case `tc` by allocating only. The arrays
and maps that `h` had are as they were, no hook array and no `bool` variable has changed, and
each of the six references for `CRDs`, the two maps and the three assertion lists either is
the one of `tc` or is to an address that was allocated on the way from `h` to `r.1`. -/
def CopiesOnly {V : Type} (h : Heap V) (tc : TestCaseRef) (r : Heap V × TestCaseRef) : Prop :=
  r.1.hooks = h.hooks ∧ r.1.bools = h.bools ∧
    h.nextStrings ≤ r.1.nextStrings ∧ h.nextXprin ≤ r.1.nextXprin ∧
    h.nextGolden ≤ r.1.nextGolden ∧ h.nextMap ≤ r.1.nextMap ∧
    (∀ a, a < h.nextStrings → r.1.strings a = h.strings a) ∧
    (∀ a, a < h.nextXprin → r.1.xprin a = h.xprin a) ∧
    (∀ a, a < h.nextGolden → r.1.golden a = h.golden a) ∧
    (∀ a, a < h.nextMap → r.1.maps a = h.maps a) ∧
    (r.2.Inputs.CRDs = tc.Inputs.CRDs ∨
      (h.nextStrings ≤ r.2.Inputs.CRDs.array ∧ r.2.Inputs.CRDs.array < r.1.nextStrings)) ∧
    (r.2.Assertions.Xprin = tc.Assertions.Xprin ∨
      (h.nextXprin ≤ r.2.Assertions.Xprin.array ∧
        r.2.Assertions.Xprin.array < r.1.nextXprin)) ∧
    (r.2.Assertions.Diff = tc.Assertions.Diff ∨
      (h.nextGolden ≤ r.2.Assertions.Diff.array ∧
        r.2.Assertions.Diff.array < r.1.nextGolden)) ∧
    (r.2.Assertions.Dyff = tc.Assertions.Dyff ∨
      (h.nextGolden ≤ r.2.Assertions.Dyff.array ∧
        r.2.Assertions.Dyff.array < r.1.nextGolden)) ∧
    (r.2.Inputs.ContextFiles = tc.Inputs.ContextFiles ∨
      ∃ m, r.2.Inputs.ContextFiles = some m ∧ h.nextMap ≤ m ∧ m < r.1.nextMap) ∧
    (r.2.Inputs.ContextValues = tc.Inputs.ContextValues ∨
      ∃ m, r.2.Inputs.ContextValues = some m ∧ h.nextMap ≤ m ∧ m < r.1.nextMap)

/-- The assignment `s[i] = x` on a `[]string` slice (`i` below the length of `s`). -/
def Heap.setString {V : Type} (h : Heap V) (s : SliceRef) (i : Nat) (x : String) : Heap V :=
  { h with
      strings := fun a => if a = s.array then (h.strings s.array).set i x else h.strings a }

/-- The assignment `s[i] = x` on a `[]Hook` slice (`i` below the length of `s`). -/
def Heap.setHook {V : Type} (h : Heap V) (s : SliceRef) (i : Nat) (x : Hook) : Heap V :=
  { h with
      hooks := fun a => if a = s.array then (h.hooks s.array).set i x else h.hooks a }

/-- The assignment `s[i] = x` on a `[]AssertionXprin` slice. -/
def Heap.setXprin {V : Type} (h : Heap V) (s : SliceRef) (i : Nat) (x : AssertionXprin V) :
    Heap V :=
  { h with
      xprin := fun a => if a = s.array then (h.xprin s.array).set i x else h.xprin a }

/-- The assignment `s[i] = x` on a `[]AssertionGoldenFile` slice. -/
def Heap.setGolden {V : Type} (h : Heap V) (s : SliceRef) (i : Nat)
    (x : AssertionGoldenFile) : Heap V :=
  { h with
      golden := fun a => if a = s.array then (h.golden s.array).set i x else h.golden a }

/-- The assignment `m[k] = v` on the map at the address `m`. -/
def Heap.setMapEntry {V : Type} (h : Heap V) (m : Nat) (k v : String) : Heap V :=
  { h with maps := fun a => if a = m then (h.maps m).insert k v else h.maps a }

/-- The assignment `*p = b` through the pointer to the address `p`. -/
def Heap.setBool {V : Type} (h : Heap V) (p : Nat) (b : Bool) : Heap V :=
  { h with bools := fun a => if a = p then b else h.bools a }

/-- The value-level test case that a test case with references stands for in a heap. -/
def Heap.readTestCase {V : Type} (h : Heap V) (tc : TestCaseRef) : TestCase V :=
  { Name := tc.Name
    ID := tc.ID
    Inputs :=
      { Claim := tc.Inputs.Claim
        XR := tc.Inputs.XR
        Composition := tc.Inputs.Composition
        Functions := tc.Inputs.Functions
        CRDs := h.stringsOf tc.Inputs.CRDs
        ContextFiles := h.mapOf tc.Inputs.ContextFiles
        ContextValues := h.mapOf tc.Inputs.ContextValues
        ObservedResources := tc.Inputs.ObservedResources
        ExtraResources := tc.Inputs.ExtraResources
        FunctionCredentials := tc.Inputs.FunctionCredentials }
    Patches :=
      { XRD := tc.Patches.XRD
        ConnectionSecret := h.toggleOf tc.Patches.ConnectionSecret
        ConnectionSecretName := tc.Patches.ConnectionSecretName
        ConnectionSecretNamespace := tc.Patches.ConnectionSecretNamespace }
    Hooks := ⟨h.hooksOf tc.Hooks.PreTest, h.hooksOf tc.Hooks.PostTest⟩
    Assertions := ⟨h.xprinOf tc.Assertions.Xprin, h.goldenOf tc.Assertions.Diff,
      h.goldenOf tc.Assertions.Dyff⟩ }

/-- A common block as a test case without name and ID. -/
def CommonRef.asTestCase (c : CommonRef) : TestCaseRef :=
  ⟨"", "", c.Inputs, c.Patches, c.Hooks, c.Assertions⟩

/-- The value-level common block that a common block with references stands for in a heap. -/
def Heap.readCommon {V : Type} (h : Heap V) (c : CommonRef) : Common V :=
  { Inputs := (h.readTestCase c.asTestCase).Inputs
    Patches := (h.readTestCase c.asTestCase).Patches
    Hooks := (h.readTestCase c.asTestCase).Hooks
    Assertions := (h.readTestCase c.asTestCase).Assertions }

deriving instance DecidableEq for Hook, AssertionGoldenFile

/-- A heap in which a common block is stored: the arrays of its `CRDs`, of its two hook lists
and of its three assertion lists, its two maps, and the `bool` variable of its toggle, set to
true. -/
def sampleHeap : Heap Unit :=
  { strings := fun a => if a = 0 then ["c-crd1.yaml", "c-crd2.yaml"] else []
    hooks := fun a =>
      if a = 0 then [⟨"c-pre", "echo 1"⟩] else if a = 1 then [⟨"c-post", "echo 2"⟩] else []
    xprin := fun a => if a = 0 then [⟨"ca", "Count", "", "", "", ()⟩] else []
    golden := fun a =>
      if a = 0 then [⟨"cd", "c-golden.yaml", ""⟩]
      else if a = 1 then [⟨"cy", "c-golden.yaml", ""⟩] else []
    maps := fun a =>
      if a = 0 then Finmap.singleton "ck" "c-file.yaml"
      else if a = 1 then Finmap.singleton "ck" "cv" else ∅
    bools := fun a => decide (a = 0)
    nextStrings := 1
    nextXprin := 1
    nextGolden := 2
    nextMap := 2 }

/-- The common block stored in `sampleHeap`: it sets `composition`, `functions`, every
collection, both hook lists and the toggle. -/
def sampleCommonRef : CommonRef :=
  { Inputs := ⟨"", "", "comp.yaml", "fn.yaml", ⟨0, 2⟩, some 0, some 1, "", "", ""⟩
    Patches := ⟨"", some 0, "", ""⟩
    Hooks := ⟨⟨0, 1⟩, ⟨1, 1⟩⟩
    Assertions := ⟨⟨0, 1⟩, ⟨0, 1⟩, ⟨1, 1⟩⟩ }

/-- A test case that sets `xr` and nothing else: every slice and map is nil and the toggle
is unset. -/
def sampleCaseRef : TestCaseRef :=
  { Name := "t1"
    ID := ""
    Inputs := ⟨"", "xr.yaml", "", "", ⟨0, 0⟩, none, none, "", "", ""⟩
    Patches := ⟨"", none, "", ""⟩
    Hooks := ⟨⟨0, 0⟩, ⟨0, 0⟩⟩
    Assertions := ⟨⟨0, 0⟩, ⟨0, 0⟩, ⟨0, 0⟩⟩ }

/-! ## The value-level merge, statement by statement

The same statements as in `TestCase.MergeCommon`, cut where `TestCaseRef.MergeCommon` is cut,
to compare the two models step by step. -/

/-- The statements of `MergeCommon` for `XR`, `Claim`, `Composition` and `Functions`. -/
def TestCase.mergeInputPaths {V : Type} (tc : TestCase V) (common : Common V) : TestCase V :=
  let tc := if tc.Inputs.XR = "" then
      { tc with Inputs := { tc.Inputs with XR := common.Inputs.XR } } else tc
  let tc := if tc.Inputs.Claim = "" then
      { tc with Inputs := { tc.Inputs with Claim := common.Inputs.Claim } } else tc
  let tc := if tc.Inputs.Composition = "" then
      { tc with Inputs := { tc.Inputs with Composition := common.Inputs.Composition } } else tc
  let tc := if tc.Inputs.Functions = "" then
      { tc with Inputs := { tc.Inputs with Functions := common.Inputs.Functions } } else tc
  tc

/-- The statement of `MergeCommon` for `CRDs`. -/
def TestCase.mergeCRDs {V : Type} (tc : TestCase V) (common : Common V) : TestCase V :=
  if tc.Inputs.CRDs.length = 0 ∧ common.Inputs.CRDs.length > 0 then
    { tc with Inputs := { tc.Inputs with
        CRDs := copySlice (makeSlice common.Inputs.CRDs.length) common.Inputs.CRDs } }
  else tc

/-- The statement of `MergeCommon` for `ContextFiles`. -/
def TestCase.mergeContextFiles {V : Type} (tc : TestCase V) (common : Common V) :
    TestCase V :=
  if mapLen tc.Inputs.ContextFiles = 0 ∧ mapLen common.Inputs.ContextFiles > 0 then
    { tc with Inputs := { tc.Inputs with
        ContextFiles := mapsCopy ∅ common.Inputs.ContextFiles } }
  else tc

/-- The statement of `MergeCommon` for `ContextValues`. -/
def TestCase.mergeContextValues {V : Type} (tc : TestCase V) (common : Common V) :
    TestCase V :=
  if mapLen tc.Inputs.ContextValues = 0 ∧ mapLen common.Inputs.ContextValues > 0 then
    { tc with Inputs := { tc.Inputs with
        ContextValues := mapsCopy ∅ common.Inputs.ContextValues } }
  else tc

/-- The statements of `MergeCommon` for `ObservedResources`, `ExtraResources` and
`FunctionCredentials`. -/
def TestCase.mergeResourcePaths {V : Type} (tc : TestCase V) (common : Common V) :
    TestCase V :=
  let tc := if tc.Inputs.ObservedResources = "" then
      { tc with Inputs := { tc.Inputs with
          ObservedResources := common.Inputs.ObservedResources } }
    else tc
  let tc := if tc.Inputs.ExtraResources = "" then
      { tc with Inputs := { tc.Inputs with ExtraResources := common.Inputs.ExtraResources } }
    else tc
  let tc := if tc.Inputs.FunctionCredentials = "" then
      { tc with Inputs := { tc.Inputs with
          FunctionCredentials := common.Inputs.FunctionCredentials } }
    else tc
  tc

/-- The statements of `MergeCommon` for the patches. -/
def TestCase.mergePatches {V : Type} (tc : TestCase V) (common : Common V) : TestCase V :=
  if common.Patches.HasPatches then
    let tc := if tc.Patches.XRD = "" then
        { tc with Patches := { tc.Patches with XRD := common.Patches.XRD } } else tc
    let tc := if tc.Patches.ConnectionSecret = none then
        { tc with Patches := { tc.Patches with
            ConnectionSecret := common.Patches.ConnectionSecret } }
      else tc
    let tc := if tc.Patches.ConnectionSecretName = "" then
        { tc with Patches := { tc.Patches with
            ConnectionSecretName := common.Patches.ConnectionSecretName } }
      else tc
    let tc := if tc.Patches.ConnectionSecretNamespace = "" then
        { tc with Patches := { tc.Patches with
            ConnectionSecretNamespace := common.Patches.ConnectionSecretNamespace } }
      else tc
    tc
  else tc

/-- The statements of `MergeCommon` for the hooks. -/
def TestCase.mergeHooks {V : Type} (tc : TestCase V) (common : Common V) : TestCase V :=
  if common.Hooks.HasHooks then
    let tc := if !tc.HasPreTestHooks then
        { tc with Hooks := { tc.Hooks with PreTest := common.Hooks.PreTest } } else tc
    let tc := if !tc.HasPostTestHooks then
        { tc with Hooks := { tc.Hooks with PostTest := common.Hooks.PostTest } } else tc
    tc
  else tc

/-- The statement of `MergeCommon` for the xprin assertions. -/
def TestCase.mergeXprin {V : Type} [Inhabited V] (tc : TestCase V) (common : Common V) :
    TestCase V :=
  if common.Assertions.HasAssertionsXprin && !tc.HasAssertionsXprin then
    { tc with Assertions := { tc.Assertions with
        Xprin := copySlice (makeSlice common.Assertions.Xprin.length)
          common.Assertions.Xprin } }
  else tc

/-- The statement of `MergeCommon` for the diff assertions. -/
def TestCase.mergeDiff {V : Type} (tc : TestCase V) (common : Common V) : TestCase V :=
  if common.Assertions.HasAssertionsDiff && !tc.HasAssertionsDiff then
    { tc with Assertions := { tc.Assertions with
        Diff := copySlice (makeSlice common.Assertions.Diff.length) common.Assertions.Diff } }
  else tc

/-- The statement of `MergeCommon` for the dyff assertions. -/
def TestCase.mergeDyff {V : Type} (tc : TestCase V) (common : Common V) : TestCase V :=
  if common.Assertions.HasAssertionsDyff && !tc.HasAssertionsDyff then
    { tc with Assertions := { tc.Assertions with
        Dyff := copySlice (makeSlice common.Assertions.Dyff.length) common.Assertions.Dyff } }
  else tc

/-- A slice is stored in a heap when it is empty, or its array is allocated and holds at least
as many elements as the slice is long. -/
def SliceRef.StoredIn {α : Type} (s : SliceRef) (arrays : Nat → List α) (next : Nat) : Prop :=
  s.len = 0 ∨ (s.array < next ∧ s.len ≤ (arrays s.array).length)

/-- A test case is stored in a heap when its slices are and its maps are allocated. -/
def TestCaseRef.Stored {V : Type} (h : Heap V) (tc : TestCaseRef) : Prop :=
  tc.Inputs.CRDs.StoredIn h.strings h.nextStrings ∧
    (∀ m, tc.Inputs.ContextFiles = some m → m < h.nextMap) ∧
    (∀ m, tc.Inputs.ContextValues = some m → m < h.nextMap) ∧
    tc.Hooks.PreTest.len ≤ (h.hooks tc.Hooks.PreTest.array).length ∧
    tc.Hooks.PostTest.len ≤ (h.hooks tc.Hooks.PostTest.array).length ∧
    tc.Assertions.Xprin.StoredIn h.xprin h.nextXprin ∧
    tc.Assertions.Diff.StoredIn h.golden h.nextGolden ∧
    tc.Assertions.Dyff.StoredIn h.golden h.nextGolden

/-- The simulation relation between the two models of the merge, for a common block `common`
that stands for the value `C`: the reference-level state `st` (a heap and a test case) stands
for the value-level test case `v`, the test case and the common block of `st` are stored in
the heap of `st`, and the common block still stands for `C` in that heap. -/
def Simulates {V : Type} (common : CommonRef) (C : Common V) (st : Heap V × TestCaseRef)
    (v : TestCase V) : Prop :=
  st.1.readTestCase st.2 = v ∧ st.2.Stored st.1 ∧ common.asTestCase.Stored st.1 ∧
    st.1.readCommon common = C

/-! ## Sample data: a case and a common block of different resource kinds -/

/-- A test case that sets `claim`, `composition` and `functions`, and no `xr`: on its own it has
every mandatory field. -/
def claimCase : TestCase Unit :=
  { Name := "t1"
    ID := ""
    Inputs := ⟨"claim.yaml", "", "comp.yaml", "fn.yaml", [], ∅, ∅, "", "", ""⟩
    Patches := ⟨"", none, "", ""⟩
    Hooks := ⟨[], []⟩
    Assertions := ⟨[], [], []⟩ }

/-- A test case that sets `xr`, `composition` and `functions`, and no `claim`. -/
def xrCase : TestCase Unit :=
  { Name := "t2"
    ID := ""
    Inputs := ⟨"", "xr.yaml", "comp.yaml", "fn.yaml", [], ∅, ∅, "", "", ""⟩
    Patches := ⟨"", none, "", ""⟩
    Hooks := ⟨[], []⟩
    Assertions := ⟨[], [], []⟩ }

/-- A common block whose only setting is `xr`. -/
def xrCommon : Common Unit :=
  { Inputs := ⟨"", "c-xr.yaml", "", "", [], ∅, ∅, "", "", ""⟩
    Patches := ⟨"", none, "", ""⟩
    Hooks := ⟨[], []⟩
    Assertions := ⟨[], [], []⟩ }

/-- A common block whose only setting is `claim`. -/
def claimCommon : Common Unit :=
  { Inputs := ⟨"c-claim.yaml", "", "", "", [], ∅, ∅, "", "", ""⟩
    Patches := ⟨"", none, "", ""⟩
    Hooks := ⟨[], []⟩
    Assertions := ⟨[], [], []⟩ }

/-! ## Auxiliary facts about the built-ins -/

theorem utf8ByteSize_eq_zero_iff (s : String) : s.utf8ByteSize = 0 ↔ s = "" := by
  obtain ⟨cs⟩ := s
  cases cs with
  | nil => exact ⟨fun _ => rfl, fun _ => rfl⟩
  | cons c cs =>
    constructor
    · intro h
      have hc := Char.utf8Size_pos c
      change String.utf8ByteSize.go cs + c.utf8Size = 0 at h
      omega
    · intro h
      exact absurd (congrArg String.data h) (by simp)

theorem copySlice_makeSlice {α : Type} [Inhabited α] (src : List α) :
    copySlice (makeSlice src.length) src = src := by
  simp [copySlice, makeSlice]

theorem mapsCopy_empty (src : StringMap) : mapsCopy ∅ src = src := by
  simp [mapsCopy]

theorem mapLen_eq_zero_iff (m : StringMap) : mapLen m = 0 ↔ m = ∅ := by
  unfold mapLen
  rw [Finset.card_eq_zero]
  constructor
  · intro h
    apply Finmap.ext_lookup
    intro k
    rw [Finmap.lookup_empty, Finmap.lookup_eq_none, ← Finmap.mem_keys, h]
    exact Finset.not_mem_empty k
  · rintro rfl
    exact Finmap.keys_empty

/-! ## Suite-level validation: the loop invariant -/

theorem hasValidIDLoop_iff (cs : List Char) :
    hasValidIDLoop cs = true ↔
      ∀ c ∈ cs, ('a' ≤ c ∧ c ≤ 'z') ∨ ('A' ≤ c ∧ c ≤ 'Z') ∨ ('0' ≤ c ∧ c ≤ '9') ∨
        c = '_' ∨ c = '-' := by
  induction cs with
  | nil => simp [hasValidIDLoop]
  | cons c cs ih =>
    simp only [hasValidIDLoop, List.mem_cons, forall_eq_or_imp, ← ih]
    have key : ((c < 'a' || c > 'z') && (c < 'A' || c > 'Z') &&
        (c < '0' || c > '9') && c != '_' && c != '-') = true ↔
        ¬ (('a' ≤ c ∧ c ≤ 'z') ∨ ('A' ≤ c ∧ c ≤ 'Z') ∨ ('0' ≤ c ∧ c ≤ '9') ∨
          c = '_' ∨ c = '-') := by
      simp only [Bool.and_eq_true, Bool.or_eq_true, decide_eq_true_eq, bne_iff_ne, ne_eq,
        gt_iff_lt, ← not_le]
      tauto
    by_cases hc : ((c < 'a' || c > 'z') && (c < 'A' || c > 'Z') &&
        (c < '0' || c > '9') && c != '_' && c != '-') = true
    · simp only [hc, if_true]
      have := key.mp hc
      simp [this]
    · simp only [hc]
      have := not_not.mp (fun h => hc (key.mpr h))
      simp [this]

theorem hasValidID_iff (id : String) (h : id ≠ "") :
    hasValidID id = true ↔
      ∀ c ∈ id.data, ('a' ≤ c ∧ c ≤ 'z') ∨ ('A' ≤ c ∧ c ≤ 'Z') ∨ ('0' ≤ c ∧ c ≤ '9') ∨
        c = '_' ∨ c = '-' := by
  have h0 : ¬ (id.utf8ByteSize = 0) := fun h0 => h ((utf8ByteSize_eq_zero_iff id).mp h0)
  unfold hasValidID
  rw [← hasValidIDLoop_iff]
  simp [h0]

theorem checkTest_usedIDs {V : Type} (st : CheckState) (t : TestCase V) (k : String) :
    (checkTest st t).usedIDs k = true ↔ st.usedIDs k = true ∨ (t.ID ≠ "" ∧ k = t.ID) := by
  unfold checkTest
  by_cases hk : k = t.ID
  · subst hk
    by_cases hn : t.Name = "" <;> by_cases hid : t.ID = "" <;>
      by_cases hv : hasValidID t.ID = true <;> by_cases hu : st.usedIDs t.ID = true <;>
      simp [hn, hid, hv, hu]
  · by_cases hn : t.Name = "" <;> by_cases hid : t.ID = "" <;>
      by_cases hv : hasValidID t.ID = true <;> by_cases hu : st.usedIDs t.ID = true <;>
      simp [hn, hid, hv, hu, hk]

theorem checkTest_allErrors_nil {V : Type} (st : CheckState) (t : TestCase V) :
    (checkTest st t).allErrors = [] ↔
      st.allErrors = [] ∧ t.Name ≠ "" ∧
        (t.ID ≠ "" → hasValidID t.ID = true ∧ st.usedIDs t.ID = false) := by
  unfold checkTest
  by_cases hn : t.Name = "" <;> by_cases hid : t.ID = "" <;>
    by_cases hv : hasValidID t.ID = true <;> by_cases hu : st.usedIDs t.ID = true <;>
    simp [hn, hid, hv, hu]

theorem foldl_checkTest_nil {V : Type} (l : List (TestCase V)) (st : CheckState) :
    (l.foldl checkTest st).allErrors = [] ↔
      st.allErrors = [] ∧ (∀ t ∈ l, t.Name ≠ "") ∧
        (∀ t ∈ l, t.ID ≠ "" → hasValidID t.ID = true) ∧
        (∀ t ∈ l, t.ID ≠ "" → st.usedIDs t.ID = false) ∧
        l.Pairwise (fun a b => a.ID ≠ "" → a.ID ≠ b.ID) := by
  induction l generalizing st with
  | nil => simp
  | cons t l ih =>
    rw [List.foldl_cons, ih, checkTest_allErrors_nil, List.pairwise_cons]
    simp only [List.forall_mem_cons]
    have hused : ∀ u : TestCase V, (checkTest st t).usedIDs u.ID = false ↔
        st.usedIDs u.ID = false ∧ ¬ (t.ID ≠ "" ∧ u.ID = t.ID) := by
      intro u
      rw [← Bool.not_eq_true, checkTest_usedIDs, not_or, Bool.not_eq_true]
    constructor
    · rintro ⟨⟨h0, hn, hi⟩, hN, hV, hU, hP⟩
      refine ⟨h0, ⟨hn, hN⟩, ⟨fun h => (hi h).1, hV⟩, ⟨fun h => (hi h).2, ?_⟩, ?_, hP⟩
      · intro u hu hne
        exact ((hused u).mp (hU u hu hne)).1
      · intro u hu hne heq
        apply ((hused u).mp (hU u hu (heq ▸ hne))).2
        exact ⟨hne, heq.symm⟩
    · rintro ⟨h0, ⟨hn, hN⟩, ⟨hv, hV⟩, ⟨hu, hU⟩, hT, hP⟩
      refine ⟨⟨h0, hn, fun h => ⟨hv h, hu h⟩⟩, hN, hV, ?_, hP⟩
      intro u hmem hne
      rw [hused]
      exact ⟨hU u hmem hne, fun ⟨h1, h2⟩ => hT u hmem h1 h2.symm⟩

theorem suiteErrors_eq_nil_iff {V : Type} (ts : TestSuiteSpec V) :
    ts.suiteErrors = [] ↔
      (∀ t ∈ ts.Tests, t.Name ≠ "") ∧
        (∀ t ∈ ts.Tests, t.ID ≠ "" → hasValidID t.ID = true) ∧
        ts.Tests.Pairwise (fun a b => a.ID ≠ "" → a.ID ≠ b.ID) := by
  unfold TestSuiteSpec.suiteErrors
  rw [foldl_checkTest_nil]
  simp

theorem checkValidTestSuiteFile_eq_none {V : Type} (ts : TestSuiteSpec V) :
    ts.CheckValidTestSuiteFile = none ↔ ts.suiteErrors = [] := by
  unfold TestSuiteSpec.CheckValidTestSuiteFile
  cases h : ts.suiteErrors with
  | nil => simp
  | cons e es => simp

/-! ## Merge engine: closed form -/

theorem ite_TestCase {V : Type} (c : Prop) [Decidable c] (n n' d d' : String) (i i' : Inputs)
    (p p' : Patches) (h h' : Hooks) (a a' : Assertions V) :
    (if c then TestCase.mk n d i p h a else TestCase.mk n' d' i' p' h' a') =
      TestCase.mk (if c then n else n') (if c then d else d') (if c then i else i')
        (if c then p else p') (if c then h else h') (if c then a else a') := by
  split <;> rfl

theorem ite_Inputs (c : Prop) [Decidable c] (a1 a1' a2 a2' a3 a3' a4 a4' : String)
    (a5 a5' : List String) (a6 a6' a7 a7' : StringMap) (a8 a8' a9 a9' a10 a10' : String) :
    (if c then Inputs.mk a1 a2 a3 a4 a5 a6 a7 a8 a9 a10
      else Inputs.mk a1' a2' a3' a4' a5' a6' a7' a8' a9' a10') =
      Inputs.mk (if c then a1 else a1') (if c then a2 else a2') (if c then a3 else a3')
        (if c then a4 else a4') (if c then a5 else a5') (if c then a6 else a6')
        (if c then a7 else a7') (if c then a8 else a8') (if c then a9 else a9')
        (if c then a10 else a10') := by
  split <;> rfl

theorem ite_Patches (c : Prop) [Decidable c] (a1 a1' : String) (a2 a2' : Option Bool)
    (a3 a3' a4 a4' : String) :
    (if c then Patches.mk a1 a2 a3 a4 else Patches.mk a1' a2' a3' a4') =
      Patches.mk (if c then a1 else a1') (if c then a2 else a2') (if c then a3 else a3')
        (if c then a4 else a4') := by
  split <;> rfl

theorem ite_Hooks (c : Prop) [Decidable c] (a1 a1' a2 a2' : List Hook) :
    (if c then Hooks.mk a1 a2 else Hooks.mk a1' a2') =
      Hooks.mk (if c then a1 else a1') (if c then a2 else a2') := by
  split <;> rfl

theorem ite_Assertions {V : Type} (c : Prop) [Decidable c] (a1 a1' : List (AssertionXprin V))
    (a2 a2' a3 a3' : List AssertionGoldenFile) :
    (if c then Assertions.mk a1 a2 a3 else Assertions.mk a1' a2' a3') =
      Assertions.mk (if c then a1 else a1') (if c then a2 else a2') (if c then a3 else a3') := by
  split <;> rfl

theorem mergeCommon_eq {V : Type} [Inhabited V] (tc : TestCase V) (common : Common V) :
    tc.MergeCommon common =
      { Name := tc.Name
        ID := tc.ID
        Inputs :=
          { Claim := if tc.Inputs.Claim = "" then common.Inputs.Claim else tc.Inputs.Claim
            XR := if tc.Inputs.XR = "" then common.Inputs.XR else tc.Inputs.XR
            Composition :=
              if tc.Inputs.Composition = "" then common.Inputs.Composition
              else tc.Inputs.Composition
            Functions :=
              if tc.Inputs.Functions = "" then common.Inputs.Functions else tc.Inputs.Functions
            CRDs :=
              if tc.Inputs.CRDs.length = 0 ∧ common.Inputs.CRDs.length > 0 then common.Inputs.CRDs
              else tc.Inputs.CRDs
            ContextFiles :=
              if mapLen tc.Inputs.ContextFiles = 0 ∧ mapLen common.Inputs.ContextFiles > 0 then
                common.Inputs.ContextFiles
              else tc.Inputs.ContextFiles
            ContextValues :=
              if mapLen tc.Inputs.ContextValues = 0 ∧ mapLen common.Inputs.ContextValues > 0 then
                common.Inputs.ContextValues
              else tc.Inputs.ContextValues
            ObservedResources :=
              if tc.Inputs.ObservedResources = "" then common.Inputs.ObservedResources
              else tc.Inputs.ObservedResources
            ExtraResources :=
              if tc.Inputs.ExtraResources = "" then common.Inputs.ExtraResources
              else tc.Inputs.ExtraResources
            FunctionCredentials :=
              if tc.Inputs.FunctionCredentials = "" then common.Inputs.FunctionCredentials
              else tc.Inputs.FunctionCredentials }
        Patches :=
          { XRD :=
              if common.Patches.HasPatches = true ∧ tc.Patches.XRD = "" then common.Patches.XRD
              else tc.Patches.XRD
            ConnectionSecret :=
              if common.Patches.HasPatches = true ∧ tc.Patches.ConnectionSecret = none then
                common.Patches.ConnectionSecret
              else tc.Patches.ConnectionSecret
            ConnectionSecretName :=
              if common.Patches.HasPatches = true ∧ tc.Patches.ConnectionSecretName = "" then
                common.Patches.ConnectionSecretName
              else tc.Patches.ConnectionSecretName
            ConnectionSecretNamespace :=
              if common.Patches.HasPatches = true ∧ tc.Patches.ConnectionSecretNamespace = "" then
                common.Patches.ConnectionSecretNamespace
              else tc.Patches.ConnectionSecretNamespace }
        Hooks :=
          { PreTest :=
              if common.Hooks.HasHooks = true ∧ tc.Hooks.PreTest.length = 0 then
                common.Hooks.PreTest
              else tc.Hooks.PreTest
            PostTest :=
              if common.Hooks.HasHooks = true ∧ tc.Hooks.PostTest.length = 0 then
                common.Hooks.PostTest
              else tc.Hooks.PostTest }
        Assertions :=
          { Xprin :=
              if common.Assertions.Xprin.length > 0 ∧ tc.Assertions.Xprin.length = 0 then
                common.Assertions.Xprin
              else tc.Assertions.Xprin
            Diff :=
              if common.Assertions.Diff.length > 0 ∧ tc.Assertions.Diff.length = 0 then
                common.Assertions.Diff
              else tc.Assertions.Diff
            Dyff :=
              if common.Assertions.Dyff.length > 0 ∧ tc.Assertions.Dyff.length = 0 then
                common.Assertions.Dyff
              else tc.Assertions.Dyff } } := by
  obtain ⟨n, d, ⟨i1, i2, i3, i4, i5, i6, i7, i8, i9, i10⟩, ⟨p1, p2, p3, p4⟩, ⟨h1, h2⟩,
    ⟨s1, s2, s3⟩⟩ := tc
  simp only [TestCase.MergeCommon, ite_TestCase, ite_Inputs, ite_Patches, ite_Hooks,
    ite_Assertions, ite_self, copySlice_makeSlice, mapsCopy_empty, TestCase.HasPreTestHooks,
    TestCase.HasPostTestHooks, Hooks.HasPreTestHooks, Hooks.HasPostTestHooks,
    TestCase.HasAssertionsXprin, TestCase.HasAssertionsDiff, TestCase.HasAssertionsDyff,
    Assertions.HasAssertionsXprin, Assertions.HasAssertionsDiff, Assertions.HasAssertionsDyff,
    Bool.and_eq_true, Bool.not_eq_true', decide_eq_true_eq, decide_eq_false_iff_not, not_lt,
    Nat.le_zero_eq, gt_iff_lt, ← ite_and]

/-! ## Case-level validation and merge: auxiliary facts -/

theorem mandatoryErrors_eq_nil_iff {V : Type} (tc : TestCase V) :
    tc.mandatoryErrors = [] ↔
      ((tc.Inputs.Claim ≠ "" ∧ tc.Inputs.XR = "") ∨ (tc.Inputs.Claim = "" ∧ tc.Inputs.XR ≠ "")) ∧
      tc.Inputs.Composition ≠ "" ∧ tc.Inputs.Functions ≠ "" := by
  unfold TestCase.mandatoryErrors TestCase.HasClaim TestCase.HasXR
  by_cases hc : tc.Inputs.Claim = "" <;> by_cases hx : tc.Inputs.XR = "" <;>
    by_cases hk : tc.Inputs.Composition = "" <;> by_cases hf : tc.Inputs.Functions = "" <;>
    simp [hc, hx, hk, hf]

theorem checkMandatoryFields_eq_none {V : Type} (tc : TestCase V) :
    tc.CheckMandatoryFields = none ↔ tc.mandatoryErrors = [] := by
  unfold TestCase.CheckMandatoryFields
  cases h : tc.mandatoryErrors with
  | nil => simp
  | cons e es => simp

theorem ite_orElse_ne_empty (a b : String) :
    (if a = "" then b else a) ≠ "" ↔ a ≠ "" ∨ b ≠ "" := by
  by_cases h : a = "" <;> simp [h]

theorem ite_list_keep {α : Type} (a b : List α) :
    (if a.length = 0 ∧ b.length > 0 then b else a) = if 0 < a.length then a else b := by
  cases a with
  | cons x xs => simp
  | nil =>
    cases b with
    | nil => simp
    | cons y ys => simp

theorem ite_list_keep_gated {α : Type} (g : Prop) [Decidable g] (a b : List α)
    (hg : ¬ g → b.length = 0) :
    (if g ∧ a.length = 0 then b else a) = if 0 < a.length then a else b := by
  cases a with
  | cons x xs => simp
  | nil =>
    by_cases h : g
    · simp [h]
    · have hb := List.length_eq_zero.mp (hg h)
      simp [h, hb]

theorem ite_map_keep (a b : StringMap) :
    (if mapLen a = 0 ∧ mapLen b > 0 then b else a) = if 0 < mapLen a then a else b := by
  by_cases ha : mapLen a = 0
  · by_cases hb : mapLen b = 0
    · rw [(mapLen_eq_zero_iff a).mp ha, (mapLen_eq_zero_iff b).mp hb]
      simp
    · simp [ha, Nat.pos_of_ne_zero hb]
  · simp [ha, Nat.pos_of_ne_zero ha]

theorem hasHooks_false {h : Hooks} (hh : ¬ h.HasHooks = true) :
    h.PreTest.length = 0 ∧ h.PostTest.length = 0 := by
  unfold Hooks.HasHooks Hooks.HasPreTestHooks Hooks.HasPostTestHooks at hh
  simp only [Bool.or_eq_true, decide_eq_true_eq, not_or, not_lt, Nat.le_zero_eq, gt_iff_lt]
    at hh
  exact hh

theorem hasPatches_iff (p : Patches) :
    p.HasPatches = true ↔
      p.XRD ≠ "" ∨ p.ConnectionSecret = some true ∨ p.ConnectionSecretName ≠ "" ∨
        p.ConnectionSecretNamespace ≠ "" := by
  unfold Patches.HasPatches Patches.HasConnectionSecret
  cases h : p.ConnectionSecret with
  | none => simp [or_assoc]
  | some b => cases b <;> simp [or_assoc]

theorem hasCommon_eq_false_iff {V : Type} (ts : TestSuiteSpec V) :
    ts.HasCommon = false ↔
      ts.Common.Inputs.XR = "" ∧ ts.Common.Inputs.Claim = "" ∧
      ts.Common.Inputs.Composition = "" ∧ ts.Common.Inputs.Functions = "" ∧
      ts.Common.Inputs.CRDs.length = 0 ∧ mapLen ts.Common.Inputs.ContextFiles = 0 ∧
      mapLen ts.Common.Inputs.ContextValues = 0 ∧ ts.Common.Inputs.ObservedResources = "" ∧
      ts.Common.Inputs.ExtraResources = "" ∧ ts.Common.Inputs.FunctionCredentials = "" ∧
      ts.Common.Patches.HasPatches = false ∧ ts.Common.Hooks.HasHooks = false ∧
      ts.Common.Assertions.HasAssertions = false := by
  unfold TestSuiteSpec.HasCommon TestSuiteSpec.HasCommonPatches TestSuiteSpec.HasCommonHooks
    TestSuiteSpec.HasCommonAssertions
  simp only [Bool.or_eq_false_iff, bne_eq_false_iff_eq, decide_eq_false_iff_not, not_lt,
    Nat.le_zero_eq, gt_iff_lt, and_assoc]

/-! ## Suite-level validation: the collected messages -/

theorem hasValidID_eq_false_iff (id : String) (h : id ≠ "") :
    hasValidID id = false ↔ ∃ c ∈ id.data, inIDCharset c = false := by
  rw [← Bool.not_eq_true, hasValidID_iff id h]
  simp only [inIDCharset, decide_eq_false_iff_not, not_forall, exists_prop]

theorem checkTest_allErrors {V : Type} (st : CheckState) (earlier : List (TestCase V))
    (t : TestCase V)
    (hused : ∀ k, st.usedIDs k = true ↔ ∃ e ∈ earlier, e.ID ≠ "" ∧ e.ID = k) :
    (checkTest st t).allErrors = st.allErrors ++ specCaseViolations earlier t := by
  unfold specCaseViolations
  by_cases hid : t.ID = ""
  · unfold checkTest
    by_cases hn : t.Name = "" <;> simp [hn, hid]
  · have hdup : (∃ e ∈ earlier, e.ID = t.ID) ↔ st.usedIDs t.ID = true := by
      rw [hused]
      constructor
      · rintro ⟨e, he, heq⟩
        exact ⟨e, he, heq ▸ hid, heq⟩
      · rintro ⟨e, he, _, heq⟩
        exact ⟨e, he, heq⟩
    have hinv := hasValidID_eq_false_iff t.ID hid
    clear hused
    unfold checkTest
    by_cases hu : st.usedIDs t.ID = true
    · have hd : ∃ e ∈ earlier, e.ID = t.ID := hdup.mpr hu
      by_cases hv : hasValidID t.ID = true
      · have hi : ¬ ∃ c ∈ t.ID.data, inIDCharset c = false :=
          fun h => Bool.false_ne_true ((hinv.mpr h).symm.trans hv)
        by_cases hn : t.Name = "" <;> simp [hn, hid, hv, hu, hd, hi]
      · have hv' : hasValidID t.ID = false := by simpa using hv
        have hi : ∃ c ∈ t.ID.data, inIDCharset c = false := hinv.mp hv'
        by_cases hn : t.Name = "" <;> simp [hn, hid, hv', hu, hd, hi]
    · have hd : ¬ ∃ e ∈ earlier, e.ID = t.ID := fun h => hu (hdup.mp h)
      by_cases hv : hasValidID t.ID = true
      · have hi : ¬ ∃ c ∈ t.ID.data, inIDCharset c = false :=
          fun h => Bool.false_ne_true ((hinv.mpr h).symm.trans hv)
        by_cases hn : t.Name = "" <;> simp [hn, hid, hv, hu, hd, hi]
      · have hv' : hasValidID t.ID = false := by simpa using hv
        have hi : ∃ c ∈ t.ID.data, inIDCharset c = false := hinv.mp hv'
        by_cases hn : t.Name = "" <;> simp [hn, hid, hv', hu, hd, hi]

theorem foldl_checkTest_allErrors {V : Type} (l : List (TestCase V)) (st : CheckState)
    (earlier : List (TestCase V))
    (hused : ∀ k, st.usedIDs k = true ↔ ∃ e ∈ earlier, e.ID ≠ "" ∧ e.ID = k) :
    (l.foldl checkTest st).allErrors = st.allErrors ++ specSuiteViolationsFrom earlier l := by
  induction l generalizing st earlier with
  | nil => simp [specSuiteViolationsFrom]
  | cons t l ih =>
    rw [List.foldl_cons, ih (checkTest st t) (earlier ++ [t]), checkTest_allErrors st earlier t hused,
      specSuiteViolationsFrom, List.append_assoc]
    intro k
    rw [checkTest_usedIDs, hused]
    constructor
    · rintro (⟨e, he, h1, h2⟩ | ⟨h1, h2⟩)
      · exact ⟨e, List.mem_append_left _ he, h1, h2⟩
      · exact ⟨t, by simp, h1, h2.symm⟩
    · rintro ⟨e, he, h1, h2⟩
      rcases List.mem_append.mp he with he | he
      · exact Or.inl ⟨e, he, h1, h2⟩
      · rw [List.mem_singleton] at he
        subst he
        exact Or.inr ⟨h1, h2.symm⟩

theorem suiteErrors_eq_spec {V : Type} (ts : TestSuiteSpec V) :
    ts.suiteErrors = specSuiteViolations ts.Tests := by
  unfold TestSuiteSpec.suiteErrors specSuiteViolations
  rw [foldl_checkTest_allErrors ts.Tests _ []]
  · rfl
  · intro k
    simp

theorem isDuplicateViolation_emptyName :
    isDuplicateViolation "test case has empty name" = false := by
  decide

theorem isDuplicateViolation_invalid (id rest : String) :
    isDuplicateViolation ("test case ID '" ++ id ++ rest) = false := by
  have h1 : ("duplicate test case ID '" : String).data =
      'd' :: ("uplicate test case ID '" : String).data := rfl
  have h2 : ("test case ID '" : String).data = 't' :: ("est case ID '" : String).data := rfl
  unfold isDuplicateViolation
  rw [String.data_append, String.data_append, h1, h2]
  simp [List.isPrefixOf]

theorem isDuplicateViolation_duplicate (id rest : String) :
    isDuplicateViolation ("duplicate test case ID '" ++ id ++ rest) = true := by
  unfold isDuplicateViolation
  rw [String.data_append, String.data_append, List.append_assoc, List.isPrefixOf_iff_prefix]
  exact List.prefix_append _ _

theorem countP_duplicate_specCaseViolations {V : Type} (earlier : List (TestCase V))
    (t : TestCase V) :
    (specCaseViolations earlier t).countP isDuplicateViolation =
      if t.ID ≠ "" ∧ ∃ e ∈ earlier, e.ID = t.ID then 1 else 0 := by
  unfold specCaseViolations
  rw [List.countP_append, List.countP_append]
  have e1 : (if t.Name = "" then ["test case has empty name"] else []).countP
      isDuplicateViolation = 0 := by
    split
    · simp [isDuplicateViolation_emptyName]
    · rfl
  have e2 : (if t.ID ≠ "" ∧ ∃ c ∈ t.ID.data, inIDCharset c = false then
      ["test case ID '" ++ t.ID ++
        "' contains invalid characters (allowed: alphanumeric, underscore, hyphen)"]
      else []).countP isDuplicateViolation = 0 := by
    split
    · simp [isDuplicateViolation_invalid]
    · rfl
  rw [e1, e2]
  split
  · simp [isDuplicateViolation_duplicate]
  · rfl

theorem nonEmptyIDs_append_singleton {V : Type} (earlier : List (TestCase V)) (t : TestCase V) :
    nonEmptyIDs (earlier ++ [t]) =
      nonEmptyIDs earlier ++ (if t.ID ≠ "" then [t.ID] else []) := by
  unfold nonEmptyIDs
  by_cases h : t.ID = "" <;> simp [h]

theorem mem_nonEmptyIDs {V : Type} (l : List (TestCase V)) (k : String) :
    k ∈ nonEmptyIDs l ↔ ∃ e ∈ l, e.ID ≠ "" ∧ e.ID = k := by
  unfold nonEmptyIDs
  simp only [List.mem_filter, List.mem_map, decide_eq_true_eq]
  constructor
  · rintro ⟨⟨e, he, rfl⟩, hne⟩
    exact ⟨e, he, hne, rfl⟩
  · rintro ⟨e, he, hne, rfl⟩
    exact ⟨⟨e, he, rfl⟩, hne⟩

theorem countP_duplicate_specSuiteViolationsFrom {V : Type} (l earlier : List (TestCase V)) :
    (specSuiteViolationsFrom earlier l).countP isDuplicateViolation +
        (nonEmptyIDs (earlier ++ l)).toFinset.card =
      (nonEmptyIDs l).length + (nonEmptyIDs earlier).toFinset.card := by
  induction l generalizing earlier with
  | nil => simp [specSuiteViolationsFrom, nonEmptyIDs]
  | cons t l ih =>
    have ih' := ih (earlier ++ [t])
    rw [List.append_assoc, List.singleton_append] at ih'
    rw [specSuiteViolationsFrom, List.countP_append, countP_duplicate_specCaseViolations]
    have hstep : (if t.ID ≠ "" ∧ ∃ e ∈ earlier, e.ID = t.ID then 1 else 0) +
        (nonEmptyIDs (earlier ++ [t])).toFinset.card =
        (if t.ID ≠ "" then 1 else 0) + (nonEmptyIDs earlier).toFinset.card := by
      rw [nonEmptyIDs_append_singleton]
      by_cases hid : t.ID = ""
      · simp [hid]
      · by_cases hmem : t.ID ∈ nonEmptyIDs earlier
        · have hex : ∃ e ∈ earlier, e.ID = t.ID := by
            obtain ⟨e, he, _, heq⟩ := (mem_nonEmptyIDs earlier t.ID).mp hmem
            exact ⟨e, he, heq⟩
          have hins : (nonEmptyIDs earlier ++ [t.ID]).toFinset =
              (nonEmptyIDs earlier).toFinset := by
            ext k
            simp only [List.mem_toFinset, List.mem_append, List.mem_singleton]
            constructor
            · rintro (h | h)
              · exact h
              · exact h ▸ hmem
            · exact Or.inl
          simp [hid, hex, hins]
        · have hex : ¬ ∃ e ∈ earlier, e.ID = t.ID := by
            rintro ⟨e, he, heq⟩
            exact hmem ((mem_nonEmptyIDs earlier t.ID).mpr ⟨e, he, heq ▸ hid, heq⟩)
          have hins : (nonEmptyIDs earlier ++ [t.ID]).toFinset =
              insert t.ID (nonEmptyIDs earlier).toFinset := by
            ext k
            simp only [List.mem_toFinset, List.mem_append, List.mem_singleton,
              Finset.mem_insert]
            exact or_comm
          have hnot : t.ID ∉ (nonEmptyIDs earlier).toFinset := by
            simpa using hmem
          simp only [ne_eq, hid, not_false_eq_true, hex, and_false, if_false, if_true, hins,
            Finset.card_insert_of_not_mem hnot]
          omega
    have hlen : (nonEmptyIDs (t :: l)).length =
        (if t.ID ≠ "" then 1 else 0) + (nonEmptyIDs l).length := by
      unfold nonEmptyIDs
      by_cases hid : t.ID = "" <;> simp [hid, Nat.add_comm]
    rw [hlen]
    omega

/-! ## Suite-level validation: the text of the error -/

theorem intercalate_go_eq_foldl (s : String) (l : List String) (acc pre : String) :
    pre ++ String.intercalate.go acc s l = l.foldl (fun r v => r ++ s ++ v) (pre ++ acc) := by
  induction l generalizing acc with
  | nil => rfl
  | cons a l ih =>
    rw [String.intercalate.go, ih, List.foldl_cons, String.append_assoc, String.append_assoc,
      String.append_assoc]

theorem checkValidTestSuiteFile_eq_some {V : Type} (ts : TestSuiteSpec V) (msg : String)
    (h : ts.CheckValidTestSuiteFile = some msg) :
    msg = ts.suiteErrors.foldl (fun r v => r ++ "\n- " ++ v) "invalid testsuite file:" := by
  unfold TestSuiteSpec.CheckValidTestSuiteFile at h
  cases he : ts.suiteErrors with
  | nil => simp [he] at h
  | cons e es =>
    simp only [he, List.length_cons, gt_iff_lt, Nat.zero_lt_succ, if_true, Option.some.injEq]
      at h
    rw [← h]
    unfold stringsJoin
    rw [String.intercalate, intercalate_go_eq_foldl, List.foldl_cons]
    rfl

theorem count_newline_foldl (l : List String) (acc : String)
    (hl : ∀ v ∈ l, v.data.count '\n' = 0) :
    (l.foldl (fun r v => r ++ "\n- " ++ v) acc).data.count '\n' =
      acc.data.count '\n' + l.length := by
  induction l generalizing acc with
  | nil => rfl
  | cons a l ih =>
    rw [List.foldl_cons, ih _ (fun v hv => hl v (List.mem_cons_of_mem _ hv)),
      String.data_append, String.data_append, List.count_append, List.count_append,
      hl a (List.mem_cons_self _ _), List.length_cons]
    have : ("\n- " : String).data.count '\n' = 1 := by decide
    omega

theorem count_newline_specCaseViolations {V : Type} (earlier : List (TestCase V))
    (t : TestCase V) (ht : t.ID.data.count '\n' = 0) :
    ∀ v ∈ specCaseViolations earlier t, v.data.count '\n' = 0 := by
  intro v hv
  unfold specCaseViolations at hv
  have h1 : ("test case has empty name" : String).data.count '\n' = 0 := by decide
  have h2 : ("test case ID '" : String).data.count '\n' = 0 := by decide
  have h3 : ("' contains invalid characters (allowed: alphanumeric, underscore, hyphen)" :
      String).data.count '\n' = 0 := by decide
  have h4 : ("duplicate test case ID '" : String).data.count '\n' = 0 := by decide
  have h5 : ("' found" : String).data.count '\n' = 0 := by decide
  rcases List.mem_append.mp hv with hv | hv
  · rcases List.mem_append.mp hv with hv | hv
    · split at hv
      · rw [List.mem_singleton] at hv
        rw [hv, h1]
      · simp at hv
    · split at hv
      · rw [List.mem_singleton] at hv
        rw [hv, String.data_append, String.data_append, List.count_append, List.count_append,
          h2, h3, ht]
      · simp at hv
  · split at hv
    · rw [List.mem_singleton] at hv
      rw [hv, String.data_append, String.data_append, List.count_append, List.count_append,
        h4, h5, ht]
    · simp at hv

theorem count_newline_specSuiteViolationsFrom {V : Type} (l earlier : List (TestCase V))
    (hl : ∀ t ∈ l, t.ID.data.count '\n' = 0) :
    ∀ v ∈ specSuiteViolationsFrom earlier l, v.data.count '\n' = 0 := by
  induction l generalizing earlier with
  | nil =>
    intro v hv
    simp [specSuiteViolationsFrom] at hv
  | cons t l ih =>
    intro v hv
    rw [specSuiteViolationsFrom] at hv
    rcases List.mem_append.mp hv with hv | hv
    · exact count_newline_specCaseViolations earlier t (hl t (List.mem_cons_self _ _)) v hv
    · exact ih _ (fun u hu => hl u (List.mem_cons_of_mem _ hu)) v hv

/-! ## Reference-level merge: auxiliary facts -/

theorem ite_prod {α β : Type} (c : Prop) [Decidable c] (a a' : α) (b b' : β) :
    (if c then (a, b) else (a', b')) = (if c then a else a', if c then b else b') := by
  split <;> rfl

theorem ite_TestCaseRef (c : Prop) [Decidable c] (n n' d d' : String) (i i' : InputsRef)
    (p p' : PatchesRef) (h h' : HooksRef) (a a' : AssertionsRef) :
    (if c then TestCaseRef.mk n d i p h a else TestCaseRef.mk n' d' i' p' h' a') =
      TestCaseRef.mk (if c then n else n') (if c then d else d') (if c then i else i')
        (if c then p else p') (if c then h else h') (if c then a else a') := by
  split <;> rfl

theorem ite_InputsRef (c : Prop) [Decidable c] (a1 a1' a2 a2' a3 a3' a4 a4' : String)
    (a5 a5' : SliceRef) (a6 a6' a7 a7' : Option Nat) (a8 a8' a9 a9' a10 a10' : String) :
    (if c then InputsRef.mk a1 a2 a3 a4 a5 a6 a7 a8 a9 a10
      else InputsRef.mk a1' a2' a3' a4' a5' a6' a7' a8' a9' a10') =
      InputsRef.mk (if c then a1 else a1') (if c then a2 else a2') (if c then a3 else a3')
        (if c then a4 else a4') (if c then a5 else a5') (if c then a6 else a6')
        (if c then a7 else a7') (if c then a8 else a8') (if c then a9 else a9')
        (if c then a10 else a10') := by
  split <;> rfl

theorem ite_PatchesRef (c : Prop) [Decidable c] (a1 a1' : String) (a2 a2' : Option Nat)
    (a3 a3' a4 a4' : String) :
    (if c then PatchesRef.mk a1 a2 a3 a4 else PatchesRef.mk a1' a2' a3' a4') =
      PatchesRef.mk (if c then a1 else a1') (if c then a2 else a2') (if c then a3 else a3')
        (if c then a4 else a4') := by
  split <;> rfl

theorem ite_HooksRef (c : Prop) [Decidable c] (a1 a1' a2 a2' : SliceRef) :
    (if c then HooksRef.mk a1 a2 else HooksRef.mk a1' a2') =
      HooksRef.mk (if c then a1 else a1') (if c then a2 else a2') := by
  split <;> rfl

theorem ite_AssertionsRef (c : Prop) [Decidable c] (a1 a1' a2 a2' a3 a3' : SliceRef) :
    (if c then AssertionsRef.mk a1 a2 a3 else AssertionsRef.mk a1' a2' a3') =
      AssertionsRef.mk (if c then a1 else a1') (if c then a2 else a2')
        (if c then a3 else a3') := by
  split <;> rfl

theorem ite_Heap {V : Type} (c : Prop) [Decidable c] (a1 a1' : Nat → List String)
    (a2 a2' : Nat → List Hook) (a3 a3' : Nat → List (AssertionXprin V))
    (a4 a4' : Nat → List AssertionGoldenFile) (a5 a5' : Nat → StringMap) (a6 a6' : Nat → Bool)
    (a7 a7' a8 a8' a9 a9' a10 a10' : Nat) :
    (if c then Heap.mk a1 a2 a3 a4 a5 a6 a7 a8 a9 a10
      else Heap.mk a1' a2' a3' a4' a5' a6' a7' a8' a9' a10') =
      Heap.mk (if c then a1 else a1') (if c then a2 else a2') (if c then a3 else a3')
        (if c then a4 else a4') (if c then a5 else a5') (if c then a6 else a6')
        (if c then a7 else a7') (if c then a8 else a8') (if c then a9 else a9')
        (if c then a10 else a10') := by
  split <;> rfl

theorem copiesOnly_refl {V : Type} (h : Heap V) (tc : TestCaseRef) : CopiesOnly h tc (h, tc) :=
  ⟨rfl, rfl, Nat.le_refl _, Nat.le_refl _, Nat.le_refl _, Nat.le_refl _, fun _ _ => rfl,
    fun _ _ => rfl, fun _ _ => rfl, fun _ _ => rfl, Or.inl rfl, Or.inl rfl, Or.inl rfl,
    Or.inl rfl, Or.inl rfl, Or.inl rfl⟩

theorem copiesOnly_trans {V : Type} {h : Heap V} {tc : TestCaseRef}
    {r r' : Heap V × TestCaseRef} (h1 : CopiesOnly h tc r) (h2 : CopiesOnly r.1 r.2 r') :
    CopiesOnly h tc r' := by
  obtain ⟨a1, a2, a3, a4, a5, a6, a7, a8, a9, a10, a11, a12, a13, a14, a15, a16⟩ := h1
  obtain ⟨b1, b2, b3, b4, b5, b6, b7, b8, b9, b10, b11, b12, b13, b14, b15, b16⟩ := h2
  refine ⟨b1.trans a1, b2.trans a2, Nat.le_trans a3 b3, Nat.le_trans a4 b4, Nat.le_trans a5 b5,
    Nat.le_trans a6 b6, ?_, ?_, ?_, ?_, ?_, ?_, ?_, ?_, ?_, ?_⟩
  · intro a ha
    rw [b7 a (Nat.lt_of_lt_of_le ha a3), a7 a ha]
  · intro a ha
    rw [b8 a (Nat.lt_of_lt_of_le ha a4), a8 a ha]
  · intro a ha
    rw [b9 a (Nat.lt_of_lt_of_le ha a5), a9 a ha]
  · intro a ha
    rw [b10 a (Nat.lt_of_lt_of_le ha a6), a10 a ha]
  · rcases b11 with e | ⟨l, u⟩
    · rw [e]
      rcases a11 with e' | ⟨l', u'⟩
      · exact Or.inl e'
      · exact Or.inr ⟨l', Nat.lt_of_lt_of_le u' b3⟩
    · exact Or.inr ⟨Nat.le_trans a3 l, u⟩
  · rcases b12 with e | ⟨l, u⟩
    · rw [e]
      rcases a12 with e' | ⟨l', u'⟩
      · exact Or.inl e'
      · exact Or.inr ⟨l', Nat.lt_of_lt_of_le u' b4⟩
    · exact Or.inr ⟨Nat.le_trans a4 l, u⟩
  · rcases b13 with e | ⟨l, u⟩
    · rw [e]
      rcases a13 with e' | ⟨l', u'⟩
      · exact Or.inl e'
      · exact Or.inr ⟨l', Nat.lt_of_lt_of_le u' b5⟩
    · exact Or.inr ⟨Nat.le_trans a5 l, u⟩
  · rcases b14 with e | ⟨l, u⟩
    · rw [e]
      rcases a14 with e' | ⟨l', u'⟩
      · exact Or.inl e'
      · exact Or.inr ⟨l', Nat.lt_of_lt_of_le u' b5⟩
    · exact Or.inr ⟨Nat.le_trans a5 l, u⟩
  · rcases b15 with e | ⟨m, e, l, u⟩
    · rw [e]
      rcases a15 with e' | ⟨m', e', l', u'⟩
      · exact Or.inl e'
      · exact Or.inr ⟨m', e', l', Nat.lt_of_lt_of_le u' b6⟩
    · exact Or.inr ⟨m, e, Nat.le_trans a6 l, u⟩
  · rcases b16 with e | ⟨m, e, l, u⟩
    · rw [e]
      rcases a16 with e' | ⟨m', e', l', u'⟩
      · exact Or.inl e'
      · exact Or.inr ⟨m', e', l', Nat.lt_of_lt_of_le u' b6⟩
    · exact Or.inr ⟨m, e, Nat.le_trans a6 l, u⟩

theorem copiesOnly_of_refs {V : Type} (h : Heap V) (tc tc' : TestCaseRef)
    (hi1 : tc'.Inputs.CRDs = tc.Inputs.CRDs)
    (hi2 : tc'.Inputs.ContextFiles = tc.Inputs.ContextFiles)
    (hi3 : tc'.Inputs.ContextValues = tc.Inputs.ContextValues)
    (ha : tc'.Assertions = tc.Assertions) : CopiesOnly h tc (h, tc') :=
  ⟨rfl, rfl, Nat.le_refl _, Nat.le_refl _, Nat.le_refl _, Nat.le_refl _, fun _ _ => rfl,
    fun _ _ => rfl, fun _ _ => rfl, fun _ _ => rfl, Or.inl hi1, Or.inl (by rw [ha]),
    Or.inl (by rw [ha]), Or.inl (by rw [ha]), Or.inl hi2, Or.inl hi3⟩

theorem mergeInputPaths_refs (tc : TestCaseRef) (common : CommonRef) :
    (tc.mergeInputPaths common).Inputs.CRDs = tc.Inputs.CRDs ∧
      (tc.mergeInputPaths common).Inputs.ContextFiles = tc.Inputs.ContextFiles ∧
      (tc.mergeInputPaths common).Inputs.ContextValues = tc.Inputs.ContextValues ∧
      (tc.mergeInputPaths common).Patches = tc.Patches ∧
      (tc.mergeInputPaths common).Hooks = tc.Hooks ∧
      (tc.mergeInputPaths common).Assertions = tc.Assertions := by
  obtain ⟨n, d, ⟨i1, i2, i3, i4, i5, i6, i7, i8, i9, i10⟩, p, k, s⟩ := tc
  simp only [TestCaseRef.mergeInputPaths, ite_TestCaseRef, ite_InputsRef, ite_self, and_self]

theorem mergeResourcePaths_refs (tc : TestCaseRef) (common : CommonRef) :
    (tc.mergeResourcePaths common).Inputs.CRDs = tc.Inputs.CRDs ∧
      (tc.mergeResourcePaths common).Inputs.ContextFiles = tc.Inputs.ContextFiles ∧
      (tc.mergeResourcePaths common).Inputs.ContextValues = tc.Inputs.ContextValues ∧
      (tc.mergeResourcePaths common).Patches = tc.Patches ∧
      (tc.mergeResourcePaths common).Hooks = tc.Hooks ∧
      (tc.mergeResourcePaths common).Assertions = tc.Assertions := by
  obtain ⟨n, d, ⟨i1, i2, i3, i4, i5, i6, i7, i8, i9, i10⟩, p, k, s⟩ := tc
  simp only [TestCaseRef.mergeResourcePaths, ite_TestCaseRef, ite_InputsRef, ite_self,
    and_self]

theorem mergePatchesRef_refs {V : Type} (h : Heap V) (tc : TestCaseRef) (common : CommonRef) :
    (tc.mergePatches h common).Inputs = tc.Inputs ∧
      (tc.mergePatches h common).Hooks = tc.Hooks ∧
      (tc.mergePatches h common).Assertions = tc.Assertions ∧
      (tc.mergePatches h common).Patches.ConnectionSecret =
        (if common.Patches.HasPatches h = true ∧ tc.Patches.ConnectionSecret = none then
          common.Patches.ConnectionSecret
        else tc.Patches.ConnectionSecret) := by
  obtain ⟨n, d, i, ⟨p1, p2, p3, p4⟩, k, s⟩ := tc
  simp only [TestCaseRef.mergePatches, ite_TestCaseRef, ite_PatchesRef, ite_self, true_and,
    ← ite_and]

theorem mergeHooksRef_refs (tc : TestCaseRef) (common : CommonRef) :
    (tc.mergeHooks common).Inputs = tc.Inputs ∧
      (tc.mergeHooks common).Patches = tc.Patches ∧
      (tc.mergeHooks common).Assertions = tc.Assertions ∧
      (tc.mergeHooks common).Hooks.PreTest =
        (if common.Hooks.HasHooks = true ∧ ¬ tc.Hooks.PreTest.len > 0 then common.Hooks.PreTest
        else tc.Hooks.PreTest) ∧
      (tc.mergeHooks common).Hooks.PostTest =
        (if common.Hooks.HasHooks = true ∧ ¬ tc.Hooks.PostTest.len > 0 then
          common.Hooks.PostTest
        else tc.Hooks.PostTest) := by
  obtain ⟨n, d, i, p, ⟨k1, k2⟩, s⟩ := tc
  simp only [TestCaseRef.mergeHooks, ite_TestCaseRef, ite_HooksRef, ite_self, true_and,
    ← ite_and]

theorem mergeCRDs_copiesOnly {V : Type} (h : Heap V) (tc : TestCaseRef) (common : CommonRef) :
    CopiesOnly h tc (tc.mergeCRDs h common) := by
  unfold TestCaseRef.mergeCRDs
  split
  · refine ⟨rfl, rfl, Nat.le_succ _, Nat.le_refl _, Nat.le_refl _, Nat.le_refl _, ?_,
      fun _ _ => rfl, fun _ _ => rfl, fun _ _ => rfl,
      Or.inr ⟨Nat.le_refl _, Nat.lt_succ_self _⟩, Or.inl rfl, Or.inl rfl, Or.inl rfl,
      Or.inl rfl, Or.inl rfl⟩
    intro a ha
    simp [Heap.copyStrings, Heap.makeStrings, Nat.ne_of_lt ha]
  · exact copiesOnly_refl h tc

theorem mergeContextFiles_copiesOnly {V : Type} (h : Heap V) (tc : TestCaseRef)
    (common : CommonRef) : CopiesOnly h tc (tc.mergeContextFiles h common) := by
  unfold TestCaseRef.mergeContextFiles
  split
  · refine ⟨rfl, rfl, Nat.le_refl _, Nat.le_refl _, Nat.le_refl _, Nat.le_succ _,
      fun _ _ => rfl, fun _ _ => rfl, fun _ _ => rfl, ?_, Or.inl rfl, Or.inl rfl, Or.inl rfl,
      Or.inl rfl, Or.inr ⟨_, rfl, Nat.le_refl _, Nat.lt_succ_self _⟩, Or.inl rfl⟩
    intro a ha
    simp [Heap.mapsCopy, Heap.makeMap, Nat.ne_of_lt ha]
  · exact copiesOnly_refl h tc

theorem mergeContextValues_copiesOnly {V : Type} (h : Heap V) (tc : TestCaseRef)
    (common : CommonRef) : CopiesOnly h tc (tc.mergeContextValues h common) := by
  unfold TestCaseRef.mergeContextValues
  split
  · refine ⟨rfl, rfl, Nat.le_refl _, Nat.le_refl _, Nat.le_refl _, Nat.le_succ _,
      fun _ _ => rfl, fun _ _ => rfl, fun _ _ => rfl, ?_, Or.inl rfl, Or.inl rfl, Or.inl rfl,
      Or.inl rfl, Or.inl rfl, Or.inr ⟨_, rfl, Nat.le_refl _, Nat.lt_succ_self _⟩⟩
    intro a ha
    simp [Heap.mapsCopy, Heap.makeMap, Nat.ne_of_lt ha]
  · exact copiesOnly_refl h tc

theorem mergeXprin_copiesOnly {V : Type} [Inhabited V] (h : Heap V) (tc : TestCaseRef)
    (common : CommonRef) : CopiesOnly h tc (tc.mergeXprin h common) := by
  unfold TestCaseRef.mergeXprin
  split
  · refine ⟨rfl, rfl, Nat.le_refl _, Nat.le_succ _, Nat.le_refl _, Nat.le_refl _,
      fun _ _ => rfl, ?_, fun _ _ => rfl, fun _ _ => rfl, Or.inl rfl,
      Or.inr ⟨Nat.le_refl _, Nat.lt_succ_self _⟩, Or.inl rfl, Or.inl rfl, Or.inl rfl,
      Or.inl rfl⟩
    intro a ha
    simp [Heap.copyXprin, Heap.makeXprin, Nat.ne_of_lt ha]
  · exact copiesOnly_refl h tc

theorem mergeDiff_copiesOnly {V : Type} (h : Heap V) (tc : TestCaseRef) (common : CommonRef) :
    CopiesOnly h tc (tc.mergeDiff h common) := by
  unfold TestCaseRef.mergeDiff
  split
  · refine ⟨rfl, rfl, Nat.le_refl _, Nat.le_refl _, Nat.le_succ _, Nat.le_refl _,
      fun _ _ => rfl, fun _ _ => rfl, ?_, fun _ _ => rfl, Or.inl rfl, Or.inl rfl,
      Or.inr ⟨Nat.le_refl _, Nat.lt_succ_self _⟩, Or.inl rfl, Or.inl rfl, Or.inl rfl⟩
    intro a ha
    simp [Heap.copyGolden, Heap.makeGolden, Nat.ne_of_lt ha]
  · exact copiesOnly_refl h tc

theorem mergeDyff_copiesOnly {V : Type} (h : Heap V) (tc : TestCaseRef) (common : CommonRef) :
    CopiesOnly h tc (tc.mergeDyff h common) := by
  unfold TestCaseRef.mergeDyff
  split
  · refine ⟨rfl, rfl, Nat.le_refl _, Nat.le_refl _, Nat.le_succ _, Nat.le_refl _,
      fun _ _ => rfl, fun _ _ => rfl, ?_, fun _ _ => rfl, Or.inl rfl, Or.inl rfl, Or.inl rfl,
      Or.inr ⟨Nat.le_refl _, Nat.lt_succ_self _⟩, Or.inl rfl, Or.inl rfl⟩
    intro a ha
    simp [Heap.copyGolden, Heap.makeGolden, Nat.ne_of_lt ha]
  · exact copiesOnly_refl h tc

theorem mergeCommonRef_copiesOnly {V : Type} [Inhabited V] (h : Heap V) (tc : TestCaseRef)
    (common : CommonRef) : CopiesOnly h tc (tc.MergeCommon h common) := by
  unfold TestCaseRef.MergeCommon
  dsimp only
  have eA := mergeInputPaths_refs tc common
  generalize tc.mergeInputPaths common = tcA at eA ⊢
  have cB := mergeCRDs_copiesOnly h tcA common
  generalize tcA.mergeCRDs h common = stB at cB ⊢
  have cC := mergeContextFiles_copiesOnly stB.1 stB.2 common
  generalize stB.2.mergeContextFiles stB.1 common = stC at cC ⊢
  have cD := mergeContextValues_copiesOnly stC.1 stC.2 common
  generalize stC.2.mergeContextValues stC.1 common = stD at cD ⊢
  have eE := mergeResourcePaths_refs stD.2 common
  generalize stD.2.mergeResourcePaths common = tcE at eE ⊢
  have eF := mergePatchesRef_refs stD.1 tcE common
  generalize tcE.mergePatches stD.1 common = tcF at eF ⊢
  have eG := mergeHooksRef_refs tcF common
  generalize tcF.mergeHooks common = tcG at eG ⊢
  have cH := mergeXprin_copiesOnly stD.1 tcG common
  generalize tcG.mergeXprin stD.1 common = stH at cH ⊢
  have cI := mergeDiff_copiesOnly stH.1 stH.2 common
  generalize stH.2.mergeDiff stH.1 common = stI at cI ⊢
  have cJ := mergeDyff_copiesOnly stI.1 stI.2 common
  generalize stI.2.mergeDyff stI.1 common = stJ at cJ ⊢
  have c1 : CopiesOnly h tc (h, tcA) :=
    copiesOnly_of_refs h tc tcA eA.1 eA.2.1 eA.2.2.1 eA.2.2.2.2.2
  have c4 := copiesOnly_trans (copiesOnly_trans (copiesOnly_trans c1 cB) cC) cD
  have cG : CopiesOnly stD.1 stD.2 (stD.1, tcG) := by
    refine copiesOnly_of_refs stD.1 stD.2 tcG ?_ ?_ ?_ ?_
    · rw [eG.1, eF.1, eE.1]
    · rw [eG.1, eF.1, eE.2.1]
    · rw [eG.1, eF.1, eE.2.2.1]
    · rw [eG.2.2.1, eF.2.2.1, eE.2.2.2.2.2]
  exact copiesOnly_trans (copiesOnly_trans (copiesOnly_trans (copiesOnly_trans c4 cG) cH) cI) cJ

theorem mergeCRDs_frame {V : Type} (h : Heap V) (tc : TestCaseRef) (common : CommonRef) :
    (tc.mergeCRDs h common).2.Patches = tc.Patches ∧
      (tc.mergeCRDs h common).2.Hooks = tc.Hooks := by
  unfold TestCaseRef.mergeCRDs
  split <;> exact ⟨rfl, rfl⟩

theorem mergeContextFiles_frame {V : Type} (h : Heap V) (tc : TestCaseRef)
    (common : CommonRef) :
    (tc.mergeContextFiles h common).2.Patches = tc.Patches ∧
      (tc.mergeContextFiles h common).2.Hooks = tc.Hooks := by
  unfold TestCaseRef.mergeContextFiles
  split <;> exact ⟨rfl, rfl⟩

theorem mergeContextValues_frame {V : Type} (h : Heap V) (tc : TestCaseRef)
    (common : CommonRef) :
    (tc.mergeContextValues h common).2.Patches = tc.Patches ∧
      (tc.mergeContextValues h common).2.Hooks = tc.Hooks := by
  unfold TestCaseRef.mergeContextValues
  split <;> exact ⟨rfl, rfl⟩

theorem mergeXprin_frame {V : Type} [Inhabited V] (h : Heap V) (tc : TestCaseRef)
    (common : CommonRef) :
    (tc.mergeXprin h common).2.Patches = tc.Patches ∧
      (tc.mergeXprin h common).2.Hooks = tc.Hooks := by
  unfold TestCaseRef.mergeXprin
  split <;> exact ⟨rfl, rfl⟩

theorem mergeDiff_frame {V : Type} (h : Heap V) (tc : TestCaseRef) (common : CommonRef) :
    (tc.mergeDiff h common).2.Patches = tc.Patches ∧
      (tc.mergeDiff h common).2.Hooks = tc.Hooks := by
  unfold TestCaseRef.mergeDiff
  split <;> exact ⟨rfl, rfl⟩

theorem mergeDyff_frame {V : Type} (h : Heap V) (tc : TestCaseRef) (common : CommonRef) :
    (tc.mergeDyff h common).2.Patches = tc.Patches ∧
      (tc.mergeDyff h common).2.Hooks = tc.Hooks := by
  unfold TestCaseRef.mergeDyff
  split <;> exact ⟨rfl, rfl⟩

theorem hasPatchesRef_congr {V : Type} (h h' : Heap V) (p : PatchesRef)
    (hb : h'.bools = h.bools) : p.HasPatches h' = p.HasPatches h := by
  unfold PatchesRef.HasPatches PatchesRef.HasConnectionSecret
  rw [hb]

theorem mergeCommonRef_assigned {V : Type} [Inhabited V] (h : Heap V) (tc : TestCaseRef)
    (common : CommonRef) :
    (tc.MergeCommon h common).2.Hooks.PreTest =
        (if common.Hooks.HasHooks = true ∧ ¬ tc.Hooks.PreTest.len > 0 then common.Hooks.PreTest
        else tc.Hooks.PreTest) ∧
      (tc.MergeCommon h common).2.Hooks.PostTest =
        (if common.Hooks.HasHooks = true ∧ ¬ tc.Hooks.PostTest.len > 0 then
          common.Hooks.PostTest
        else tc.Hooks.PostTest) ∧
      (tc.MergeCommon h common).2.Patches.ConnectionSecret =
        (if common.Patches.HasPatches h = true ∧ tc.Patches.ConnectionSecret = none then
          common.Patches.ConnectionSecret
        else tc.Patches.ConnectionSecret) := by
  unfold TestCaseRef.MergeCommon
  dsimp only
  have eA := mergeInputPaths_refs tc common
  generalize tc.mergeInputPaths common = tcA at eA ⊢
  have cB := mergeCRDs_copiesOnly h tcA common
  have fB := mergeCRDs_frame h tcA common
  generalize tcA.mergeCRDs h common = stB at cB fB ⊢
  have cC := mergeContextFiles_copiesOnly stB.1 stB.2 common
  have fC := mergeContextFiles_frame stB.1 stB.2 common
  generalize stB.2.mergeContextFiles stB.1 common = stC at cC fC ⊢
  have cD := mergeContextValues_copiesOnly stC.1 stC.2 common
  have fD := mergeContextValues_frame stC.1 stC.2 common
  generalize stC.2.mergeContextValues stC.1 common = stD at cD fD ⊢
  have eE := mergeResourcePaths_refs stD.2 common
  generalize stD.2.mergeResourcePaths common = tcE at eE ⊢
  have eF := mergePatchesRef_refs stD.1 tcE common
  generalize tcE.mergePatches stD.1 common = tcF at eF ⊢
  have eG := mergeHooksRef_refs tcF common
  generalize tcF.mergeHooks common = tcG at eG ⊢
  have fH := mergeXprin_frame stD.1 tcG common
  generalize tcG.mergeXprin stD.1 common = stH at fH ⊢
  have fI := mergeDiff_frame stH.1 stH.2 common
  generalize stH.2.mergeDiff stH.1 common = stI at fI ⊢
  have fJ := mergeDyff_frame stI.1 stI.2 common
  generalize stI.2.mergeDyff stI.1 common = stJ at fJ ⊢
  have hbools : stD.1.bools = h.bools := by
    rw [cD.2.1, cC.2.1, cB.2.1]
  have hP : tcE.Patches = tc.Patches := by
    rw [eE.2.2.2.1, fD.1, fC.1, fB.1, eA.2.2.2.1]
  have hH : tcF.Hooks = tc.Hooks := by
    rw [eF.2.1, eE.2.2.2.2.1, fD.2, fC.2, fB.2, eA.2.2.2.2.1]
  refine ⟨?_, ?_, ?_⟩
  · rw [fJ.2, fI.2, fH.2, eG.2.2.2.1, hH]
  · rw [fJ.2, fI.2, fH.2, eG.2.2.2.2, hH]
  · rw [fJ.1, fI.1, fH.1, eG.2.1, eF.2.2.2, hP, hasPatchesRef_congr h stD.1 _ hbools]

/-! ## The value-level merge, statement by statement -/

theorem mergeInputPaths_mk {V : Type} (n d : String)
    (a1 a2 a3 a4 : String) (a5 : List String) (a6 a7 : StringMap) (a8 a9 a10 : String)
    (p : Patches) (k : Hooks) (s : Assertions V) (common : Common V) :
    TestCase.mergeInputPaths ⟨n, d, ⟨a1, a2, a3, a4, a5, a6, a7, a8, a9, a10⟩, p, k, s⟩ common =
      ⟨n, d, ⟨if a1 = "" then common.Inputs.Claim else a1,
        if a2 = "" then common.Inputs.XR else a2,
        if a3 = "" then common.Inputs.Composition else a3,
        if a4 = "" then common.Inputs.Functions else a4, a5, a6, a7, a8, a9, a10⟩, p, k, s⟩ := by
  simp only [TestCase.mergeInputPaths, ite_TestCase, ite_Inputs, ite_self]

theorem mergeCRDs_mk {V : Type} (n d : String)
    (a1 a2 a3 a4 : String) (a5 : List String) (a6 a7 : StringMap) (a8 a9 a10 : String)
    (p : Patches) (k : Hooks) (s : Assertions V) (common : Common V) :
    TestCase.mergeCRDs ⟨n, d, ⟨a1, a2, a3, a4, a5, a6, a7, a8, a9, a10⟩, p, k, s⟩ common =
      ⟨n, d, ⟨a1, a2, a3, a4,
        if a5.length = 0 ∧ common.Inputs.CRDs.length > 0 then common.Inputs.CRDs else a5,
        a6, a7, a8, a9, a10⟩, p, k, s⟩ := by
  simp only [TestCase.mergeCRDs, ite_TestCase, ite_Inputs, ite_self, copySlice_makeSlice]

theorem mergeContextFiles_mk {V : Type} (n d : String)
    (a1 a2 a3 a4 : String) (a5 : List String) (a6 a7 : StringMap) (a8 a9 a10 : String)
    (p : Patches) (k : Hooks) (s : Assertions V) (common : Common V) :
    TestCase.mergeContextFiles ⟨n, d, ⟨a1, a2, a3, a4, a5, a6, a7, a8, a9, a10⟩, p, k, s⟩
        common =
      ⟨n, d, ⟨a1, a2, a3, a4, a5,
        if mapLen a6 = 0 ∧ mapLen common.Inputs.ContextFiles > 0 then
          common.Inputs.ContextFiles
        else a6, a7, a8, a9, a10⟩, p, k, s⟩ := by
  simp only [TestCase.mergeContextFiles, ite_TestCase, ite_Inputs, ite_self, mapsCopy_empty]

theorem mergeContextValues_mk {V : Type} (n d : String)
    (a1 a2 a3 a4 : String) (a5 : List String) (a6 a7 : StringMap) (a8 a9 a10 : String)
    (p : Patches) (k : Hooks) (s : Assertions V) (common : Common V) :
    TestCase.mergeContextValues ⟨n, d, ⟨a1, a2, a3, a4, a5, a6, a7, a8, a9, a10⟩, p, k, s⟩
        common =
      ⟨n, d, ⟨a1, a2, a3, a4, a5, a6,
        if mapLen a7 = 0 ∧ mapLen common.Inputs.ContextValues > 0 then
          common.Inputs.ContextValues
        else a7, a8, a9, a10⟩, p, k, s⟩ := by
  simp only [TestCase.mergeContextValues, ite_TestCase, ite_Inputs, ite_self, mapsCopy_empty]

theorem mergeResourcePaths_mk {V : Type} (n d : String)
    (a1 a2 a3 a4 : String) (a5 : List String) (a6 a7 : StringMap) (a8 a9 a10 : String)
    (p : Patches) (k : Hooks) (s : Assertions V) (common : Common V) :
    TestCase.mergeResourcePaths ⟨n, d, ⟨a1, a2, a3, a4, a5, a6, a7, a8, a9, a10⟩, p, k, s⟩
        common =
      ⟨n, d, ⟨a1, a2, a3, a4, a5, a6, a7,
        if a8 = "" then common.Inputs.ObservedResources else a8,
        if a9 = "" then common.Inputs.ExtraResources else a9,
        if a10 = "" then common.Inputs.FunctionCredentials else a10⟩, p, k, s⟩ := by
  simp only [TestCase.mergeResourcePaths, ite_TestCase, ite_Inputs, ite_self]

theorem mergePatches_mk {V : Type} (n d : String) (i : Inputs) (p1 : String)
    (p2 : Option Bool) (p3 p4 : String) (k : Hooks) (s : Assertions V) (common : Common V) :
    TestCase.mergePatches ⟨n, d, i, ⟨p1, p2, p3, p4⟩, k, s⟩ common =
      ⟨n, d, i,
        ⟨if common.Patches.HasPatches = true ∧ p1 = "" then common.Patches.XRD else p1,
          if common.Patches.HasPatches = true ∧ p2 = none then common.Patches.ConnectionSecret
          else p2,
          if common.Patches.HasPatches = true ∧ p3 = "" then
            common.Patches.ConnectionSecretName
          else p3,
          if common.Patches.HasPatches = true ∧ p4 = "" then
            common.Patches.ConnectionSecretNamespace
          else p4⟩, k, s⟩ := by
  simp only [TestCase.mergePatches, ite_TestCase, ite_Patches, ite_self, ← ite_and]

theorem mergeHooks_mk {V : Type} (n d : String) (i : Inputs) (p : Patches) (k1 k2 : List Hook)
    (s : Assertions V) (common : Common V) :
    TestCase.mergeHooks ⟨n, d, i, p, ⟨k1, k2⟩, s⟩ common =
      ⟨n, d, i, p,
        ⟨if common.Hooks.HasHooks = true ∧ k1.length = 0 then common.Hooks.PreTest else k1,
          if common.Hooks.HasHooks = true ∧ k2.length = 0 then common.Hooks.PostTest else k2⟩,
        s⟩ := by
  simp only [TestCase.mergeHooks, ite_TestCase, ite_Hooks, ite_self, TestCase.HasPreTestHooks,
    TestCase.HasPostTestHooks, Hooks.HasPreTestHooks, Hooks.HasPostTestHooks,
    Bool.not_eq_true', decide_eq_false_iff_not, not_lt, Nat.le_zero_eq, gt_iff_lt, ← ite_and]

theorem mergeXprin_mk {V : Type} [Inhabited V] (n d : String) (i : Inputs) (p : Patches)
    (k : Hooks) (s1 : List (AssertionXprin V)) (s2 s3 : List AssertionGoldenFile)
    (common : Common V) :
    TestCase.mergeXprin ⟨n, d, i, p, k, ⟨s1, s2, s3⟩⟩ common =
      ⟨n, d, i, p, k,
        ⟨if common.Assertions.Xprin.length > 0 ∧ s1.length = 0 then common.Assertions.Xprin
          else s1, s2, s3⟩⟩ := by
  simp only [TestCase.mergeXprin, ite_TestCase, ite_Assertions, ite_self,
    copySlice_makeSlice, TestCase.HasAssertionsXprin, Assertions.HasAssertionsXprin,
    Bool.and_eq_true, Bool.not_eq_true', decide_eq_true_eq, decide_eq_false_iff_not, not_lt,
    Nat.le_zero_eq, gt_iff_lt]

theorem mergeDiff_mk {V : Type} (n d : String) (i : Inputs) (p : Patches)
    (k : Hooks) (s1 : List (AssertionXprin V)) (s2 s3 : List AssertionGoldenFile)
    (common : Common V) :
    TestCase.mergeDiff ⟨n, d, i, p, k, ⟨s1, s2, s3⟩⟩ common =
      ⟨n, d, i, p, k,
        ⟨s1, if common.Assertions.Diff.length > 0 ∧ s2.length = 0 then common.Assertions.Diff
          else s2, s3⟩⟩ := by
  simp only [TestCase.mergeDiff, ite_TestCase, ite_Assertions, ite_self,
    copySlice_makeSlice, TestCase.HasAssertionsDiff, Assertions.HasAssertionsDiff,
    Bool.and_eq_true, Bool.not_eq_true', decide_eq_true_eq, decide_eq_false_iff_not, not_lt,
    Nat.le_zero_eq, gt_iff_lt]

theorem mergeDyff_mk {V : Type} (n d : String) (i : Inputs) (p : Patches)
    (k : Hooks) (s1 : List (AssertionXprin V)) (s2 s3 : List AssertionGoldenFile)
    (common : Common V) :
    TestCase.mergeDyff ⟨n, d, i, p, k, ⟨s1, s2, s3⟩⟩ common =
      ⟨n, d, i, p, k,
        ⟨s1, s2, if common.Assertions.Dyff.length > 0 ∧ s3.length = 0 then
          common.Assertions.Dyff
        else s3⟩⟩ := by
  simp only [TestCase.mergeDyff, ite_TestCase, ite_Assertions, ite_self,
    copySlice_makeSlice, TestCase.HasAssertionsDyff, Assertions.HasAssertionsDyff,
    Bool.and_eq_true, Bool.not_eq_true', decide_eq_true_eq, decide_eq_false_iff_not, not_lt,
    Nat.le_zero_eq, gt_iff_lt]

theorem mergeCommon_eq_steps {V : Type} [Inhabited V] (tc : TestCase V) (common : Common V) :
    tc.MergeCommon common =
      (((((((((tc.mergeInputPaths common).mergeCRDs common).mergeContextFiles
        common).mergeContextValues common).mergeResourcePaths common).mergePatches
        common).mergeHooks common).mergeXprin common).mergeDiff common).mergeDyff common := by
  rw [mergeCommon_eq]
  obtain ⟨n, d, ⟨i1, i2, i3, i4, i5, i6, i7, i8, i9, i10⟩, ⟨p1, p2, p3, p4⟩, ⟨h1, h2⟩,
    ⟨s1, s2, s3⟩⟩ := tc
  rw [mergeInputPaths_mk, mergeCRDs_mk, mergeContextFiles_mk, mergeContextValues_mk,
    mergeResourcePaths_mk, mergePatches_mk, mergeHooks_mk, mergeXprin_mk, mergeDiff_mk,
    mergeDyff_mk]

/-! ## The reference-level merge refines the value-level merge -/

theorem take_eq_of_storedIn {α : Type} (s : SliceRef) (f f' : Nat → List α) (next : Nat)
    (hs : s.StoredIn f next) (hf : ∀ a, a < next → f' a = f a) :
    (f' s.array).take s.len = (f s.array).take s.len := by
  rcases hs with h0 | ⟨ha, _⟩
  · rw [h0, List.take_zero, List.take_zero]
  · rw [hf _ ha]

theorem length_take_of_storedIn {α : Type} (s : SliceRef) (f : Nat → List α) (next : Nat)
    (hs : s.StoredIn f next) : ((f s.array).take s.len).length = s.len := by
  rcases hs with h0 | ⟨_, hl⟩
  · rw [h0, List.take_zero, List.length_nil]
  · rw [List.length_take]
    omega

theorem storedIn_mono {α : Type} (s : SliceRef) (f f' : Nat → List α) (next next' : Nat)
    (hs : s.StoredIn f next) (hn : next ≤ next') (hf : ∀ a, a < next → f' a = f a) :
    s.StoredIn f' next' := by
  rcases hs with h0 | ⟨ha, hl⟩
  · exact Or.inl h0
  · exact Or.inr ⟨Nat.lt_of_lt_of_le ha hn, by rw [hf _ ha]; exact hl⟩

theorem take_copy_make {α : Type} [Inhabited α] (n : Nat) (arr : List α)
    (hn : n ≤ arr.length) :
    (copySlice (List.take n (makeSlice n)) (List.take n arr) ++
      List.drop n (makeSlice n : List α)).take n = arr.take n := by
  have h1 : (makeSlice n : List α).length = n := by simp [makeSlice]
  have h2 : (List.take n arr).length = n := by rw [List.length_take]; omega
  unfold copySlice
  rw [List.length_take, h1, Nat.min_self, h2, List.take_take, Nat.min_self,
    List.drop_take, Nat.sub_self, List.take_zero, List.append_nil,
    List.take_append_of_le_length (by rw [h2]), List.take_take, Nat.min_self]

theorem length_copy_make {α : Type} [Inhabited α] (n : Nat) (arr : List α)
    (hn : n ≤ arr.length) :
    n ≤ (copySlice (List.take n (makeSlice n)) (List.take n arr) ++
      List.drop n (makeSlice n : List α)).length := by
  have h := congrArg List.length (take_copy_make n arr hn)
  rw [List.length_take, List.length_take] at h
  omega

theorem read_of_copiesOnly {V : Type} {h : Heap V} {tc0 : TestCaseRef}
    {r : Heap V × TestCaseRef} (c : CopiesOnly h tc0 r) (x : TestCaseRef) (hx : x.Stored h) :
    r.1.readTestCase x = h.readTestCase x ∧ x.Stored r.1 := by
  obtain ⟨c1, c2, n1, n2, n3, n4, f1, f2, f3, f4, _⟩ := c
  obtain ⟨s1, m1, m2, k1, k2, s2, s3, s4⟩ := hx
  have e1 : r.1.stringsOf x.Inputs.CRDs = h.stringsOf x.Inputs.CRDs :=
    take_eq_of_storedIn _ _ _ _ s1 f1
  have e2 : r.1.mapOf x.Inputs.ContextFiles = h.mapOf x.Inputs.ContextFiles := by
    unfold Heap.mapOf
    cases hcf : x.Inputs.ContextFiles with
    | none => rfl
    | some a => exact f4 a (m1 a hcf)
  have e3 : r.1.mapOf x.Inputs.ContextValues = h.mapOf x.Inputs.ContextValues := by
    unfold Heap.mapOf
    cases hcf : x.Inputs.ContextValues with
    | none => rfl
    | some a => exact f4 a (m2 a hcf)
  have e4 : r.1.toggleOf x.Patches.ConnectionSecret = h.toggleOf x.Patches.ConnectionSecret := by
    unfold Heap.toggleOf
    rw [c2]
  have e5 : ∀ s, r.1.hooksOf s = h.hooksOf s := by
    intro s
    unfold Heap.hooksOf
    rw [c1]
  have e6 : r.1.xprinOf x.Assertions.Xprin = h.xprinOf x.Assertions.Xprin :=
    take_eq_of_storedIn _ _ _ _ s2 f2
  have e7 : r.1.goldenOf x.Assertions.Diff = h.goldenOf x.Assertions.Diff :=
    take_eq_of_storedIn _ _ _ _ s3 f3
  have e8 : r.1.goldenOf x.Assertions.Dyff = h.goldenOf x.Assertions.Dyff :=
    take_eq_of_storedIn _ _ _ _ s4 f3
  refine ⟨?_, storedIn_mono _ _ _ _ _ s1 n1 f1, fun m hm => Nat.lt_of_lt_of_le (m1 m hm) n4,
    fun m hm => Nat.lt_of_lt_of_le (m2 m hm) n4, by rw [c1]; exact k1, by rw [c1]; exact k2,
    storedIn_mono _ _ _ _ _ s2 n2 f2, storedIn_mono _ _ _ _ _ s3 n3 f3,
    storedIn_mono _ _ _ _ _ s4 n3 f3⟩
  unfold Heap.readTestCase
  rw [e1, e2, e3, e4, e5, e5, e6, e7, e8]

theorem readCommon_of_copiesOnly {V : Type} {h : Heap V} {tc0 : TestCaseRef}
    {r : Heap V × TestCaseRef} (c : CopiesOnly h tc0 r) (common : CommonRef)
    (hx : common.asTestCase.Stored h) : r.1.readCommon common = h.readCommon common := by
  unfold Heap.readCommon
  rw [(read_of_copiesOnly c _ hx).1]

theorem simulates_mergeInputPaths {V : Type} (common : CommonRef) (C : Common V) (h : Heap V)
    (tc : TestCaseRef) (v : TestCase V) (hs : Simulates common C (h, tc) v) :
    Simulates common C (h, tc.mergeInputPaths common) (v.mergeInputPaths C) := by
  obtain ⟨h1, h2, h3, h4⟩ := hs
  have e := mergeInputPaths_refs tc common
  refine ⟨?_, ?_, h3, h4⟩
  · dsimp only at h1 h4 ⊢
    rw [← h1, ← h4]
    obtain ⟨n, d, ⟨i1, i2, i3, i4, i5, i6, i7, i8, i9, i10⟩, p, k, s⟩ := tc
    simp only [TestCaseRef.mergeInputPaths, Heap.readTestCase, Heap.readCommon,
      CommonRef.asTestCase, mergeInputPaths_mk, ite_TestCaseRef, ite_InputsRef, ite_self]
  · dsimp only at h2 ⊢
    unfold TestCaseRef.Stored at h2 ⊢
    rw [e.1, e.2.1, e.2.2.1, e.2.2.2.2.1, e.2.2.2.2.2]
    exact h2

theorem simulates_mergeResourcePaths {V : Type} (common : CommonRef) (C : Common V)
    (h : Heap V) (tc : TestCaseRef) (v : TestCase V) (hs : Simulates common C (h, tc) v) :
    Simulates common C (h, tc.mergeResourcePaths common) (v.mergeResourcePaths C) := by
  obtain ⟨h1, h2, h3, h4⟩ := hs
  have e := mergeResourcePaths_refs tc common
  refine ⟨?_, ?_, h3, h4⟩
  · dsimp only at h1 h4 ⊢
    rw [← h1, ← h4]
    obtain ⟨n, d, ⟨i1, i2, i3, i4, i5, i6, i7, i8, i9, i10⟩, p, k, s⟩ := tc
    simp only [TestCaseRef.mergeResourcePaths, Heap.readTestCase, Heap.readCommon,
      CommonRef.asTestCase, mergeResourcePaths_mk, ite_TestCaseRef, ite_InputsRef, ite_self]
  · dsimp only at h2 ⊢
    unfold TestCaseRef.Stored at h2 ⊢
    rw [e.1, e.2.1, e.2.2.1, e.2.2.2.2.1, e.2.2.2.2.2]
    exact h2

theorem toggleOf_eq_none_iff {V : Type} (h : Heap V) (p : Option Nat) :
    h.toggleOf p = none ↔ p = none := by
  cases p <;> simp [Heap.toggleOf]

theorem hasPatches_read {V : Type} (h : Heap V) (p : PatchesRef) :
    Patches.HasPatches ⟨p.XRD, h.toggleOf p.ConnectionSecret, p.ConnectionSecretName,
      p.ConnectionSecretNamespace⟩ = p.HasPatches h := by
  obtain ⟨p1, p2, p3, p4⟩ := p
  cases p2 <;> rfl

theorem length_hooksOf {V : Type} (h : Heap V) (s : SliceRef)
    (hs : s.len ≤ (h.hooks s.array).length) : (h.hooksOf s).length = s.len := by
  unfold Heap.hooksOf
  rw [List.length_take]
  exact Nat.min_eq_left hs

theorem simulates_mergePatches {V : Type} (common : CommonRef) (C : Common V) (h : Heap V)
    (tc : TestCaseRef) (v : TestCase V) (hs : Simulates common C (h, tc) v) :
    Simulates common C (h, tc.mergePatches h common) (v.mergePatches C) := by
  obtain ⟨h1, h2, h3, h4⟩ := hs
  have e := mergePatchesRef_refs h tc common
  refine ⟨?_, ?_, h3, h4⟩
  · dsimp only at h1 h4 ⊢
    rw [← h1, ← h4]
    obtain ⟨n, d, i, ⟨p1, p2, p3, p4⟩, k, s⟩ := tc
    simp only [TestCaseRef.mergePatches, Heap.readTestCase, Heap.readCommon,
      CommonRef.asTestCase, mergePatches_mk, ite_TestCaseRef, ite_PatchesRef, ite_self,
      ← ite_and, hasPatches_read, toggleOf_eq_none_iff, apply_ite (Heap.toggleOf h)]
  · dsimp only at h2 ⊢
    unfold TestCaseRef.Stored at h2 ⊢
    rw [e.1, e.2.1, e.2.2.1]
    exact h2

theorem simulates_mergeHooks {V : Type} (common : CommonRef) (C : Common V) (h : Heap V)
    (tc : TestCaseRef) (v : TestCase V) (hs : Simulates common C (h, tc) v) :
    Simulates common C (h, tc.mergeHooks common) (v.mergeHooks C) := by
  obtain ⟨h1, h2, h3, h4⟩ := hs
  have e := mergeHooksRef_refs tc common
  have l1 := length_hooksOf h _ h2.2.2.2.1
  have l2 := length_hooksOf h _ h2.2.2.2.2.1
  have l3 := length_hooksOf h _ h3.2.2.2.1
  have l4 := length_hooksOf h _ h3.2.2.2.2.1
  refine ⟨?_, ?_, h3, h4⟩
  · dsimp only at h1 h4 ⊢
    rw [← h1, ← h4]
    obtain ⟨n, d, i, p, ⟨k1, k2⟩, s⟩ := tc
    obtain ⟨ci, cp, ⟨c1, c2⟩, cs⟩ := common
    simp only [CommonRef.asTestCase] at l1 l2 l3 l4
    simp only [TestCaseRef.mergeHooks, Heap.readTestCase, Heap.readCommon,
      CommonRef.asTestCase, mergeHooks_mk, ite_TestCaseRef, ite_HooksRef, ite_self,
      ← ite_and, apply_ite (Heap.hooksOf h), Hooks.HasHooks, Hooks.HasPreTestHooks,
      Hooks.HasPostTestHooks, HooksRef.HasHooks, l1, l2, l3, l4, not_lt, Nat.le_zero_eq,
      gt_iff_lt]
  · dsimp only at h2 ⊢
    unfold TestCaseRef.Stored at h2 ⊢
    rw [e.1, e.2.2.1, e.2.2.2.1, e.2.2.2.2]
    refine ⟨h2.1, h2.2.1, h2.2.2.1, ?_, ?_, h2.2.2.2.2.2⟩
    · split
      · exact h3.2.2.2.1
      · exact h2.2.2.2.1
    · split
      · exact h3.2.2.2.2.1
      · exact h2.2.2.2.2.1

theorem stringsOf_copy_make {V : Type} (h : Heap V) (src : SliceRef)
    (hs : src.StoredIn h.strings h.nextStrings) (hpos : src.len > 0) :
    ((h.makeStrings src.len).1.copyStrings (h.makeStrings src.len).2 src).stringsOf
        (h.makeStrings src.len).2 = h.stringsOf src ∧
      (h.makeStrings src.len).2.StoredIn
        ((h.makeStrings src.len).1.copyStrings (h.makeStrings src.len).2 src).strings
        ((h.makeStrings src.len).1.copyStrings (h.makeStrings src.len).2 src).nextStrings := by
  rcases hs with h0 | ⟨ha, hl⟩
  · omega
  · have hne : ¬ src.array = h.nextStrings := Nat.ne_of_lt ha
    simp only [Heap.makeStrings, Heap.copyStrings, Heap.stringsOf, SliceRef.StoredIn, if_true,
      if_neg hne]
    exact ⟨take_copy_make _ _ hl, Or.inr ⟨Nat.lt_succ_self _, length_copy_make _ _ hl⟩⟩

theorem simulates_mergeCRDs {V : Type} (common : CommonRef) (C : Common V) (h : Heap V)
    (tc : TestCaseRef) (v : TestCase V) (hs : Simulates common C (h, tc) v) :
    Simulates common C (tc.mergeCRDs h common) (v.mergeCRDs C) := by
  obtain ⟨h1, h2, h3, h4⟩ := hs
  dsimp only at h1 h2 h3 h4
  have c := mergeCRDs_copiesOnly h tc common
  have r1 := read_of_copiesOnly c tc h2
  have r3 := read_of_copiesOnly c _ h3
  have r4 := readCommon_of_copiesOnly c common h3
  have l1 : (h.stringsOf tc.Inputs.CRDs).length = tc.Inputs.CRDs.len :=
    length_take_of_storedIn _ _ _ h2.1
  have l2 : (h.stringsOf common.Inputs.CRDs).length = common.Inputs.CRDs.len :=
    length_take_of_storedIn _ _ _ h3.1
  have e1 : (h.readTestCase tc).Inputs.CRDs = h.stringsOf tc.Inputs.CRDs := rfl
  have e2 : (h.readCommon common).Inputs.CRDs = h.stringsOf common.Inputs.CRDs := rfl
  by_cases hc : tc.Inputs.CRDs.len = 0 ∧ common.Inputs.CRDs.len > 0
  · have k := stringsOf_copy_make h common.Inputs.CRDs h3.1 hc.2
    have hr : tc.mergeCRDs h common =
        ((h.makeStrings common.Inputs.CRDs.len).1.copyStrings
            (h.makeStrings common.Inputs.CRDs.len).2 common.Inputs.CRDs,
          { tc with Inputs := { tc.Inputs with
              CRDs := (h.makeStrings common.Inputs.CRDs.len).2 } }) := by
      unfold TestCaseRef.mergeCRDs
      rw [if_pos hc]
    refine ⟨?_, ?_, r3.2, r4.trans h4⟩
    · rw [← h1, ← h4]
      unfold TestCase.mergeCRDs
      rw [e1, e2, copySlice_makeSlice, l1, l2, if_pos hc, ← r1.1, ← k.1, hr]
      rfl
    · rw [hr] at r1 ⊢
      exact ⟨k.2, r1.2.2⟩
  · have hr : tc.mergeCRDs h common = (h, tc) := by
      unfold TestCaseRef.mergeCRDs
      rw [if_neg hc]
    refine ⟨?_, ?_, r3.2, r4.trans h4⟩
    · rw [← h1, ← h4]
      unfold TestCase.mergeCRDs
      rw [e1, e2, l1, l2, if_neg hc, hr]
    · rw [hr]
      exact h2

theorem xprinOf_copy_make {V : Type} [Inhabited V] (h : Heap V) (src : SliceRef)
    (hs : src.StoredIn h.xprin h.nextXprin) (hpos : src.len > 0) :
    ((h.makeXprin src.len).1.copyXprin (h.makeXprin src.len).2 src).xprinOf
        (h.makeXprin src.len).2 = h.xprinOf src ∧
      (h.makeXprin src.len).2.StoredIn
        ((h.makeXprin src.len).1.copyXprin (h.makeXprin src.len).2 src).xprin
        ((h.makeXprin src.len).1.copyXprin (h.makeXprin src.len).2 src).nextXprin := by
  rcases hs with h0 | ⟨ha, hl⟩
  · omega
  · have hne : ¬ src.array = h.nextXprin := Nat.ne_of_lt ha
    simp only [Heap.makeXprin, Heap.copyXprin, Heap.xprinOf, SliceRef.StoredIn, if_true,
      if_neg hne]
    exact ⟨take_copy_make _ _ hl, Or.inr ⟨Nat.lt_succ_self _, length_copy_make _ _ hl⟩⟩

theorem goldenOf_copy_make {V : Type} (h : Heap V) (src : SliceRef)
    (hs : src.StoredIn h.golden h.nextGolden) (hpos : src.len > 0) :
    ((h.makeGolden src.len).1.copyGolden (h.makeGolden src.len).2 src).goldenOf
        (h.makeGolden src.len).2 = h.goldenOf src ∧
      (h.makeGolden src.len).2.StoredIn
        ((h.makeGolden src.len).1.copyGolden (h.makeGolden src.len).2 src).golden
        ((h.makeGolden src.len).1.copyGolden (h.makeGolden src.len).2 src).nextGolden := by
  rcases hs with h0 | ⟨ha, hl⟩
  · omega
  · have hne : ¬ src.array = h.nextGolden := Nat.ne_of_lt ha
    simp only [Heap.makeGolden, Heap.copyGolden, Heap.goldenOf, SliceRef.StoredIn, if_true,
      if_neg hne]
    exact ⟨take_copy_make _ _ hl, Or.inr ⟨Nat.lt_succ_self _, length_copy_make _ _ hl⟩⟩

theorem mapOf_copy_make {V : Type} (h : Heap V) (src : Option Nat)
    (hs : ∀ m, src = some m → m < h.nextMap) :
    (h.makeMap.1.mapsCopy h.makeMap.2 src).mapOf (some h.makeMap.2) = h.mapOf src ∧
      h.makeMap.2 < (h.makeMap.1.mapsCopy h.makeMap.2 src).nextMap := by
  refine ⟨?_, Nat.lt_succ_self _⟩
  cases src with
  | none =>
    simp only [Heap.makeMap, Heap.mapsCopy, Heap.mapOf, if_true]
    exact mapsCopy_empty _
  | some a =>
    have hne : ¬ a = h.nextMap := Nat.ne_of_lt (hs a rfl)
    simp only [Heap.makeMap, Heap.mapsCopy, Heap.mapOf, if_true, if_neg hne]
    exact mapsCopy_empty _

theorem simulates_mergeXprin {V : Type} [Inhabited V] (common : CommonRef) (C : Common V)
    (h : Heap V) (tc : TestCaseRef) (v : TestCase V) (hs : Simulates common C (h, tc) v) :
    Simulates common C (tc.mergeXprin h common) (v.mergeXprin C) := by
  obtain ⟨h1, h2, h3, h4⟩ := hs
  dsimp only at h1 h2 h3 h4
  have c := mergeXprin_copiesOnly h tc common
  have r1 := read_of_copiesOnly c tc h2
  have r3 := read_of_copiesOnly c _ h3
  have r4 := readCommon_of_copiesOnly c common h3
  have l1 : (h.xprinOf tc.Assertions.Xprin).length = tc.Assertions.Xprin.len :=
    length_take_of_storedIn _ _ _ h2.2.2.2.2.2.1
  have l2 : (h.xprinOf common.Assertions.Xprin).length = common.Assertions.Xprin.len :=
    length_take_of_storedIn _ _ _ h3.2.2.2.2.2.1
  have e2 : (h.readCommon common).Assertions.Xprin = h.xprinOf common.Assertions.Xprin := rfl
  have hb : ((h.readCommon common).Assertions.HasAssertionsXprin &&
      !(h.readTestCase tc).HasAssertionsXprin) = true ↔
      (common.Assertions.Xprin.len > 0 ∧ ¬ tc.Assertions.Xprin.len > 0) := by
    have e1 : (h.readTestCase tc).Assertions.Xprin = h.xprinOf tc.Assertions.Xprin := rfl
    simp only [TestCase.HasAssertionsXprin, Assertions.HasAssertionsXprin, e1, e2, l1, l2,
      Bool.and_eq_true, Bool.not_eq_true', decide_eq_true_eq, decide_eq_false_iff_not]
  by_cases hc : common.Assertions.Xprin.len > 0 ∧ ¬ tc.Assertions.Xprin.len > 0
  · have k := xprinOf_copy_make h common.Assertions.Xprin h3.2.2.2.2.2.1 hc.1
    have hr : tc.mergeXprin h common =
        ((h.makeXprin common.Assertions.Xprin.len).1.copyXprin
            (h.makeXprin common.Assertions.Xprin.len).2 common.Assertions.Xprin,
          { tc with Assertions := { tc.Assertions with
              Xprin := (h.makeXprin common.Assertions.Xprin.len).2 } }) := by
      unfold TestCaseRef.mergeXprin
      rw [if_pos hc]
    refine ⟨?_, ?_, r3.2, r4.trans h4⟩
    · rw [← h1, ← h4]
      unfold TestCase.mergeXprin
      rw [if_pos (hb.mpr hc), e2, copySlice_makeSlice, ← r1.1, ← k.1, hr]
      rfl
    · rw [hr] at r1 ⊢
      obtain ⟨q1, q2, q3, q4, q5, _, q7, q8⟩ := r1.2
      exact ⟨q1, q2, q3, q4, q5, k.2, q7, q8⟩
  · have hr : tc.mergeXprin h common = (h, tc) := by
      unfold TestCaseRef.mergeXprin
      rw [if_neg hc]
    refine ⟨?_, ?_, r3.2, r4.trans h4⟩
    · rw [← h1, ← h4]
      unfold TestCase.mergeXprin
      rw [if_neg (fun hx => hc (hb.mp hx)), hr]
    · rw [hr]
      exact h2

theorem simulates_mergeDiff {V : Type} (common : CommonRef) (C : Common V)
    (h : Heap V) (tc : TestCaseRef) (v : TestCase V) (hs : Simulates common C (h, tc) v) :
    Simulates common C (tc.mergeDiff h common) (v.mergeDiff C) := by
  obtain ⟨h1, h2, h3, h4⟩ := hs
  dsimp only at h1 h2 h3 h4
  have c := mergeDiff_copiesOnly h tc common
  have r1 := read_of_copiesOnly c tc h2
  have r3 := read_of_copiesOnly c _ h3
  have r4 := readCommon_of_copiesOnly c common h3
  have l1 : (h.goldenOf tc.Assertions.Diff).length = tc.Assertions.Diff.len :=
    length_take_of_storedIn _ _ _ h2.2.2.2.2.2.2.1
  have l2 : (h.goldenOf common.Assertions.Diff).length = common.Assertions.Diff.len :=
    length_take_of_storedIn _ _ _ h3.2.2.2.2.2.2.1
  have e2 : (h.readCommon common).Assertions.Diff = h.goldenOf common.Assertions.Diff := rfl
  have hb : ((h.readCommon common).Assertions.HasAssertionsDiff &&
      !(h.readTestCase tc).HasAssertionsDiff) = true ↔
      (common.Assertions.Diff.len > 0 ∧ ¬ tc.Assertions.Diff.len > 0) := by
    have e1 : (h.readTestCase tc).Assertions.Diff = h.goldenOf tc.Assertions.Diff := rfl
    simp only [TestCase.HasAssertionsDiff, Assertions.HasAssertionsDiff, e1, e2, l1, l2,
      Bool.and_eq_true, Bool.not_eq_true', decide_eq_true_eq, decide_eq_false_iff_not]
  by_cases hc : common.Assertions.Diff.len > 0 ∧ ¬ tc.Assertions.Diff.len > 0
  · have k := goldenOf_copy_make h common.Assertions.Diff h3.2.2.2.2.2.2.1 hc.1
    have hr : tc.mergeDiff h common =
        ((h.makeGolden common.Assertions.Diff.len).1.copyGolden
            (h.makeGolden common.Assertions.Diff.len).2 common.Assertions.Diff,
          { tc with Assertions := { tc.Assertions with
              Diff := (h.makeGolden common.Assertions.Diff.len).2 } }) := by
      unfold TestCaseRef.mergeDiff
      rw [if_pos hc]
    refine ⟨?_, ?_, r3.2, r4.trans h4⟩
    · rw [← h1, ← h4]
      unfold TestCase.mergeDiff
      rw [if_pos (hb.mpr hc), e2, copySlice_makeSlice, ← r1.1, ← k.1, hr]
      rfl
    · rw [hr] at r1 ⊢
      obtain ⟨q1, q2, q3, q4, q5, q6, _, q8⟩ := r1.2
      exact ⟨q1, q2, q3, q4, q5, q6, k.2, q8⟩
  · have hr : tc.mergeDiff h common = (h, tc) := by
      unfold TestCaseRef.mergeDiff
      rw [if_neg hc]
    refine ⟨?_, ?_, r3.2, r4.trans h4⟩
    · rw [← h1, ← h4]
      unfold TestCase.mergeDiff
      rw [if_neg (fun hx => hc (hb.mp hx)), hr]
    · rw [hr]
      exact h2

theorem simulates_mergeDyff {V : Type} (common : CommonRef) (C : Common V)
    (h : Heap V) (tc : TestCaseRef) (v : TestCase V) (hs : Simulates common C (h, tc) v) :
    Simulates common C (tc.mergeDyff h common) (v.mergeDyff C) := by
  obtain ⟨h1, h2, h3, h4⟩ := hs
  dsimp only at h1 h2 h3 h4
  have c := mergeDyff_copiesOnly h tc common
  have r1 := read_of_copiesOnly c tc h2
  have r3 := read_of_copiesOnly c _ h3
  have r4 := readCommon_of_copiesOnly c common h3
  have l1 : (h.goldenOf tc.Assertions.Dyff).length = tc.Assertions.Dyff.len :=
    length_take_of_storedIn _ _ _ h2.2.2.2.2.2.2.2
  have l2 : (h.goldenOf common.Assertions.Dyff).length = common.Assertions.Dyff.len :=
    length_take_of_storedIn _ _ _ h3.2.2.2.2.2.2.2
  have e2 : (h.readCommon common).Assertions.Dyff = h.goldenOf common.Assertions.Dyff := rfl
  have hb : ((h.readCommon common).Assertions.HasAssertionsDyff &&
      !(h.readTestCase tc).HasAssertionsDyff) = true ↔
      (common.Assertions.Dyff.len > 0 ∧ ¬ tc.Assertions.Dyff.len > 0) := by
    have e1 : (h.readTestCase tc).Assertions.Dyff = h.goldenOf tc.Assertions.Dyff := rfl
    simp only [TestCase.HasAssertionsDyff, Assertions.HasAssertionsDyff, e1, e2, l1, l2,
      Bool.and_eq_true, Bool.not_eq_true', decide_eq_true_eq, decide_eq_false_iff_not]
  by_cases hc : common.Assertions.Dyff.len > 0 ∧ ¬ tc.Assertions.Dyff.len > 0
  · have k := goldenOf_copy_make h common.Assertions.Dyff h3.2.2.2.2.2.2.2 hc.1
    have hr : tc.mergeDyff h common =
        ((h.makeGolden common.Assertions.Dyff.len).1.copyGolden
            (h.makeGolden common.Assertions.Dyff.len).2 common.Assertions.Dyff,
          { tc with Assertions := { tc.Assertions with
              Dyff := (h.makeGolden common.Assertions.Dyff.len).2 } }) := by
      unfold TestCaseRef.mergeDyff
      rw [if_pos hc]
    refine ⟨?_, ?_, r3.2, r4.trans h4⟩
    · rw [← h1, ← h4]
      unfold TestCase.mergeDyff
      rw [if_pos (hb.mpr hc), e2, copySlice_makeSlice, ← r1.1, ← k.1, hr]
      rfl
    · rw [hr] at r1 ⊢
      obtain ⟨q1, q2, q3, q4, q5, q6, q7, _⟩ := r1.2
      exact ⟨q1, q2, q3, q4, q5, q6, q7, k.2⟩
  · have hr : tc.mergeDyff h common = (h, tc) := by
      unfold TestCaseRef.mergeDyff
      rw [if_neg hc]
    refine ⟨?_, ?_, r3.2, r4.trans h4⟩
    · rw [← h1, ← h4]
      unfold TestCase.mergeDyff
      rw [if_neg (fun hx => hc (hb.mp hx)), hr]
    · rw [hr]
      exact h2

theorem simulates_mergeContextFiles {V : Type} (common : CommonRef) (C : Common V)
    (h : Heap V) (tc : TestCaseRef) (v : TestCase V) (hs : Simulates common C (h, tc) v) :
    Simulates common C (tc.mergeContextFiles h common) (v.mergeContextFiles C) := by
  obtain ⟨h1, h2, h3, h4⟩ := hs
  dsimp only at h1 h2 h3 h4
  have c := mergeContextFiles_copiesOnly h tc common
  have r1 := read_of_copiesOnly c tc h2
  have r3 := read_of_copiesOnly c _ h3
  have r4 := readCommon_of_copiesOnly c common h3
  have e1 : (h.readTestCase tc).Inputs.ContextFiles = h.mapOf tc.Inputs.ContextFiles := rfl
  have e2 : (h.readCommon common).Inputs.ContextFiles = h.mapOf common.Inputs.ContextFiles :=
    rfl
  by_cases hc : mapLen (h.mapOf tc.Inputs.ContextFiles) = 0 ∧
      mapLen (h.mapOf common.Inputs.ContextFiles) > 0
  · have k := mapOf_copy_make h common.Inputs.ContextFiles h3.2.1
    have hr : tc.mergeContextFiles h common =
        (h.makeMap.1.mapsCopy h.makeMap.2 common.Inputs.ContextFiles,
          { tc with Inputs := { tc.Inputs with ContextFiles := some h.makeMap.2 } }) := by
      unfold TestCaseRef.mergeContextFiles
      rw [if_pos hc]
    refine ⟨?_, ?_, r3.2, r4.trans h4⟩
    · rw [← h1, ← h4]
      unfold TestCase.mergeContextFiles
      rw [e1, e2, if_pos hc, mapsCopy_empty, ← r1.1, ← k.1, hr]
      rfl
    · rw [hr] at r1 ⊢
      obtain ⟨q1, _, q3, q4, q5, q6, q7, q8⟩ := r1.2
      refine ⟨q1, ?_, q3, q4, q5, q6, q7, q8⟩
      intro m hm
      cases hm
      exact k.2
  · have hr : tc.mergeContextFiles h common = (h, tc) := by
      unfold TestCaseRef.mergeContextFiles
      rw [if_neg hc]
    refine ⟨?_, ?_, r3.2, r4.trans h4⟩
    · rw [← h1, ← h4]
      unfold TestCase.mergeContextFiles
      rw [e1, e2, if_neg hc, hr]
    · rw [hr]
      exact h2

theorem simulates_mergeContextValues {V : Type} (common : CommonRef) (C : Common V)
    (h : Heap V) (tc : TestCaseRef) (v : TestCase V) (hs : Simulates common C (h, tc) v) :
    Simulates common C (tc.mergeContextValues h common) (v.mergeContextValues C) := by
  obtain ⟨h1, h2, h3, h4⟩ := hs
  dsimp only at h1 h2 h3 h4
  have c := mergeContextValues_copiesOnly h tc common
  have r1 := read_of_copiesOnly c tc h2
  have r3 := read_of_copiesOnly c _ h3
  have r4 := readCommon_of_copiesOnly c common h3
  have e1 : (h.readTestCase tc).Inputs.ContextValues = h.mapOf tc.Inputs.ContextValues := rfl
  have e2 : (h.readCommon common).Inputs.ContextValues =
      h.mapOf common.Inputs.ContextValues := rfl
  by_cases hc : mapLen (h.mapOf tc.Inputs.ContextValues) = 0 ∧
      mapLen (h.mapOf common.Inputs.ContextValues) > 0
  · have k := mapOf_copy_make h common.Inputs.ContextValues h3.2.2.1
    have hr : tc.mergeContextValues h common =
        (h.makeMap.1.mapsCopy h.makeMap.2 common.Inputs.ContextValues,
          { tc with Inputs := { tc.Inputs with ContextValues := some h.makeMap.2 } }) := by
      unfold TestCaseRef.mergeContextValues
      rw [if_pos hc]
    refine ⟨?_, ?_, r3.2, r4.trans h4⟩
    · rw [← h1, ← h4]
      unfold TestCase.mergeContextValues
      rw [e1, e2, if_pos hc, mapsCopy_empty, ← r1.1, ← k.1, hr]
      rfl
    · rw [hr] at r1 ⊢
      obtain ⟨q1, q2, _, q4, q5, q6, q7, q8⟩ := r1.2
      refine ⟨q1, q2, ?_, q4, q5, q6, q7, q8⟩
      intro m hm
      cases hm
      exact k.2
  · have hr : tc.mergeContextValues h common = (h, tc) := by
      unfold TestCaseRef.mergeContextValues
      rw [if_neg hc]
    refine ⟨?_, ?_, r3.2, r4.trans h4⟩
    · rw [← h1, ← h4]
      unfold TestCase.mergeContextValues
      rw [e1, e2, if_neg hc, hr]
    · rw [hr]
      exact h2

theorem simulates_mergeCommon {V : Type} [Inhabited V] (common : CommonRef) (C : Common V)
    (h : Heap V) (tc : TestCaseRef) (v : TestCase V) (hs : Simulates common C (h, tc) v) :
    Simulates common C (tc.MergeCommon h common) (v.MergeCommon C) := by
  rw [mergeCommon_eq_steps]
  unfold TestCaseRef.MergeCommon
  dsimp only
  have sA := simulates_mergeInputPaths common C h tc v hs
  generalize tc.mergeInputPaths common = tcA at sA ⊢
  generalize v.mergeInputPaths C = vA at sA ⊢
  have sB := simulates_mergeCRDs common C h tcA vA sA
  generalize tcA.mergeCRDs h common = stB at sB ⊢
  generalize vA.mergeCRDs C = vB at sB ⊢
  have sC := simulates_mergeContextFiles common C stB.1 stB.2 vB sB
  generalize stB.2.mergeContextFiles stB.1 common = stC at sC ⊢
  generalize vB.mergeContextFiles C = vC at sC ⊢
  have sD := simulates_mergeContextValues common C stC.1 stC.2 vC sC
  generalize stC.2.mergeContextValues stC.1 common = stD at sD ⊢
  generalize vC.mergeContextValues C = vD at sD ⊢
  have sE := simulates_mergeResourcePaths common C stD.1 stD.2 vD sD
  generalize stD.2.mergeResourcePaths common = tcE at sE ⊢
  generalize vD.mergeResourcePaths C = vE at sE ⊢
  have sF := simulates_mergePatches common C stD.1 tcE vE sE
  generalize tcE.mergePatches stD.1 common = tcF at sF ⊢
  generalize vE.mergePatches C = vF at sF ⊢
  have sG := simulates_mergeHooks common C stD.1 tcF vF sF
  generalize tcF.mergeHooks common = tcG at sG ⊢
  generalize vF.mergeHooks C = vG at sG ⊢
  have sH := simulates_mergeXprin common C stD.1 tcG vG sG
  generalize tcG.mergeXprin stD.1 common = stH at sH ⊢
  generalize vG.mergeXprin C = vH at sH ⊢
  have sI := simulates_mergeDiff common C stH.1 stH.2 vH sH
  generalize stH.2.mergeDiff stH.1 common = stI at sI ⊢
  generalize vH.mergeDiff C = vI at sI ⊢
  exact simulates_mergeDyff common C stI.1 stI.2 vI sI

/-! ## Case-level validation: the conflicting-fields violation -/

theorem intercalate_go_prefix (s : String) (l : List String) (acc : String) :
    ∃ post, String.intercalate.go acc s l = acc ++ post := by
  induction l generalizing acc with
  | nil => exact ⟨"", by rw [String.intercalate.go, String.append_empty]⟩
  | cons a l ih =>
    obtain ⟨post, hp⟩ := ih (acc ++ s ++ a)
    exact ⟨s ++ a ++ post, by
      rw [String.intercalate.go, hp, String.append_assoc, String.append_assoc,
        String.append_assoc]⟩

theorem mem_mandatoryErrors_conflict_iff {V : Type} (tc : TestCase V) :
    ("conflicting fields: both 'claim' and 'xr' are specified, but only one is allowed" ∈
        tc.mandatoryErrors) ↔ tc.Inputs.Claim ≠ "" ∧ tc.Inputs.XR ≠ "" := by
  unfold TestCase.mandatoryErrors TestCase.HasClaim TestCase.HasXR
  by_cases hc : tc.Inputs.Claim = "" <;> by_cases hx : tc.Inputs.XR = "" <;>
    by_cases hk : tc.Inputs.Composition = "" <;> by_cases hf : tc.Inputs.Functions = "" <;>
    simp [hc, hx, hk, hf]

theorem mandatoryErrors_conflict_first {V : Type} (tc : TestCase V)
    (hc : tc.Inputs.Claim ≠ "") (hx : tc.Inputs.XR ≠ "") :
    ∃ rest, tc.mandatoryErrors =
      "conflicting fields: both 'claim' and 'xr' are specified, but only one is allowed" ::
        rest := by
  unfold TestCase.mandatoryErrors TestCase.HasClaim TestCase.HasXR
  by_cases hk : tc.Inputs.Composition = "" <;> by_cases hf : tc.Inputs.Functions = "" <;>
    simp [hc, hx, hk, hf]

theorem checkMandatoryFields_of_cons {V : Type} (tc : TestCase V) (e : String)
    (rest : List String) (h : tc.mandatoryErrors = e :: rest) :
    ∃ post, tc.CheckMandatoryFields = some (e ++ post) := by
  obtain ⟨post, hp⟩ := intercalate_go_prefix "\n    " rest e
  refine ⟨post, ?_⟩
  unfold TestCase.CheckMandatoryFields
  simp only [h, List.length_cons, gt_iff_lt, Nat.zero_lt_succ, if_true]
  unfold stringsJoin
  rw [String.intercalate, hp]

/-! ## Claims -/

/-- C1: `CheckValidTestSuiteFile` returns no error if and only if every test case has a
non-empty `Name`, every non-empty `ID` consists only of characters in `[A-Za-z0-9_-]`, and no
two test cases at different positions share the same non-empty `ID`. -/
theorem checkValidTestSuiteFile_ok_iff {V : Type} (ts : TestSuiteSpec V) :
    ts.CheckValidTestSuiteFile = none ↔
      (∀ tc ∈ ts.Tests, tc.Name ≠ "") ∧
      (∀ tc ∈ ts.Tests, tc.ID ≠ "" →
        ∀ c ∈ tc.ID.data, ('a' ≤ c ∧ c ≤ 'z') ∨ ('A' ≤ c ∧ c ≤ 'Z') ∨ ('0' ≤ c ∧ c ≤ '9') ∨
          c = '_' ∨ c = '-') ∧
      (∀ i j : Fin ts.Tests.length, i ≠ j → (ts.Tests.get i).ID ≠ "" →
        (ts.Tests.get i).ID ≠ (ts.Tests.get j).ID) := by
  rw [checkValidTestSuiteFile_eq_none, suiteErrors_eq_nil_iff, List.pairwise_iff_get]
  refine and_congr_right (fun _ => and_congr ?_ ?_)
  · constructor
    · intro h tc hmem hne
      exact (hasValidID_iff tc.ID hne).mp (h tc hmem hne)
    · intro h tc hmem hne
      exact (hasValidID_iff tc.ID hne).mpr (h tc hmem hne)
  · constructor
    · intro h i j hij hne heq
      rcases lt_or_gt_of_ne hij with hlt | hgt
      · exact h i j hlt hne heq
      · exact h j i hgt (heq ▸ hne) heq.symm
    · intro h i j hij hne
      exact h i j (ne_of_lt hij) hne

/-- C2: `CheckMandatoryFields` returns no error if and only if exactly one of `Inputs.Claim`
and `Inputs.XR` is non-empty, `Inputs.Composition` is non-empty and `Inputs.Functions` is
non-empty. -/
theorem checkMandatoryFields_ok_iff {V : Type} (tc : TestCase V) :
    tc.CheckMandatoryFields = none ↔
      ((tc.Inputs.Claim ≠ "" ∧ tc.Inputs.XR = "") ∨ (tc.Inputs.Claim = "" ∧ tc.Inputs.XR ≠ "")) ∧
      tc.Inputs.Composition ≠ "" ∧ tc.Inputs.Functions ≠ "" := by
  rw [checkMandatoryFields_eq_none, mandatoryErrors_eq_nil_iff]

/-- C3: merge override priority. For every mergeable field, if the test case sets it (a
non-empty string, list or map; for the connection-secret toggle a non-nil pointer), then
after `MergeCommon` the field of the test case is the value it had before, whatever the common
block holds. -/
theorem mergeCommon_override {V : Type} [Inhabited V] (tc : TestCase V) (common : Common V) :
    (tc.Inputs.XR ≠ "" → (tc.MergeCommon common).Inputs.XR = tc.Inputs.XR) ∧
      (tc.Inputs.Claim ≠ "" → (tc.MergeCommon common).Inputs.Claim = tc.Inputs.Claim) ∧
      (tc.Inputs.Composition ≠ "" → (tc.MergeCommon common).Inputs.Composition = tc.Inputs.Composition) ∧
      (tc.Inputs.Functions ≠ "" → (tc.MergeCommon common).Inputs.Functions = tc.Inputs.Functions) ∧
      (tc.Inputs.ObservedResources ≠ "" → (tc.MergeCommon common).Inputs.ObservedResources = tc.Inputs.ObservedResources) ∧
      (tc.Inputs.ExtraResources ≠ "" → (tc.MergeCommon common).Inputs.ExtraResources = tc.Inputs.ExtraResources) ∧
      (tc.Inputs.FunctionCredentials ≠ "" → (tc.MergeCommon common).Inputs.FunctionCredentials = tc.Inputs.FunctionCredentials) ∧
      (0 < tc.Inputs.CRDs.length → (tc.MergeCommon common).Inputs.CRDs = tc.Inputs.CRDs) ∧
      (0 < mapLen tc.Inputs.ContextFiles →
        (tc.MergeCommon common).Inputs.ContextFiles = tc.Inputs.ContextFiles) ∧
      (0 < mapLen tc.Inputs.ContextValues →
        (tc.MergeCommon common).Inputs.ContextValues = tc.Inputs.ContextValues) ∧
      (tc.Patches.XRD ≠ "" → (tc.MergeCommon common).Patches.XRD = tc.Patches.XRD) ∧
      (tc.Patches.ConnectionSecret ≠ none →
        (tc.MergeCommon common).Patches.ConnectionSecret = tc.Patches.ConnectionSecret) ∧
      (tc.Patches.ConnectionSecretName ≠ "" →
        (tc.MergeCommon common).Patches.ConnectionSecretName = tc.Patches.ConnectionSecretName) ∧
      (tc.Patches.ConnectionSecretNamespace ≠ "" →
        (tc.MergeCommon common).Patches.ConnectionSecretNamespace = tc.Patches.ConnectionSecretNamespace) ∧
      (0 < tc.Hooks.PreTest.length → (tc.MergeCommon common).Hooks.PreTest = tc.Hooks.PreTest) ∧
      (0 < tc.Hooks.PostTest.length → (tc.MergeCommon common).Hooks.PostTest = tc.Hooks.PostTest) ∧
      (0 < tc.Assertions.Xprin.length →
        (tc.MergeCommon common).Assertions.Xprin = tc.Assertions.Xprin) ∧
      (0 < tc.Assertions.Diff.length →
        (tc.MergeCommon common).Assertions.Diff = tc.Assertions.Diff) ∧
      (0 < tc.Assertions.Dyff.length →
        (tc.MergeCommon common).Assertions.Dyff = tc.Assertions.Dyff) := by
  rw [mergeCommon_eq]
  refine ⟨?_, ?_, ?_, ?_, ?_, ?_, ?_, ?_, ?_, ?_, ?_, ?_, ?_, ?_, ?_, ?_, ?_, ?_, ?_⟩ <;>
    intro h <;> dsimp only <;> apply if_neg <;> first
      | exact h
      | exact fun h0 => h h0.2
      | exact fun h0 => absurd h0.1 (Nat.pos_iff_ne_zero.mp h)
      | exact fun h0 => absurd h0.2 (Nat.pos_iff_ne_zero.mp h)

/-- Witness of C3: `fullCase` sets every mergeable field and keeps each of them when merged
with `fullCommon`, which sets every field to something else. -/
theorem mergeCommon_override_witness :
    (fullCase.MergeCommon fullCommon).Inputs.XR = fullCase.Inputs.XR ∧
      (fullCase.MergeCommon fullCommon).Inputs.Claim = fullCase.Inputs.Claim ∧
      (fullCase.MergeCommon fullCommon).Inputs.Composition = fullCase.Inputs.Composition ∧
      (fullCase.MergeCommon fullCommon).Inputs.Functions = fullCase.Inputs.Functions ∧
      (fullCase.MergeCommon fullCommon).Inputs.ObservedResources = fullCase.Inputs.ObservedResources ∧
      (fullCase.MergeCommon fullCommon).Inputs.ExtraResources = fullCase.Inputs.ExtraResources ∧
      (fullCase.MergeCommon fullCommon).Inputs.FunctionCredentials = fullCase.Inputs.FunctionCredentials ∧
      (fullCase.MergeCommon fullCommon).Inputs.CRDs = fullCase.Inputs.CRDs ∧
      (fullCase.MergeCommon fullCommon).Inputs.ContextFiles = fullCase.Inputs.ContextFiles ∧
      (fullCase.MergeCommon fullCommon).Inputs.ContextValues = fullCase.Inputs.ContextValues ∧
      (fullCase.MergeCommon fullCommon).Patches.XRD = fullCase.Patches.XRD ∧
      (fullCase.MergeCommon fullCommon).Patches.ConnectionSecret = fullCase.Patches.ConnectionSecret ∧
      (fullCase.MergeCommon fullCommon).Patches.ConnectionSecretName = fullCase.Patches.ConnectionSecretName ∧
      (fullCase.MergeCommon fullCommon).Patches.ConnectionSecretNamespace = fullCase.Patches.ConnectionSecretNamespace ∧
      (fullCase.MergeCommon fullCommon).Hooks.PreTest = fullCase.Hooks.PreTest ∧
      (fullCase.MergeCommon fullCommon).Hooks.PostTest = fullCase.Hooks.PostTest ∧
      (fullCase.MergeCommon fullCommon).Assertions.Xprin = fullCase.Assertions.Xprin ∧
      (fullCase.MergeCommon fullCommon).Assertions.Diff = fullCase.Assertions.Diff ∧
      (fullCase.MergeCommon fullCommon).Assertions.Dyff = fullCase.Assertions.Dyff := by
  have h := mergeCommon_override fullCase fullCommon
  exact ⟨h.1 (by decide),
    h.2.1 (by decide),
    h.2.2.1 (by decide),
    h.2.2.2.1 (by decide),
    h.2.2.2.2.1 (by decide),
    h.2.2.2.2.2.1 (by decide),
    h.2.2.2.2.2.2.1 (by decide),
    h.2.2.2.2.2.2.2.1 (by decide),
    h.2.2.2.2.2.2.2.2.1 (by decide),
    h.2.2.2.2.2.2.2.2.2.1 (by decide),
    h.2.2.2.2.2.2.2.2.2.2.1 (by decide),
    h.2.2.2.2.2.2.2.2.2.2.2.1 (by decide),
    h.2.2.2.2.2.2.2.2.2.2.2.2.1 (by decide),
    h.2.2.2.2.2.2.2.2.2.2.2.2.2.1 (by decide),
    h.2.2.2.2.2.2.2.2.2.2.2.2.2.2.1 (by decide),
    h.2.2.2.2.2.2.2.2.2.2.2.2.2.2.2.1 (by decide),
    h.2.2.2.2.2.2.2.2.2.2.2.2.2.2.2.2.1 (by decide),
    h.2.2.2.2.2.2.2.2.2.2.2.2.2.2.2.2.2.1 (by decide),
    h.2.2.2.2.2.2.2.2.2.2.2.2.2.2.2.2.2.2 (by decide)⟩

/-- C4: merge inheritance of the scalar inputs. For each of `XR`, `Claim`, `Composition`,
`Functions`, `ObservedResources`, `ExtraResources` and `FunctionCredentials`, if the value of
the test case is empty then after `MergeCommon` it equals the value of the common block; the
other fields play no part. -/
theorem mergeCommon_inherit_scalar {V : Type} [Inhabited V] (tc : TestCase V)
    (common : Common V) :
    (tc.Inputs.XR = "" → (tc.MergeCommon common).Inputs.XR = common.Inputs.XR) ∧
      (tc.Inputs.Claim = "" → (tc.MergeCommon common).Inputs.Claim = common.Inputs.Claim) ∧
      (tc.Inputs.Composition = "" → (tc.MergeCommon common).Inputs.Composition = common.Inputs.Composition) ∧
      (tc.Inputs.Functions = "" → (tc.MergeCommon common).Inputs.Functions = common.Inputs.Functions) ∧
      (tc.Inputs.ObservedResources = "" → (tc.MergeCommon common).Inputs.ObservedResources = common.Inputs.ObservedResources) ∧
      (tc.Inputs.ExtraResources = "" → (tc.MergeCommon common).Inputs.ExtraResources = common.Inputs.ExtraResources) ∧
      (tc.Inputs.FunctionCredentials = "" → (tc.MergeCommon common).Inputs.FunctionCredentials = common.Inputs.FunctionCredentials) := by
  rw [mergeCommon_eq]
  refine ⟨?_, ?_, ?_, ?_, ?_, ?_, ?_⟩ <;> intro h <;> dsimp only <;> exact if_pos h

/-- Witness of C4: `bareCase` sets none of the scalar inputs and gets each from
`fullCommon`. -/
theorem mergeCommon_inherit_scalar_witness :
    (bareCase.MergeCommon fullCommon).Inputs.XR = fullCommon.Inputs.XR ∧
      (bareCase.MergeCommon fullCommon).Inputs.Claim = fullCommon.Inputs.Claim ∧
      (bareCase.MergeCommon fullCommon).Inputs.Composition = fullCommon.Inputs.Composition ∧
      (bareCase.MergeCommon fullCommon).Inputs.Functions = fullCommon.Inputs.Functions ∧
      (bareCase.MergeCommon fullCommon).Inputs.ObservedResources = fullCommon.Inputs.ObservedResources ∧
      (bareCase.MergeCommon fullCommon).Inputs.ExtraResources = fullCommon.Inputs.ExtraResources ∧
      (bareCase.MergeCommon fullCommon).Inputs.FunctionCredentials = fullCommon.Inputs.FunctionCredentials := by
  have h := mergeCommon_inherit_scalar bareCase fullCommon
  exact ⟨h.1 (by decide),
    h.2.1 (by decide),
    h.2.2.1 (by decide),
    h.2.2.2.1 (by decide),
    h.2.2.2.2.1 (by decide),
    h.2.2.2.2.2.1 (by decide),
    h.2.2.2.2.2.2 (by decide)⟩

/-- C5: hook all-or-nothing. After `MergeCommon` the `PreTest` list of the test case is its
original `PreTest` list if that was non-empty and otherwise is the `PreTest` list of the common
block, element by element in order; the same holds for `PostTest`, whatever `PreTest` is. A
resolved list is therefore one of the two lists, never a blend. -/
theorem mergeCommon_hooks {V : Type} [Inhabited V] (tc : TestCase V) (common : Common V) :
    (tc.MergeCommon common).Hooks.PreTest =
        (if 0 < tc.Hooks.PreTest.length then tc.Hooks.PreTest else common.Hooks.PreTest) ∧
      (tc.MergeCommon common).Hooks.PostTest =
        (if 0 < tc.Hooks.PostTest.length then tc.Hooks.PostTest else common.Hooks.PostTest) := by
  rw [mergeCommon_eq]
  exact ⟨ite_list_keep_gated _ _ _ (fun h => (hasHooks_false h).1),
    ite_list_keep_gated _ _ _ (fun h => (hasHooks_false h).2)⟩

/-- C6: assertions merge per engine. After `MergeCommon` the list of the test case for each of
the engines `Xprin`, `Diff` and `Dyff` is its original list if that was non-empty and otherwise
is the list of the common block for that engine, element by element in order; the lists of the
other two engines play no part. -/
theorem mergeCommon_assertions {V : Type} [Inhabited V] (tc : TestCase V)
    (common : Common V) :
    (tc.MergeCommon common).Assertions.Xprin =
        (if 0 < tc.Assertions.Xprin.length then tc.Assertions.Xprin
          else common.Assertions.Xprin) ∧
      (tc.MergeCommon common).Assertions.Diff =
        (if 0 < tc.Assertions.Diff.length then tc.Assertions.Diff
          else common.Assertions.Diff) ∧
      (tc.MergeCommon common).Assertions.Dyff =
        (if 0 < tc.Assertions.Dyff.length then tc.Assertions.Dyff
          else common.Assertions.Dyff) := by
  rw [mergeCommon_eq]
  exact ⟨ite_list_keep_gated _ _ _ (fun h => Nat.eq_zero_of_not_pos h),
    ite_list_keep_gated _ _ _ (fun h => Nat.eq_zero_of_not_pos h),
    ite_list_keep_gated _ _ _ (fun h => Nat.eq_zero_of_not_pos h)⟩

/-- C7: collection inputs merge. After `MergeCommon` each of `CRDs`, `ContextFiles` and
`ContextValues` of the test case is its original collection if that was non-empty and otherwise
is the collection of the common block (the same elements in the same order for `CRDs`, the same
key/value pairs for the two maps); entries of the two are never combined. -/
theorem mergeCommon_collections {V : Type} [Inhabited V] (tc : TestCase V)
    (common : Common V) :
    (tc.MergeCommon common).Inputs.CRDs =
        (if 0 < tc.Inputs.CRDs.length then tc.Inputs.CRDs else common.Inputs.CRDs) ∧
      (tc.MergeCommon common).Inputs.ContextFiles =
        (if 0 < mapLen tc.Inputs.ContextFiles then tc.Inputs.ContextFiles
          else common.Inputs.ContextFiles) ∧
      (tc.MergeCommon common).Inputs.ContextValues =
        (if 0 < mapLen tc.Inputs.ContextValues then tc.Inputs.ContextValues
          else common.Inputs.ContextValues) := by
  rw [mergeCommon_eq]
  exact ⟨ite_list_keep _ _, ite_map_keep _ _, ite_map_keep _ _⟩

/-- C8, as the claim states it, fails: `bareCase` leaves the connection-secret toggle unset,
`toggleOffCommon` sets it explicitly to false (and sets nothing else), and after `MergeCommon`
the toggle of the test case is still unset. -/
theorem mergeCommon_inherit_toggle_counterexample :
    bareCase.Patches.ConnectionSecret = none ∧
      toggleOffCommon.Patches.ConnectionSecret = some false ∧
      (bareCase.MergeCommon toggleOffCommon).Patches.ConnectionSecret ≠
        toggleOffCommon.Patches.ConnectionSecret := by
  decide

/-- C8, amended: merge inheritance of the patch fields. If the test case leaves a `Patches`
field unset and the common block sets it, then after `MergeCommon` the field of the test case
equals the value of the common block, where for the connection-secret toggle "sets it" means
explicitly true, or explicitly false together with a non-empty `XRD`, `ConnectionSecretName` or
`ConnectionSecretNamespace` of the common block. When `HasPatches` is false for the common
block (its only possible setting is then an explicitly false toggle) the `Patches` of the test
case stay as they were. -/
theorem mergeCommon_inherit_patches {V : Type} [Inhabited V] (tc : TestCase V)
    (common : Common V) :
    (tc.Patches.XRD = "" → common.Patches.XRD ≠ "" →
        (tc.MergeCommon common).Patches.XRD = common.Patches.XRD) ∧
      (tc.Patches.ConnectionSecret = none →
        (common.Patches.ConnectionSecret = some true ∨
          (common.Patches.ConnectionSecret = some false ∧
            (common.Patches.XRD ≠ "" ∨ common.Patches.ConnectionSecretName ≠ "" ∨
              common.Patches.ConnectionSecretNamespace ≠ ""))) →
        (tc.MergeCommon common).Patches.ConnectionSecret = common.Patches.ConnectionSecret) ∧
      (tc.Patches.ConnectionSecretName = "" → common.Patches.ConnectionSecretName ≠ "" →
        (tc.MergeCommon common).Patches.ConnectionSecretName =
          common.Patches.ConnectionSecretName) ∧
      (tc.Patches.ConnectionSecretNamespace = "" →
        common.Patches.ConnectionSecretNamespace ≠ "" →
        (tc.MergeCommon common).Patches.ConnectionSecretNamespace =
          common.Patches.ConnectionSecretNamespace) ∧
      (common.Patches.HasPatches = false →
        (tc.MergeCommon common).Patches = tc.Patches) := by
  rw [mergeCommon_eq]
  refine ⟨?_, ?_, ?_, ?_, ?_⟩
  · intro h hc
    exact if_pos ⟨(hasPatches_iff _).mpr (Or.inl hc), h⟩
  · intro h hc
    refine if_pos ⟨(hasPatches_iff _).mpr ?_, h⟩
    rcases hc with hc | ⟨_, hc | hc | hc⟩
    · exact Or.inr (Or.inl hc)
    · exact Or.inl hc
    · exact Or.inr (Or.inr (Or.inl hc))
    · exact Or.inr (Or.inr (Or.inr hc))
  · intro h hc
    exact if_pos ⟨(hasPatches_iff _).mpr (Or.inr (Or.inr (Or.inl hc))), h⟩
  · intro h hc
    exact if_pos ⟨(hasPatches_iff _).mpr (Or.inr (Or.inr (Or.inr hc))), h⟩
  · intro h
    simp [h]

/-- Witness of the amended C8: `bareCase` sets no patch field and gets all four from
`fullCommon`, whose toggle is explicitly true; merged with `toggleOffCommon`, for which
`HasPatches` is false, its `Patches` stay as they were. -/
theorem mergeCommon_inherit_patches_witness :
    (bareCase.MergeCommon fullCommon).Patches.XRD = fullCommon.Patches.XRD ∧
      (bareCase.MergeCommon fullCommon).Patches.ConnectionSecret =
        fullCommon.Patches.ConnectionSecret ∧
      (bareCase.MergeCommon fullCommon).Patches.ConnectionSecretName =
        fullCommon.Patches.ConnectionSecretName ∧
      (bareCase.MergeCommon fullCommon).Patches.ConnectionSecretNamespace =
        fullCommon.Patches.ConnectionSecretNamespace ∧
      (bareCase.MergeCommon toggleOffCommon).Patches = bareCase.Patches := by
  have h := mergeCommon_inherit_patches bareCase fullCommon
  exact ⟨h.1 (by decide) (by decide), h.2.1 (by decide) (Or.inl (by decide)),
    h.2.2.1 (by decide) (by decide), h.2.2.2.1 (by decide) (by decide),
    (mergeCommon_inherit_patches bareCase toggleOffCommon).2.2.2.2 (by decide)⟩

/-- C9: connection-secret gating. `CheckConnectionSecret` returns an error if and only if
`ConnectionSecretName` or `ConnectionSecretNamespace` is non-empty and the connection-secret
toggle is unset; with the toggle explicitly true or explicitly false it returns no error,
whatever the name and the namespace are. -/
theorem checkConnectionSecret_error_iff (p : Patches) :
    (p.CheckConnectionSecret ≠ none ↔
        (p.ConnectionSecretName ≠ "" ∨ p.ConnectionSecretNamespace ≠ "") ∧
          p.ConnectionSecret = none) ∧
      (p.ConnectionSecret ≠ none → p.CheckConnectionSecret = none) := by
  unfold Patches.CheckConnectionSecret
  by_cases hn : p.ConnectionSecretName = "" <;>
    by_cases hs : p.ConnectionSecretNamespace = "" <;>
    by_cases ht : p.ConnectionSecret = none <;> simp [hn, hs, ht]

/-- Witness of C9: with the name "s" set, the check fails when the toggle is unset and passes
when the toggle is explicitly true or explicitly false. -/
theorem checkConnectionSecret_error_iff_witness :
    (⟨"", none, "s", ""⟩ : Patches).CheckConnectionSecret ≠ none ∧
      (⟨"", some true, "s", ""⟩ : Patches).CheckConnectionSecret = none ∧
      (⟨"", some false, "s", ""⟩ : Patches).CheckConnectionSecret = none :=
  ⟨(checkConnectionSecret_error_iff ⟨"", none, "s", ""⟩).1.mpr ⟨Or.inl (by decide), rfl⟩,
    (checkConnectionSecret_error_iff ⟨"", some true, "s", ""⟩).2 (by decide),
    (checkConnectionSecret_error_iff ⟨"", some false, "s", ""⟩).2 (by decide)⟩

/-- C10: mandatory fields may come from either place. `CheckMandatoryFields` on the test case
after `MergeCommon` returns no error if and only if exactly one of "claim is set in the case or
in common" and "xr is set in the case or in common" holds, composition is set in the case or in
common, and functions is set in the case or in common. -/
theorem mergeCommon_checkMandatoryFields_ok_iff {V : Type} [Inhabited V] (tc : TestCase V)
    (common : Common V) :
    (tc.MergeCommon common).CheckMandatoryFields = none ↔
      (((tc.Inputs.Claim ≠ "" ∨ common.Inputs.Claim ≠ "") ∧
          ¬ (tc.Inputs.XR ≠ "" ∨ common.Inputs.XR ≠ "")) ∨
        (¬ (tc.Inputs.Claim ≠ "" ∨ common.Inputs.Claim ≠ "") ∧
          (tc.Inputs.XR ≠ "" ∨ common.Inputs.XR ≠ ""))) ∧
      (tc.Inputs.Composition ≠ "" ∨ common.Inputs.Composition ≠ "") ∧
      (tc.Inputs.Functions ≠ "" ∨ common.Inputs.Functions ≠ "") := by
  rw [checkMandatoryFields_eq_none, mandatoryErrors_eq_nil_iff, mergeCommon_eq]
  dsimp only
  rw [← ite_orElse_ne_empty tc.Inputs.Claim, ← ite_orElse_ne_empty tc.Inputs.XR,
    ← ite_orElse_ne_empty tc.Inputs.Composition, ← ite_orElse_ne_empty tc.Inputs.Functions]
  simp only [ne_eq, not_not]

/-! ## Claims: end to end -/

/-- C11: end-to-end success. For every suite whose common block sets `Composition` and
`Functions` and neither `XR` nor `Claim`, and whose test cases each have a non-empty `Name`, no
`ID`, exactly one of `XR` and `Claim`, and neither `Composition` nor `Functions`: after
`MergeCommon` on each case, the `Composition` and `Functions` of every case are those of the
common block, `CheckMandatoryFields` returns no error on every case and
`CheckValidTestSuiteFile` returns no error on the suite. -/
theorem endToEnd_success {V : Type} [Inhabited V] (ts : TestSuiteSpec V)
    (hcomp : ts.Common.Inputs.Composition ≠ "") (hfn : ts.Common.Inputs.Functions ≠ "")
    (hxr : ts.Common.Inputs.XR = "") (hclaim : ts.Common.Inputs.Claim = "")
    (hcases : ∀ tc ∈ ts.Tests, tc.Name ≠ "" ∧ tc.ID = "" ∧
      ((tc.Inputs.XR ≠ "" ∧ tc.Inputs.Claim = "") ∨ (tc.Inputs.XR = "" ∧ tc.Inputs.Claim ≠ "")) ∧
      tc.Inputs.Composition = "" ∧ tc.Inputs.Functions = "") :
    (∀ tc ∈ ts.mergeTests.Tests,
        tc.Inputs.Composition = ts.Common.Inputs.Composition ∧
        tc.Inputs.Functions = ts.Common.Inputs.Functions ∧
        tc.CheckMandatoryFields = none) ∧
      ts.mergeTests.CheckValidTestSuiteFile = none := by
  have hmem : ∀ m ∈ ts.mergeTests.Tests, ∃ tc ∈ ts.Tests, m = tc.MergeCommon ts.Common := by
    intro m hm
    obtain ⟨tc, htc, rfl⟩ := List.mem_map.mp hm
    exact ⟨tc, htc, rfl⟩
  constructor
  · intro m hm
    obtain ⟨tc, htc, rfl⟩ := hmem m hm
    obtain ⟨_, _, hone, hc, hf⟩ := hcases tc htc
    rw [checkMandatoryFields_eq_none, mandatoryErrors_eq_nil_iff, mergeCommon_eq]
    dsimp only
    rw [if_pos hc, if_pos hf]
    refine ⟨rfl, rfl, ?_, hcomp, hfn⟩
    rcases hone with ⟨h1, h2⟩ | ⟨h1, h2⟩
    · rw [if_neg h1, if_pos h2, hclaim]
      exact Or.inr ⟨rfl, h1⟩
    · rw [if_pos h1, if_neg h2, hxr]
      exact Or.inl ⟨h2, rfl⟩
  · rw [checkValidTestSuiteFile_eq_none, suiteErrors_eq_nil_iff]
    have hid : ∀ m ∈ ts.mergeTests.Tests, m.Name ≠ "" ∧ m.ID = "" := by
      intro m hm
      obtain ⟨tc, htc, rfl⟩ := hmem m hm
      obtain ⟨hn, hi, _⟩ := hcases tc htc
      rw [mergeCommon_eq]
      exact ⟨hn, hi⟩
    refine ⟨fun m hm => (hid m hm).1, fun m hm hne => absurd (hid m hm).2 hne, ?_⟩
    exact List.pairwise_of_forall_mem_list (fun a ha _ _ hne => absurd (hid a ha).2 hne)

/-- Witness of C11: the suite of the end-to-end example, with common
`composition: comp.yaml`, `functions: fn.yaml` and the cases `t1` (`xr`) and `t2` (`claim`). -/
theorem endToEnd_success_witness :
    (∀ tc ∈ exampleSuite.mergeTests.Tests,
        tc.Inputs.Composition = "comp.yaml" ∧ tc.Inputs.Functions = "fn.yaml" ∧
        tc.CheckMandatoryFields = none) ∧
      exampleSuite.mergeTests.CheckValidTestSuiteFile = none :=
  endToEnd_success exampleSuite (by decide) (by decide) (by decide) (by decide) (by decide)

/-- C12, as the claim states it, fails: for the suite with no common inputs and the single
test case with an empty name, `xr: x` and `claim: c`, merging and running both passes yields
four violations, not two, and they are not just the empty-name and the conflicting-fields
violation. -/
theorem endToEnd_failure_counterexample :
    failingSuite.mergeTests.allViolations.length = 4 ∧
      failingSuite.mergeTests.allViolations ≠
        ["test case has empty name",
          "conflicting fields: both 'claim' and 'xr' are specified, but only one is allowed"] := by
  decide

/-- C12, amended: for the suite with no common inputs and the single test case with an empty
name, `xr: x` and `claim: c`, merging and running both passes yields exactly four violations:
the empty-name violation from the suite-level pass, and the conflicting-fields, the missing
composition and the missing functions violation from the case-level pass. When the test case
also sets `composition` and `functions`, the violations are exactly the first two. -/
theorem endToEnd_failure :
    failingSuite.mergeTests.suiteErrors = ["test case has empty name"] ∧
      failingSuite.mergeTests.Tests.map (fun tc => tc.mandatoryErrors) =
        [["conflicting fields: both 'claim' and 'xr' are specified, but only one is allowed",
          "missing mandatory field: composition (it can be specified either in the test " ++
            "case or in the common inputs)",
          "missing mandatory field: functions (it can be specified either in the test " ++
            "case or in the common inputs)"]] ∧
      failingSuiteWithPipeline.mergeTests.allViolations =
        ["test case has empty name",
          "conflicting fields: both 'claim' and 'xr' are specified, but only one is allowed"] := by
  decide

/-! ## Claims: predicate layer and algebra of the merge -/

/-- C14, as the claim states it, fails: `HasConnectionSecret` returns the same result, false,
for a `Patches` whose toggle is unset and for one whose toggle is explicitly false, all other
fields being equal. -/
theorem hasConnectionSecret_collapse_counterexample :
    (⟨"", none, "", ""⟩ : Patches).HasConnectionSecret =
      (⟨"", some false, "", ""⟩ : Patches).HasConnectionSecret := by
  decide

/-- C14, amended: `HasConnectionSecret` is true exactly when the toggle is explicitly true, so
it returns false both for an unset and for an explicitly false toggle; the two states are told
apart by `CheckConnectionSecret`, which for a `Patches` with a name or a namespace returns an
error when the toggle is unset and none when it is explicitly false. -/
theorem hasConnectionSecret_iff (p : Patches) :
    (p.HasConnectionSecret = true ↔ p.ConnectionSecret = some true) ∧
      (p.ConnectionSecretName ≠ "" ∨ p.ConnectionSecretNamespace ≠ "" →
        ({ p with ConnectionSecret := none } : Patches).CheckConnectionSecret ≠ none ∧
          ({ p with ConnectionSecret := some false } : Patches).CheckConnectionSecret = none) := by
  constructor
  · unfold Patches.HasConnectionSecret
    cases h : p.ConnectionSecret with
    | none => simp
    | some b => cases b <;> simp
  · intro h
    unfold Patches.CheckConnectionSecret
    by_cases hn : p.ConnectionSecretName = "" <;>
      by_cases hs : p.ConnectionSecretNamespace = "" <;> simp_all

/-- Witness of the amended C14: with the name "s" set, the unset toggle and the explicitly
false toggle give the same `HasConnectionSecret` and different `CheckConnectionSecret`. -/
theorem hasConnectionSecret_iff_witness :
    (⟨"", none, "s", ""⟩ : Patches).CheckConnectionSecret ≠ none ∧
      (⟨"", some false, "s", ""⟩ : Patches).CheckConnectionSecret = none :=
  (hasConnectionSecret_iff ⟨"", none, "s", ""⟩).2 (Or.inl (by decide))

/-- C19: `MergeCommon` preserves connection-secret consistency. If `CheckConnectionSecret`
returns no error on the `Patches` of the test case and none on the `Patches` of the common
block, it returns none on the `Patches` of the test case after `MergeCommon`. -/
theorem mergeCommon_checkConnectionSecret {V : Type} [Inhabited V] (tc : TestCase V)
    (common : Common V) (htc : tc.Patches.CheckConnectionSecret = none)
    (hcommon : common.Patches.CheckConnectionSecret = none) :
    (tc.MergeCommon common).Patches.CheckConnectionSecret = none := by
  rw [mergeCommon_eq]
  unfold Patches.CheckConnectionSecret at *
  dsimp only
  by_cases hg : common.Patches.HasPatches = true <;>
    by_cases h1 : tc.Patches.ConnectionSecret = none <;>
    by_cases h2 : tc.Patches.ConnectionSecretName = "" <;>
    by_cases h3 : tc.Patches.ConnectionSecretNamespace = "" <;>
    by_cases h4 : common.Patches.ConnectionSecret = none <;>
    by_cases h5 : common.Patches.ConnectionSecretName = "" <;>
    by_cases h6 : common.Patches.ConnectionSecretNamespace = "" <;>
    simp_all

/-- Witness of C19: `bareCase` (no patch field set) and `fullCommon` (toggle explicitly true,
name and namespace set) both pass the check, and so does `bareCase` after the merge, which
then carries the name and the namespace of `fullCommon`. -/
theorem mergeCommon_checkConnectionSecret_witness :
    (bareCase.MergeCommon fullCommon).Patches.ConnectionSecretName = "c-secret" ∧
      (bareCase.MergeCommon fullCommon).Patches.CheckConnectionSecret = none :=
  ⟨by decide, mergeCommon_checkConnectionSecret bareCase fullCommon (by decide) (by decide)⟩

/-- C18: `MergeCommon` is idempotent. Merging the same common block a second time into an
already merged test case leaves it unchanged. -/
theorem mergeCommon_idempotent {V : Type} [Inhabited V] (tc : TestCase V) (common : Common V) :
    (tc.MergeCommon common).MergeCommon common = tc.MergeCommon common := by
  rw [mergeCommon_eq (tc.MergeCommon common) common, mergeCommon_eq tc common]
  simp only [TestCase.mk.injEq, Inputs.mk.injEq, Patches.mk.injEq, Hooks.mk.injEq,
    Assertions.mk.injEq, true_and]
  refine ⟨⟨?_, ?_, ?_, ?_, ?_, ?_, ?_, ?_, ?_, ?_⟩, ⟨?_, ?_, ?_, ?_⟩, ⟨?_, ?_⟩, ?_, ?_, ?_⟩ <;>
    (split_ifs <;> simp_all)

/-- C20: `HasCommon` characterises a merge that does nothing. `HasCommon` returns false if
and only if `MergeCommon` with the common block of the suite leaves every test case unchanged;
and it returns true if and only if merging the common block into the empty test case gives a
test case that is not empty. -/
theorem hasCommon_iff_mergeCommon {V : Type} [Inhabited V] (ts : TestSuiteSpec V) :
    (ts.HasCommon = false ↔ ∀ tc : TestCase V, tc.MergeCommon ts.Common = tc) ∧
      (ts.HasCommon = true ↔
        (emptyTestCase V).MergeCommon ts.Common ≠ emptyTestCase V) := by
  have hfwd : ts.HasCommon = false → ∀ tc : TestCase V, tc.MergeCommon ts.Common = tc := by
    intro h tc
    obtain ⟨h1, h2, h3, h4, h5, h6, h7, h8, h9, h10, hp, hh, ha⟩ :=
      (hasCommon_eq_false_iff ts).mp h
    rw [mergeCommon_eq]
    obtain ⟨n, d, ⟨i1, i2, i3, i4, i5, i6, i7, i8, i9, i10⟩, ⟨p1, p2, p3, p4⟩, ⟨k1, k2⟩,
      ⟨s1, s2, s3⟩⟩ := tc
    simp only [TestCase.mk.injEq, Inputs.mk.injEq, Patches.mk.injEq, Hooks.mk.injEq,
      Assertions.mk.injEq, true_and]
    have hh' : ¬ ts.Common.Hooks.HasHooks = true := by simp [hh]
    obtain ⟨a1, a2, a3⟩ : ts.Common.Assertions.Xprin.length = 0 ∧
        ts.Common.Assertions.Diff.length = 0 ∧ ts.Common.Assertions.Dyff.length = 0 := by
      unfold Assertions.HasAssertions Assertions.HasAssertionsXprin
        Assertions.HasAssertionsDiff Assertions.HasAssertionsDyff at ha
      simpa [and_assoc] using ha
    have hp' : ¬ ts.Common.Patches.HasPatches = true := by simp [hp]
    refine ⟨⟨?_, ?_, ?_, ?_, ?_, ?_, ?_, ?_, ?_, ?_⟩, ⟨?_, ?_, ?_, ?_⟩, ⟨?_, ?_⟩, ?_, ?_, ?_⟩ <;>
      (split_ifs <;> simp_all)
  have hbwd : (emptyTestCase V).MergeCommon ts.Common = emptyTestCase V →
      ts.HasCommon = false := by
    intro h
    rw [mergeCommon_eq] at h
    simp only [emptyTestCase, TestCase.mk.injEq, Inputs.mk.injEq, Patches.mk.injEq,
      Hooks.mk.injEq, Assertions.mk.injEq, true_and, if_true, and_true, List.length_nil,
      true_and, gt_iff_lt] at h
    obtain ⟨⟨h1, h2, h3, h4, h5, h6, h7, h8, h9, h10⟩, ⟨p1, p2, p3, p4⟩, ⟨k1, k2⟩,
      s1, s2, s3⟩ := h
    rw [hasCommon_eq_false_iff]
    have hlist : ∀ {α : Type} (l : List α), (if 0 < l.length then l else []) = [] →
        l.length = 0 := by
      intro α l hl
      cases l with
      | nil => rfl
      | cons x xs => simp at hl
    have hmap : ∀ m : StringMap, (if mapLen (∅ : StringMap) = 0 ∧ 0 < mapLen m then m else ∅) = ∅ →
        mapLen m = 0 := by
      intro m hm
      by_cases h0 : mapLen m = 0
      · exact h0
      · have : mapLen (∅ : StringMap) = 0 := (mapLen_eq_zero_iff _).mpr rfl
        rw [if_pos ⟨this, Nat.pos_of_ne_zero h0⟩] at hm
        exact (mapLen_eq_zero_iff m).mpr hm
    have hp : ts.Common.Patches.HasPatches = false := by
      by_contra hc
      have hc' : ts.Common.Patches.HasPatches = true := by simpa using hc
      rw [if_pos hc'] at p1 p2 p3 p4
      have := (hasPatches_iff _).mp hc'
      simp [p1, p2, p3, p4] at this
    have hh : ts.Common.Hooks.HasHooks = false := by
      by_contra hc
      have hc' : ts.Common.Hooks.HasHooks = true := by simpa using hc
      rw [if_pos hc'] at k1 k2
      unfold Hooks.HasHooks Hooks.HasPreTestHooks Hooks.HasPostTestHooks at hc'
      simp [k1, k2] at hc'
    have ha : ts.Common.Assertions.HasAssertions = false := by
      unfold Assertions.HasAssertions Assertions.HasAssertionsXprin
        Assertions.HasAssertionsDiff Assertions.HasAssertionsDyff
      simp [hlist _ s1, hlist _ s2, hlist _ s3]
    exact ⟨h2, h1, h3, h4, hlist _ h5, hmap _ h6, hmap _ h7, h8, h9, h10, hp, hh, ha⟩
  refine ⟨⟨hfwd, fun h => hbwd (h _)⟩, ?_, ?_⟩
  · intro h heq
    rw [hbwd heq] at h
    exact Bool.false_ne_true h
  · intro h
    by_contra hc
    exact h (hfwd (by simpa using hc) _)

/-! ## Claims: the messages of the suite-level pass -/

/-- C15: suite-level violations are complete and ordered. The messages collected by
`CheckValidTestSuiteFile` are exactly, in test-case order and within one test case in this
order, an empty-name violation iff `Name` is empty, an invalid-characters violation naming the
ID iff `ID` is non-empty and has a character outside `[A-Za-z0-9_-]`, and a duplicate violation
naming the ID iff `ID` is non-empty and equals the `ID` of an earlier test case; the error
returned is built from all of them, and there is an error as soon as there is one of them. -/
theorem suiteViolations_complete {V : Type} (ts : TestSuiteSpec V) :
    ts.suiteErrors = specSuiteViolations ts.Tests ∧
      ts.CheckValidTestSuiteFile =
        (if specSuiteViolations ts.Tests = [] then none
        else some ("invalid testsuite file:\n- " ++
          stringsJoin (specSuiteViolations ts.Tests) "\n- ")) := by
  refine ⟨suiteErrors_eq_spec ts, ?_⟩
  unfold TestSuiteSpec.CheckValidTestSuiteFile
  rw [suiteErrors_eq_spec]
  cases specSuiteViolations ts.Tests with
  | nil => simp
  | cons e es => simp

/-- Witness of C15: the ID `valid_ID-1` gives no violation, the ID `bad id!` gives the
invalid-characters violation, and a case with an empty name after a case with the same bad ID
gives all three violations in the order of the claim. -/
theorem suiteViolations_complete_witness :
    (⟨failingSuite.Common, [caseWithID "t1" "valid_ID-1"]⟩ : TestSuiteSpec Unit).suiteErrors
        = [] ∧
      (⟨failingSuite.Common, [caseWithID "t1" "bad id!"]⟩ : TestSuiteSpec Unit).suiteErrors =
        ["test case ID 'bad id!' contains invalid characters " ++
          "(allowed: alphanumeric, underscore, hyphen)"] ∧
      (⟨failingSuite.Common, [caseWithID "t1" "bad id!", caseWithID "" "bad id!"]⟩ :
          TestSuiteSpec Unit).suiteErrors =
        ["test case ID 'bad id!' contains invalid characters " ++
          "(allowed: alphanumeric, underscore, hyphen)",
          "test case has empty name",
          "test case ID 'bad id!' contains invalid characters " ++
            "(allowed: alphanumeric, underscore, hyphen)",
          "duplicate test case ID 'bad id!' found"] := by
  refine ⟨?_, ?_, ?_⟩
  · rw [(suiteViolations_complete _).1]
    decide
  · rw [(suiteViolations_complete _).1]
    decide
  · rw [(suiteViolations_complete _).1]
    decide

/-- C16: ID uniqueness exemption and duplicate count. The number of duplicate-ID violations
collected by `CheckValidTestSuiteFile` is the number of test cases with a non-empty ID minus
the number of distinct non-empty IDs; so a suite in which no test case has an ID has no
duplicate violation, however many test cases it has. -/
theorem duplicateViolations_count {V : Type} (ts : TestSuiteSpec V) :
    ts.suiteErrors.countP isDuplicateViolation =
        (nonEmptyIDs ts.Tests).length - (nonEmptyIDs ts.Tests).toFinset.card ∧
      (nonEmptyIDs ts.Tests).toFinset.card ≤ (nonEmptyIDs ts.Tests).length ∧
      ((∀ tc ∈ ts.Tests, tc.ID = "") → ts.suiteErrors.countP isDuplicateViolation = 0) := by
  have h := countP_duplicate_specSuiteViolationsFrom ts.Tests []
  rw [List.nil_append] at h
  have h0 : (nonEmptyIDs ([] : List (TestCase V))).toFinset.card = 0 := by
    simp [nonEmptyIDs]
  rw [h0, Nat.add_zero] at h
  rw [suiteErrors_eq_spec, specSuiteViolations]
  refine ⟨by omega, by omega, ?_⟩
  intro hno
  have hnil : nonEmptyIDs ts.Tests = [] := by
    unfold nonEmptyIDs
    rw [List.filter_eq_nil_iff]
    intro id hid
    obtain ⟨tc, htc, rfl⟩ := List.mem_map.mp hid
    simp [hno tc htc]
  rw [hnil] at h
  simpa using h

/-- Witness of C16: three test cases without an ID give no duplicate violation, and two test
cases with the ID `a` give one. -/
theorem duplicateViolations_count_witness :
    (⟨failingSuite.Common, [caseWithID "t1" "", caseWithID "t2" "", caseWithID "t3" ""]⟩ :
        TestSuiteSpec Unit).suiteErrors.countP isDuplicateViolation = 0 ∧
      (⟨failingSuite.Common, [caseWithID "t1" "a", caseWithID "t2" "a"]⟩ :
        TestSuiteSpec Unit).suiteErrors.countP isDuplicateViolation = 1 :=
  ⟨(duplicateViolations_count _).2.2 (by decide),
    (duplicateViolations_count _).1.trans (by decide)⟩

/-- C17, as the claim states it, fails: for the suite whose one test case has the ID `a`,
newline, `b`, `CheckValidTestSuiteFile` fails with one violation and a message of three
lines. -/
theorem oneViolationPerLine_counterexample :
    newlineIDSuite.suiteErrors.length = 1 ∧
      newlineIDSuite.CheckValidTestSuiteFile.map lineCount = some 3 := by
  decide

/-- C17, amended: for every suite on which `CheckValidTestSuiteFile` fails, the message is the
header `invalid testsuite file:` followed, for each violation in order, by a newline, `- ` and
the text of the violation; when no ID of a test case has a newline character in it, that is one
line per violation after the header line, so the number of lines of the message is one plus the
number of violations. -/
theorem oneViolationPerLine {V : Type} (ts : TestSuiteSpec V) (msg : String)
    (h : ts.CheckValidTestSuiteFile = some msg) :
    msg = ts.suiteErrors.foldl (fun r v => r ++ "\n- " ++ v) "invalid testsuite file:" ∧
      ((∀ tc ∈ ts.Tests, '\n' ∉ tc.ID.data) → lineCount msg = 1 + ts.suiteErrors.length) := by
  have hmsg := checkValidTestSuiteFile_eq_some ts msg h
  refine ⟨hmsg, ?_⟩
  intro hid
  have hv : ∀ v ∈ ts.suiteErrors, v.data.count '\n' = 0 := by
    rw [suiteErrors_eq_spec]
    exact count_newline_specSuiteViolationsFrom ts.Tests []
      (fun t ht => List.count_eq_zero.mpr (hid t ht))
  unfold lineCount
  rw [hmsg, count_newline_foldl _ _ hv]
  have : ("invalid testsuite file:" : String).data.count '\n' = 0 := by decide
  omega

/-- Witness of the amended C17: the suite whose one test case has the ID `bad id!` fails
with one violation and a message of two lines. -/
theorem oneViolationPerLine_witness :
    (⟨failingSuite.Common, [caseWithID "t1" "bad id!"]⟩ :
        TestSuiteSpec Unit).CheckValidTestSuiteFile =
        some ("invalid testsuite file:\n- test case ID 'bad id!' contains invalid " ++
          "characters (allowed: alphanumeric, underscore, hyphen)") ∧
      lineCount ("invalid testsuite file:\n- test case ID 'bad id!' contains invalid " ++
        "characters (allowed: alphanumeric, underscore, hyphen)") =
        1 + (⟨failingSuite.Common, [caseWithID "t1" "bad id!"]⟩ :
          TestSuiteSpec Unit).suiteErrors.length :=
  have h : (⟨failingSuite.Common, [caseWithID "t1" "bad id!"]⟩ :
      TestSuiteSpec Unit).CheckValidTestSuiteFile =
      some ("invalid testsuite file:\n- test case ID 'bad id!' contains invalid " ++
        "characters (allowed: alphanumeric, underscore, hyphen)") := by decide
  ⟨h, (oneViolationPerLine _ _ h).2 (by decide)⟩

/-! ## Claims: merge isolation, on the reference-level model -/

/-- C13 at its failing input: `sampleCaseRef` has no hooks and an unset toggle, and is merged
with `sampleCommonRef`, stored in `sampleHeap`. After `MergeCommon` the `PreTest` slice of the
test case is the slice of the common block itself, so assigning to its element 0 changes the
pre-test hook that the common block holds; and the pointer of the toggle of the test case is
the pointer of the common block, so assigning through it changes the toggle of the common
block. The `CRDs` slice, which `MergeCommon` copies, does not behave so: assigning to its
element 0 leaves the `CRDs` of the common block as they were. -/
theorem mergeIsolation_failing :
    (sampleCaseRef.MergeCommon sampleHeap sampleCommonRef).2.Hooks.PreTest =
        sampleCommonRef.Hooks.PreTest ∧
      (sampleCaseRef.MergeCommon sampleHeap sampleCommonRef).1.hooksOf
          sampleCommonRef.Hooks.PreTest = [⟨"c-pre", "echo 1"⟩] ∧
      ((sampleCaseRef.MergeCommon sampleHeap sampleCommonRef).1.setHook
          (sampleCaseRef.MergeCommon sampleHeap sampleCommonRef).2.Hooks.PreTest 0
          ⟨"changed", "echo changed"⟩).hooksOf sampleCommonRef.Hooks.PreTest =
        [⟨"changed", "echo changed"⟩] ∧
      (sampleCaseRef.MergeCommon sampleHeap sampleCommonRef).2.Patches.ConnectionSecret =
        some 0 ∧
      sampleCommonRef.Patches.ConnectionSecret = some 0 ∧
      (sampleCaseRef.MergeCommon sampleHeap sampleCommonRef).1.toggleOf
          sampleCommonRef.Patches.ConnectionSecret = some true ∧
      ((sampleCaseRef.MergeCommon sampleHeap sampleCommonRef).1.setBool 0 false).toggleOf
          sampleCommonRef.Patches.ConnectionSecret = some false ∧
      ((sampleCaseRef.MergeCommon sampleHeap sampleCommonRef).1.setString
          (sampleCaseRef.MergeCommon sampleHeap sampleCommonRef).2.Inputs.CRDs 0
          "changed.yaml").stringsOf sampleCommonRef.Inputs.CRDs =
        ["c-crd1.yaml", "c-crd2.yaml"] := by
  decide

/-- C13, the part that fails, for every input: when the test case has no pre-test hooks and
the common block has some, the `PreTest` slice of the test case after `MergeCommon` is the
slice of the common block, and after an assignment of `x` to its element `i` the common block
holds `x` as its pre-test hook `i`; the same for `PostTest`; and when the toggle of the test
case is unset and the patches of the common block are merged, the toggle of the test case
after `MergeCommon` is the pointer of the common block, and after an assignment of `b` through
it the toggle of the common block is `b`. -/
theorem mergeIsolation_aliased {V : Type} [Inhabited V] (h : Heap V) (tc : TestCaseRef)
    (common : CommonRef) :
    (tc.Hooks.PreTest.len = 0 → 0 < common.Hooks.PreTest.len →
        (tc.MergeCommon h common).2.Hooks.PreTest = common.Hooks.PreTest ∧
        ∀ i x, i < common.Hooks.PreTest.len →
          common.Hooks.PreTest.len ≤ (h.hooks common.Hooks.PreTest.array).length →
          (((tc.MergeCommon h common).1.setHook (tc.MergeCommon h common).2.Hooks.PreTest
            i x).hooksOf common.Hooks.PreTest)[i]? = some x) ∧
      (tc.Hooks.PostTest.len = 0 → 0 < common.Hooks.PostTest.len →
        (tc.MergeCommon h common).2.Hooks.PostTest = common.Hooks.PostTest ∧
        ∀ i x, i < common.Hooks.PostTest.len →
          common.Hooks.PostTest.len ≤ (h.hooks common.Hooks.PostTest.array).length →
          (((tc.MergeCommon h common).1.setHook (tc.MergeCommon h common).2.Hooks.PostTest
            i x).hooksOf common.Hooks.PostTest)[i]? = some x) ∧
      (tc.Patches.ConnectionSecret = none → common.Patches.HasPatches h = true →
        ∀ p, common.Patches.ConnectionSecret = some p →
          (tc.MergeCommon h common).2.Patches.ConnectionSecret = some p ∧
          ∀ b, ((tc.MergeCommon h common).1.setBool p b).toggleOf
            common.Patches.ConnectionSecret = some b) := by
  obtain ⟨hpre, hpost, htog⟩ := mergeCommonRef_assigned h tc common
  have hhooks := (mergeCommonRef_copiesOnly h tc common).1
  refine ⟨?_, ?_, ?_⟩
  · intro h0 hc
    have hg : common.Hooks.HasHooks = true := by
      unfold HooksRef.HasHooks
      simp [hc]
    have e : (tc.MergeCommon h common).2.Hooks.PreTest = common.Hooks.PreTest := by
      rw [hpre, if_pos ⟨hg, by omega⟩]
    refine ⟨e, ?_⟩
    intro i x hi hlen
    rw [e]
    unfold Heap.hooksOf Heap.setHook
    simp only [if_true]
    rw [List.getElem?_take_of_lt hi, hhooks, List.getElem?_set_self (by omega)]
  · intro h0 hc
    have hg : common.Hooks.HasHooks = true := by
      unfold HooksRef.HasHooks
      simp [hc]
    have e : (tc.MergeCommon h common).2.Hooks.PostTest = common.Hooks.PostTest := by
      rw [hpost, if_pos ⟨hg, by omega⟩]
    refine ⟨e, ?_⟩
    intro i x hi hlen
    rw [e]
    unfold Heap.hooksOf Heap.setHook
    simp only [if_true]
    rw [List.getElem?_take_of_lt hi, hhooks, List.getElem?_set_self (by omega)]
  · intro h0 hg p hp
    refine ⟨by rw [htog, if_pos ⟨hg, h0⟩, hp], ?_⟩
    intro b
    rw [hp]
    simp [Heap.toggleOf, Heap.setBool]

/-- Witness of the general form of the failing part of C13, on `sampleCaseRef`,
`sampleCommonRef` and `sampleHeap`. -/
theorem mergeIsolation_aliased_witness :
    (((sampleCaseRef.MergeCommon sampleHeap sampleCommonRef).1.setHook
        (sampleCaseRef.MergeCommon sampleHeap sampleCommonRef).2.Hooks.PreTest 0
        ⟨"changed", "echo changed"⟩).hooksOf sampleCommonRef.Hooks.PreTest)[0]? =
        some ⟨"changed", "echo changed"⟩ ∧
      ((sampleCaseRef.MergeCommon sampleHeap sampleCommonRef).1.setBool 0 false).toggleOf
        sampleCommonRef.Patches.ConnectionSecret = some false :=
  ⟨((mergeIsolation_aliased sampleHeap sampleCaseRef sampleCommonRef).1 (by decide)
      (by decide)).2 0 _ (by decide) (by decide),
    ((mergeIsolation_aliased sampleHeap sampleCaseRef sampleCommonRef).2.2 (by decide)
      (by decide) 0 (by decide)).2 false⟩

/-- C13, the part that holds, for every input: whenever `MergeCommon` gives the test case a
new reference for `CRDs`, for `ContextFiles`, for `ContextValues` or for one of the three
assertion lists, an assignment to an element of that slice or to a key of that map changes no
array and no map that the heap had before the call, so it changes neither what the common
block holds nor what a test case merged before holds. -/
theorem mergeIsolation_copied {V : Type} [Inhabited V] (h : Heap V) (tc : TestCaseRef)
    (common : CommonRef) :
    ((tc.MergeCommon h common).2.Inputs.CRDs ≠ tc.Inputs.CRDs →
        ∀ a, a < h.nextStrings → ∀ i x,
          ((tc.MergeCommon h common).1.setString (tc.MergeCommon h common).2.Inputs.CRDs
            i x).strings a = h.strings a) ∧
      ((tc.MergeCommon h common).2.Assertions.Xprin ≠ tc.Assertions.Xprin →
        ∀ a, a < h.nextXprin → ∀ i x,
          ((tc.MergeCommon h common).1.setXprin (tc.MergeCommon h common).2.Assertions.Xprin
            i x).xprin a = h.xprin a) ∧
      ((tc.MergeCommon h common).2.Assertions.Diff ≠ tc.Assertions.Diff →
        ∀ a, a < h.nextGolden → ∀ i x,
          ((tc.MergeCommon h common).1.setGolden (tc.MergeCommon h common).2.Assertions.Diff
            i x).golden a = h.golden a) ∧
      ((tc.MergeCommon h common).2.Assertions.Dyff ≠ tc.Assertions.Dyff →
        ∀ a, a < h.nextGolden → ∀ i x,
          ((tc.MergeCommon h common).1.setGolden (tc.MergeCommon h common).2.Assertions.Dyff
            i x).golden a = h.golden a) ∧
      ((tc.MergeCommon h common).2.Inputs.ContextFiles ≠ tc.Inputs.ContextFiles →
        ∀ m, (tc.MergeCommon h common).2.Inputs.ContextFiles = some m →
          ∀ a, a < h.nextMap → ∀ k v,
            ((tc.MergeCommon h common).1.setMapEntry m k v).maps a = h.maps a) ∧
      ((tc.MergeCommon h common).2.Inputs.ContextValues ≠ tc.Inputs.ContextValues →
        ∀ m, (tc.MergeCommon h common).2.Inputs.ContextValues = some m →
          ∀ a, a < h.nextMap → ∀ k v,
            ((tc.MergeCommon h common).1.setMapEntry m k v).maps a = h.maps a) := by
  obtain ⟨_, _, _, _, _, _, a7, a8, a9, a10, a11, a12, a13, a14, a15, a16⟩ :=
    mergeCommonRef_copiesOnly h tc common
  refine ⟨?_, ?_, ?_, ?_, ?_, ?_⟩
  · intro hne a ha i x
    rcases a11 with e | ⟨l, _⟩
    · exact absurd e hne
    · have : a ≠ (tc.MergeCommon h common).2.Inputs.CRDs.array := by omega
      simp only [Heap.setString, if_neg this]
      exact a7 a ha
  · intro hne a ha i x
    rcases a12 with e | ⟨l, _⟩
    · exact absurd e hne
    · have : a ≠ (tc.MergeCommon h common).2.Assertions.Xprin.array := by omega
      simp only [Heap.setXprin, if_neg this]
      exact a8 a ha
  · intro hne a ha i x
    rcases a13 with e | ⟨l, _⟩
    · exact absurd e hne
    · have : a ≠ (tc.MergeCommon h common).2.Assertions.Diff.array := by omega
      simp only [Heap.setGolden, if_neg this]
      exact a9 a ha
  · intro hne a ha i x
    rcases a14 with e | ⟨l, _⟩
    · exact absurd e hne
    · have : a ≠ (tc.MergeCommon h common).2.Assertions.Dyff.array := by omega
      simp only [Heap.setGolden, if_neg this]
      exact a9 a ha
  · intro hne m hm a ha k v
    rcases a15 with e | ⟨m', e, l, _⟩
    · exact absurd e hne
    · have hmm : m = m' := Option.some.inj (hm.symm.trans e)
      have : a ≠ m := by omega
      simp only [Heap.setMapEntry, if_neg this]
      exact a10 a ha
  · intro hne m hm a ha k v
    rcases a16 with e | ⟨m', e, l, _⟩
    · exact absurd e hne
    · have hmm : m = m' := Option.some.inj (hm.symm.trans e)
      have : a ≠ m := by omega
      simp only [Heap.setMapEntry, if_neg this]
      exact a10 a ha

/-- Witness of the part of C13 that holds: `sampleCaseRef` gets a new `CRDs` slice from the
merge with `sampleCommonRef`, and an assignment to its element 0 leaves the array of the
`CRDs` of the common block, at the address 0, as it was. -/
theorem mergeIsolation_copied_witness :
    ((sampleCaseRef.MergeCommon sampleHeap sampleCommonRef).1.setString
        (sampleCaseRef.MergeCommon sampleHeap sampleCommonRef).2.Inputs.CRDs 0
        "changed.yaml").strings 0 = ["c-crd1.yaml", "c-crd2.yaml"] :=
  (mergeIsolation_copied sampleHeap sampleCaseRef sampleCommonRef).1 (by decide) 0
    (by decide) 0 "changed.yaml"
/-- The reference-level model of `MergeCommon` refines the value-level one: when the test
case and the common block are stored in the heap, the merged test case read from the heap
after the call is the value-level merge of the test case and the common block read from the
heap before the call. -/
theorem mergeCommonRef_refines {V : Type} [Inhabited V] (h : Heap V) (tc : TestCaseRef)
    (common : CommonRef) (hs : tc.Stored h) (hc : common.asTestCase.Stored h) :
    (tc.MergeCommon h common).1.readTestCase (tc.MergeCommon h common).2 =
      (h.readTestCase tc).MergeCommon (h.readCommon common) :=
  (simulates_mergeCommon common (h.readCommon common) h tc (h.readTestCase tc)
    ⟨rfl, hs, hc, rfl⟩).1

/-- The refinement at the sample data: both the test case and the common block are stored in
`sampleHeap`, and the test case read after the merge is the value-level merge. -/
theorem mergeCommonRef_refines_witness :
    (sampleCaseRef.MergeCommon sampleHeap sampleCommonRef).1.readTestCase
        (sampleCaseRef.MergeCommon sampleHeap sampleCommonRef).2 =
      (sampleHeap.readTestCase sampleCaseRef).MergeCommon
        (sampleHeap.readCommon sampleCommonRef) :=
  mergeCommonRef_refines sampleHeap sampleCaseRef sampleCommonRef
    (by simp [TestCaseRef.Stored, SliceRef.StoredIn, sampleCaseRef, sampleHeap])
    (by simp [TestCaseRef.Stored, SliceRef.StoredIn, CommonRef.asTestCase, sampleCommonRef,
      sampleHeap])

/-! ## Claims: the resource kind of the common block -/

/-- C21: a case cannot replace the resource kind of the common block. For every test case that
sets `Claim` and not `XR` and every common block that sets `XR`, and for every test case that
sets `XR` and not `Claim` and every common block that sets `Claim`: the case on its own does
not have the conflicting-fields violation, and after `MergeCommon` the violations of
`CheckMandatoryFields` start with the conflicting-fields violation and the error returned is
a text that starts with it. -/
theorem mergeCommon_kind_conflict {V : Type} [Inhabited V] (tc : TestCase V)
    (common : Common V)
    (h : (tc.Inputs.Claim ≠ "" ∧ tc.Inputs.XR = "" ∧ common.Inputs.XR ≠ "") ∨
      (tc.Inputs.XR ≠ "" ∧ tc.Inputs.Claim = "" ∧ common.Inputs.Claim ≠ "")) :
    "conflicting fields: both 'claim' and 'xr' are specified, but only one is allowed" ∉
        tc.mandatoryErrors ∧
      (∃ rest, (tc.MergeCommon common).mandatoryErrors =
        "conflicting fields: both 'claim' and 'xr' are specified, but only one is allowed" ::
          rest) ∧
      ∃ post, (tc.MergeCommon common).CheckMandatoryFields =
        some ("conflicting fields: both 'claim' and 'xr' are specified, but only one is allowed"
          ++ post) := by
  have hm : (tc.MergeCommon common).Inputs.Claim ≠ "" ∧
      (tc.MergeCommon common).Inputs.XR ≠ "" := by
    rw [mergeCommon_eq]
    dsimp only
    rcases h with ⟨h1, h2, h3⟩ | ⟨h1, h2, h3⟩
    · rw [if_neg h1, if_pos h2]
      exact ⟨h1, h3⟩
    · rw [if_pos h2, if_neg h1]
      exact ⟨h3, h1⟩
  obtain ⟨rest, hr⟩ := mandatoryErrors_conflict_first _ hm.1 hm.2
  refine ⟨?_, ⟨rest, hr⟩, checkMandatoryFields_of_cons _ _ rest hr⟩
  rw [mem_mandatoryErrors_conflict_iff]
  rcases h with ⟨_, h2, _⟩ | ⟨_, h2, _⟩
  · exact fun hh => hh.2 h2
  · exact fun hh => hh.1 h2

/-- C21 at the sample data: `claimCase` sets `claim` and not `xr`, `xrCommon` sets `xr`;
`claimCase` passes `CheckMandatoryFields` on its own, and merged with `xrCommon` it fails with
the conflicting-fields violation. The same holds for `xrCase` and `claimCommon`. -/
theorem mergeCommon_kind_conflict_witness :
    (claimCase.Inputs.Claim ≠ "" ∧ claimCase.Inputs.XR = "" ∧ xrCommon.Inputs.XR ≠ "") ∧
      (xrCase.Inputs.XR ≠ "" ∧ xrCase.Inputs.Claim = "" ∧ claimCommon.Inputs.Claim ≠ "") ∧
      claimCase.CheckMandatoryFields = none ∧
      xrCase.CheckMandatoryFields = none ∧
      (claimCase.MergeCommon xrCommon).CheckMandatoryFields =
        some "conflicting fields: both 'claim' and 'xr' are specified, but only one is allowed" ∧
      (xrCase.MergeCommon claimCommon).CheckMandatoryFields =
        some "conflicting fields: both 'claim' and 'xr' are specified, but only one is allowed" ∧
      (∃ post, (claimCase.MergeCommon xrCommon).CheckMandatoryFields =
        some ("conflicting fields: both 'claim' and 'xr' are specified, but only one is allowed"
          ++ post)) ∧
      ∃ post, (xrCase.MergeCommon claimCommon).CheckMandatoryFields =
        some ("conflicting fields: both 'claim' and 'xr' are specified, but only one is allowed"
          ++ post) :=
  ⟨by decide, by decide, by decide, by decide, by decide, by decide,
    (mergeCommon_kind_conflict claimCase xrCommon (Or.inl (by decide))).2.2,
    (mergeCommon_kind_conflict xrCase claimCommon (Or.inr (by decide))).2.2⟩

end Api
